import Mathlib

/-!
Shallow embedding of the content-graph storage and resolution engine of a
file-backed CMS backend (`backend/database.py` and `backend/entities/*.py`).

Entities (`Node`, `Reference`, `Component`) are Lean structures mirroring the
Python dataclasses; the key-addressed record store is modelled as association
lists keyed by id (one record per JSON file), and the wall clock / random id
generator are threaded explicitly through a `Store` state.  Timestamps are
abstract instants (`Nat`), matching the role of the ISO strings produced by
`current_timestamp()`.  Python `if x:` truthiness tests on optional integer
ids (where both `None` and `0` are falsy) are rendered by `truthyN`.
-/

namespace ContentGraph

/-- JSON-like values, the `Any` payloads of config dictionaries. -/
inductive JValue where
  | jnull : JValue
  | jbool : Bool → JValue
  | jnum : Int → JValue
  | jstr : String → JValue
  | jarr : List JValue → JValue
  | jobj : List (String × JValue) → JValue

/-- A Python `dict` of config fields, as an ordered association list
(Python dicts preserve insertion order and have unique keys). -/
abbrev Config := List (String × JValue)

/-- `d[key]` / `d.get(key)` lookup on a config dict. -/
def lookupKey : Config → String → Option JValue
  | [], _ => none
  | (k, v) :: rest, key => if k = key then some v else lookupKey rest key

def containsKey (m : Config) (k : String) : Bool :=
  (lookupKey m k).isSome

/-- Assign one key in a dict, mirroring Python assignment semantics inside
`dict.update`: an existing key keeps its position and gets the new value, a
new key is appended at the end. -/
def updateOne (m : Config) (k : String) (v : JValue) : Config :=
  if containsKey m k then m.map (fun p => if p.1 = k then (k, v) else p)
  else m ++ [(k, v)]

/-- Python `base.update(ov)` on dicts. -/
def dictUpdate (base ov : Config) : Config :=
  ov.foldl (fun acc p => updateOne acc p.1 p.2) base

/-- `entities/node.py` `Node` dataclass. -/
structure Node where
  node_id : Nat
  ref_id : Nat
  parent_node_id : Option Nat
  previous_node_id : Option Nat
  next_node_id : Option Nat
  created_at : Nat
  updated_at : Nat
deriving DecidableEq

/-- `entities/reference.py` `Reference` dataclass. -/
structure Reference where
  ref_id : Nat
  node_id : Nat
  comp_id : Nat
  overrides : Option Config
  created_at : Nat
  updated_at : Nat

/-- The variant-specific payload of a component: one constructor per concrete
component class, with exactly the dataclass fields of
`entities/containers.py`, `entities/units.py`, `entities/media.py`,
`entities/leaf.py`. -/
inductive CompData where
  | viewContainer (path name title browser_title : String)
      (description : Option String) (tag_ids : List Nat) (child_node_id : Option Nat)
  | listContainer (list_type display_mode : String) (name : Option String)
      (show_name : Bool) (child_node_id : Option Nat)
  | inlineContainer (child_node_id : Option Nat)
  | styleContainer (is_transparent : Bool) (child_node_id : Option Nat)
  | sectionUnit (text level : String)
  | plainTextUnit (content : String)
  | alertUnit (content variant : String)
  | markdownUnit (content : String)
  | linkUnit (basic_link : Option Config)
  | imageMedia (src : String) (alt caption : Option String)
  | videoMedia (src : String) (autoplay muted controls : Bool)
  | pdfMedia (src : String) (title : Option String) (height : String) (display_title : Bool)
  | experienceComponent (position company start_date end_date : String)
      (image : Option String) (content : String)
  | tagListComponent (custom_tags : List String)

/-- `entities/component.py` `Component` base dataclass (shared fields), with
the variant payload. `reference_count` is a Python `int`. -/
structure Component where
  comp_id : Nat
  reference_count : Int
  created_at : Nat
  updated_at : Nat
  data : CompData

/-- The `type` discriminator string of each variant. -/
def CompData.typeName : CompData → String
  | .viewContainer .. => "ViewContainer"
  | .listContainer .. => "ListContainer"
  | .inlineContainer .. => "InlineContainer"
  | .styleContainer .. => "StyleContainer"
  | .sectionUnit .. => "SectionUnit"
  | .plainTextUnit .. => "PlainTextUnit"
  | .alertUnit .. => "AlertUnit"
  | .markdownUnit .. => "MarkdownUnit"
  | .linkUnit .. => "LinkUnit"
  | .imageMedia .. => "ImageMedia"
  | .videoMedia .. => "VideoMedia"
  | .pdfMedia .. => "PDFMedia"
  | .experienceComponent .. => "ExperienceComponent"
  | .tagListComponent .. => "TagListComponent"

def Component.ctype (c : Component) : String := c.data.typeName

/-- `some child_node_id` for the four `Container` subclasses
(`isinstance(comp, Container)`), `none` for units/media/leaf variants. -/
def CompData.containerChild : CompData → Option (Option Nat)
  | .viewContainer _ _ _ _ _ _ ch => some ch
  | .listContainer _ _ _ _ ch => some ch
  | .inlineContainer ch => some ch
  | .styleContainer _ ch => some ch
  | _ => none

def Component.isContainer (c : Component) : Bool :=
  c.data.containerChild.isSome

def Component.child_node_id (c : Component) : Option Nat :=
  match c.data.containerChild with
  | some ch => ch
  | none => none

/-- `isinstance(comp, Container) and comp.child_node_id` (Python truthiness:
`None` and `0` are both falsy), returning the chain head when truthy. -/
def Component.activeChild (c : Component) : Option Nat :=
  match c.data.containerChild with
  | some (some k) => if k = 0 then none else some k
  | _ => none

/-- Replace `child_node_id` on container variants; identity on the rest. -/
def CompData.withChild : CompData → Option Nat → CompData
  | .viewContainer a b c d e f _, ch => .viewContainer a b c d e f ch
  | .listContainer a b c d _, ch => .listContainer a b c d ch
  | .inlineContainer _, ch => .inlineContainer ch
  | .styleContainer a _, ch => .styleContainer a ch
  | d, _ => d

def Component.withChild (c : Component) (ch : Option Nat) : Component :=
  { c with data := c.data.withChild ch }

/-- `COMPONENT_TYPES` in `database.py`, in source order (the order
`load_component_by_id` scans the per-type directories). -/
def COMPONENT_TYPES : List String :=
  ["ViewContainer", "ListContainer", "InlineContainer", "StyleContainer",
   "SectionUnit", "PlainTextUnit", "AlertUnit", "MarkdownUnit", "LinkUnit",
   "ImageMedia", "VideoMedia", "PDFMedia",
   "ExperienceComponent", "TagListComponent"]

/-- One record write / file delete, for reasoning about the order of writes. -/
inductive Event where
  | saveNode (id : Nat)
  | saveRef (id : Nat)
  | saveComp (ctype : String) (id : Nat)
  | deleteNodeFile (id : Nat)
  | deleteRefFile (id : Nat)
  | deleteCompFile (ctype : String) (id : Nat)
deriving DecidableEq

/-- The file-backed record store plus the two ambient effects of the source:
the wall clock (`current_timestamp`) and the random id generator
(`generate_id`, modelled as an oracle stream of draws, with no collision
check, exactly as in the source).  `trace` logs every record write/delete. -/
structure Store where
  nodes : List Node
  refs : List Reference
  comps : List Component
  clock : Nat
  idStream : Nat → Nat
  idIdx : Nat
  trace : List Event

/-- `generate_id()`: the next draw from the random stream. -/
def generate_id (s : Store) : Nat × Store :=
  (s.idStream s.idIdx, { s with idIdx := s.idIdx + 1 })

/-- Python truthiness of an optional integer id: `None` and `0` are falsy. -/
def truthyN : Option Nat → Bool
  | none => false
  | some n => !(n == 0)

/-- Keep an optional id only when truthy. -/
def truthyVal (o : Option Nat) : Option Nat :=
  if truthyN o then o else none

/-- Save into a keyed record list: overwrite the record with the same key
(same file path), else create a new file. -/
def putBy {α κ : Type} [DecidableEq κ] (key : α → κ) (x : α) : List α → List α
  | [] => [x]
  | y :: ys => if key y = key x then x :: ys else y :: putBy key x ys

-- ===== nodes =====

def load_node (s : Store) (node_id : Nat) : Option Node :=
  s.nodes.find? (fun n => n.node_id == node_id)

/-- `save_node`: `update_timestamp()` then write the record; returns the id. -/
def save_node (s : Store) (n : Node) : Store × Nat :=
  let stamped : Node := { n with updated_at := s.clock }
  ({ s with nodes := putBy Node.node_id stamped s.nodes,
            clock := s.clock + 1,
            trace := s.trace ++ [Event.saveNode stamped.node_id] }, stamped.node_id)

/-- `_delete_file` on a node path. -/
def delete_node_file (s : Store) (node_id : Nat) : Store × Bool :=
  if (load_node s node_id).isSome then
    ({ s with nodes := s.nodes.filter (fun n => !(n.node_id == node_id)),
              trace := s.trace ++ [Event.deleteNodeFile node_id] }, true)
  else (s, false)

def get_all_nodes (s : Store) : List Node := s.nodes

-- ===== references =====

def load_reference (s : Store) (ref_id : Nat) : Option Reference :=
  s.refs.find? (fun r => r.ref_id == ref_id)

def save_reference (s : Store) (r : Reference) : Store × Nat :=
  let stamped : Reference := { r with updated_at := s.clock }
  ({ s with refs := putBy Reference.ref_id stamped s.refs,
            clock := s.clock + 1,
            trace := s.trace ++ [Event.saveRef stamped.ref_id] }, stamped.ref_id)

def delete_ref_file (s : Store) (ref_id : Nat) : Store × Bool :=
  if (load_reference s ref_id).isSome then
    ({ s with refs := s.refs.filter (fun r => !(r.ref_id == ref_id)),
              trace := s.trace ++ [Event.deleteRefFile ref_id] }, true)
  else (s, false)

def get_all_references (s : Store) : List Reference := s.refs

-- ===== components =====

def load_component (s : Store) (ctype : String) (comp_id : Nat) : Option Component :=
  s.comps.find? (fun c => c.ctype == ctype && c.comp_id == comp_id)

/-- `load_component_by_id`: scan all types in `COMPONENT_TYPES` order. -/
def load_component_by_id (s : Store) (comp_id : Nat) : Option Component :=
  COMPONENT_TYPES.findSome? (fun t => load_component s t comp_id)

/-- Components are keyed by `(type, comp_id)`: one directory per type. -/
def compKey (c : Component) : String × Nat := (c.ctype, c.comp_id)

def save_component (s : Store) (c : Component) : Store × Nat :=
  let stamped : Component := { c with updated_at := s.clock }
  ({ s with comps := putBy compKey stamped s.comps,
            clock := s.clock + 1,
            trace := s.trace ++ [Event.saveComp stamped.ctype stamped.comp_id] }, stamped.comp_id)

def get_all_components (s : Store) : List Component :=
  COMPONENT_TYPES.flatMap (fun t => s.comps.filter (fun c => c.ctype == t))

/-- `Component.increment_reference_count`. -/
def Component.increment_reference_count (c : Component) : Component :=
  { c with reference_count := c.reference_count + 1 }

/-- `Component.decrement_reference_count`: defensive clamp at zero. -/
def Component.decrement_reference_count (c : Component) : Component :=
  if c.reference_count > 0 then { c with reference_count := c.reference_count - 1 }
  else c

def increment_component_ref_count (s : Store) (comp_id : Nat) : Store × Bool :=
  match load_component_by_id s comp_id with
  | some c => ((save_component s c.increment_reference_count).1, true)
  | none => (s, false)

def decrement_component_ref_count (s : Store) (comp_id : Nat) : Store × Bool :=
  match load_component_by_id s comp_id with
  | some c => ((save_component s c.decrement_reference_count).1, true)
  | none => (s, false)

-- ===== reference layer =====

/-- `delete_reference`: decrement the component's count, then delete the file. -/
def delete_reference (s : Store) (ref_id : Nat) : Store × Bool :=
  match load_reference s ref_id with
  | some r => delete_ref_file (decrement_component_ref_count s r.comp_id).1 ref_id
  | none => (s, false)

/-- `create_reference_to_component` (= `attach`): increment the count first,
then build and persist the Reference. -/
def create_reference_to_component (s : Store) (comp_id : Nat)
    (overrides : Option Config) (node_id : Nat) : Store × Nat :=
  let s1 := (increment_component_ref_count s comp_id).1
  let gen := generate_id s1
  let ref : Reference :=
    { ref_id := gen.1, node_id := node_id, comp_id := comp_id,
      overrides := overrides, created_at := gen.2.clock, updated_at := gen.2.clock }
  save_reference gen.2 ref

/-- `Reference.merge_config`: `if not self.overrides: return base.copy()`
(`None` and the empty dict are falsy), else `merged = base.copy();
merged.update(overrides)`. -/
def Reference.merge_config (ref : Reference) (base_config : Config) : Config :=
  match ref.overrides with
  | none => base_config
  | some [] => base_config
  | some ov => dictUpdate base_config ov

-- ===== node tree mutation =====

/-- `delete_node` (shallow): delete this node's Reference (when `ref_id` is
truthy) and then the node's own file; no sibling/parent fix-up. -/
def delete_node (s : Store) (node_id : Nat) : Store × Bool :=
  match load_node s node_id with
  | none => (s, false)
  | some node =>
    let s1 := if node.ref_id ≠ 0 then (delete_reference s node.ref_id).1 else s
    delete_node_file s1 node_id

/-- `move_node`: unlink from the old position, then splice after
`after_node_id`, translated statement-by-statement (loads and saves happen at
exactly the source's program points). -/
def move_node (s : Store) (node_id : Nat)
    (new_parent_id after_node_id : Option Nat) : Store × Bool :=
  match load_node s node_id with
  | none => (s, false)
  | some node =>
    let old_prev := (truthyVal node.previous_node_id).bind (fun i => load_node s i)
    let old_next := (truthyVal node.next_node_id).bind (fun i => load_node s i)
    let s1 := match old_prev with
      | some p => (save_node s { p with next_node_id := node.next_node_id }).1
      | none => s
    let s2 := match old_next with
      | some q => (save_node s1 { q with previous_node_id := node.previous_node_id }).1
      | none => s1
    let new_after := (truthyVal after_node_id).bind (fun i => load_node s2 i)
    let new_before := match new_after with
      | some a => (truthyVal a.next_node_id).bind (fun i => load_node s2 i)
      | none => none
    let moved : Node :=
      { node with parent_node_id := new_parent_id,
                  previous_node_id := after_node_id,
                  next_node_id := new_before.map Node.node_id }
    let s3 := match new_after with
      | some a => (save_node s2 { a with next_node_id := some node_id }).1
      | none => s2
    let s4 := match new_before with
      | some b => (save_node s3 { b with previous_node_id := some node_id }).1
      | none => s3
    ((save_node s4 moved).1, true)

/-- `_delete_node_tree`, with an explicit recursion-depth fuel (the Python
recursion has no cycle guard; ample fuel reproduces it on acyclic stores). -/
def delete_node_tree : Nat → Store → Nat → Store
  | 0, s, _ => s
  | Nat.succ fuel, s, node_id =>
    match load_node s node_id with
    | none => s
    | some node =>
      let s1 := match truthyVal node.next_node_id with
        | some nid => delete_node_tree fuel s nid
        | none => s
      let refOpt := if node.ref_id ≠ 0 then load_reference s1 node.ref_id else none
      let s2 := match refOpt with
        | some r =>
          match load_component_by_id s1 r.comp_id with
          | some comp =>
            match comp.activeChild with
            | some cid => delete_node_tree fuel s1 cid
            | none => s1
          | none => s1
        | none => s1
      (delete_node s2 node_id).1

-- ===== component configs =====

def optStrJ : Option String → JValue
  | none => .jnull
  | some s => .jstr s

def optNatJ : Option Nat → JValue
  | none => .jnull
  | some n => .jnum n

/-- `get_config()` of each variant, with the exact key set and key order of
the source. -/
def CompData.get_config : CompData → Config
  | .viewContainer path name title browser_title description tag_ids child =>
      [("path", .jstr path), ("name", .jstr name), ("title", .jstr title),
       ("browser_title", .jstr browser_title), ("description", optStrJ description),
       ("tag_ids", .jarr (tag_ids.map (fun i : Nat => .jnum (i : Int)))),
       ("child_node_id", optNatJ child)]
  | .listContainer list_type display_mode name show_name child =>
      [("list_type", .jstr list_type), ("display_mode", .jstr display_mode),
       ("name", optStrJ name), ("show_name", .jbool show_name),
       ("child_node_id", optNatJ child)]
  | .inlineContainer child =>
      [("child_node_id", optNatJ child)]
  | .styleContainer is_transparent child =>
      [("is_transparent", .jbool is_transparent), ("child_node_id", optNatJ child)]
  | .sectionUnit text level =>
      [("text", .jstr text), ("level", .jstr level)]
  | .plainTextUnit content =>
      [("content", .jstr content)]
  | .alertUnit content variant =>
      [("content", .jstr content), ("variant", .jstr variant)]
  | .markdownUnit content =>
      [("content", .jstr content)]
  | .linkUnit basic_link =>
      [("basic_link", match basic_link with | none => .jnull | some m => .jobj m)]
  | .imageMedia src alt caption =>
      [("src", .jstr src), ("alt", optStrJ alt), ("caption", optStrJ caption)]
  | .videoMedia src autoplay muted controls =>
      [("src", .jstr src), ("autoplay", .jbool autoplay), ("muted", .jbool muted),
       ("controls", .jbool controls)]
  | .pdfMedia src title height display_title =>
      [("src", .jstr src), ("title", optStrJ title), ("height", .jstr height),
       ("display_title", .jbool display_title)]
  | .experienceComponent position company start_date end_date image content =>
      [("position", .jstr position), ("company", .jstr company),
       ("start_date", .jstr start_date), ("end_date", .jstr end_date),
       ("image", optStrJ image), ("content", .jstr content)]
  | .tagListComponent custom_tags =>
      [("custom_tags", .jarr (custom_tags.map (fun t => .jstr t)))]

def Component.get_config (c : Component) : Config := c.data.get_config

-- ===== resolution engine =====

/-- The nested view produced by `resolve_node` (the result dict:
`node_id`, `ref_id`, `comp_id`, `type`, `config`, `children`). -/
structure Resolved where
  node_id : Nat
  ref_id : Nat
  comp_id : Nat
  ctype : String
  config : Config
  children : List Resolved

mutual

/-- `resolve_node`, with a recursion-depth fuel standing in for the
unbounded Python recursion (ample fuel reproduces it on acyclic stores). -/
def resolve_node : Nat → Store → Nat → Option Resolved
  | 0, _, _ => none
  | Nat.succ fuel, s, node_id =>
    match load_node s node_id with
    | none => none
    | some node =>
      match load_reference s node.ref_id with
      | none => none
      | some ref =>
        match load_component_by_id s ref.comp_id with
        | none => none
        | some comp =>
          let final_config := ref.merge_config comp.get_config
          let children := match comp.activeChild with
            | some cid => resolve_chain fuel s cid
            | none => []
          some { node_id := node.node_id, ref_id := ref.ref_id,
                 comp_id := comp.comp_id, ctype := comp.ctype,
                 config := final_config, children := children }

/-- The `while child_id:` loop over the sibling chain inside `resolve_node`:
resolve each child (skipping unresolvable ones), then follow
`next_sibling_id` while truthy. -/
def resolve_chain : Nat → Store → Nat → List Resolved
  | 0, _, _ => []
  | Nat.succ fuel, s, child_id =>
    let head := match resolve_node fuel s child_id with
      | some r => [r]
      | none => []
    let next := match load_node s child_id with
      | some child_node => truthyVal child_node.next_node_id
      | none => none
    match next with
    | some nid => head ++ resolve_chain fuel s nid
    | none => head

end

-- ===== integrity validator =====

/-- The per-component count the validator recomputes from a full scan of the
Reference records (`actual_counts` in `validate_integrity`). -/
def actual_count (refs : List Reference) (comp_id : Nat) : Nat :=
  refs.foldl (fun acc r => if r.comp_id = comp_id then acc + 1 else acc) 0

/-- `validate_integrity`: dangling-pointer checks plus the authoritative
reference-count recomputation, producing the source's diagnostic strings. -/
def validate_integrity (s : Store) : List String :=
  let nodeErrs := (get_all_nodes s).flatMap (fun node =>
    let nid := toString node.node_id
    (if (load_reference s node.ref_id).isNone then
       ["Node " ++ nid ++ " has invalid ref_id " ++ toString node.ref_id]
     else [])
    ++ (match truthyVal node.parent_node_id with
        | some p => if (load_node s p).isNone then
            ["Node " ++ nid ++ " has invalid parent_node_id " ++ toString p]
          else []
        | none => [])
    ++ (match truthyVal node.previous_node_id with
        | some p => if (load_node s p).isNone then
            ["Node " ++ nid ++ " has invalid previous_node_id " ++ toString p]
          else []
        | none => [])
    ++ (match truthyVal node.next_node_id with
        | some p => if (load_node s p).isNone then
            ["Node " ++ nid ++ " has invalid next_node_id " ++ toString p]
          else []
        | none => []))
  let refErrs := (get_all_references s).flatMap (fun r =>
    if (load_component_by_id s r.comp_id).isNone then
      ["Reference " ++ toString r.ref_id ++ " has invalid comp_id " ++ toString r.comp_id]
    else [])
  let countErrs := (get_all_components s).flatMap (fun c =>
    let expected := actual_count (get_all_references s) c.comp_id
    if (expected : Int) ≠ c.reference_count then
      ["Component " ++ c.ctype ++ "/" ++ toString c.comp_id ++
       " has reference_count " ++ toString c.reference_count ++
       ", expected " ++ toString expected]
    else [])
  nodeErrs ++ refErrs ++ countErrs

-- ===== add-child operation (routes/nodes.py POST /nodes/<id>/children) =====

/-- The `while current_id:` walk finding the last node of a sibling chain
(step 4 of `add_child_to_node`), fuelled: the source loop has no cycle
guard. -/
def find_last_sibling (s : Store) : Nat → Nat → Option Nat
  | 0, _ => none
  | Nat.succ fuel, current_id =>
    match load_node s current_id with
    | none => some current_id
    | some current =>
      match current.next_node_id with
      | none => some current_id
      | some nid => if nid = 0 then some current_id else find_last_sibling s fuel nid

/-- `add_child_to_node`: create a component (from the request's
`component_type`/`config`, here already parsed into a `CompData`), attach a
Reference, splice a new Node at the end of the parent container's chain (or
after `after0`), update the sibling links on both sides, and set the parent's
`child_node_id` when this is the first child.  Returns the new node id
(`none` models the 404 on a missing parent). -/
def add_child_to_node (s : Store) (node_id : Nat) (cdata : CompData)
    (after0 : Option Nat) (walk_fuel : Nat) : Store × Option Nat :=
  match load_node s node_id with
  | none => (s, none)
  | some parent =>
    let gc := generate_id s
    let comp : Component :=
      { comp_id := gc.1, reference_count := 0,
        created_at := gc.2.clock, updated_at := gc.2.clock, data := cdata }
    let sb := (save_component gc.2 comp).1
    let cr := create_reference_to_component sb gc.1 none 0
    let sc := cr.1
    let parent_ref := load_reference sc parent.ref_id
    let parent_comp := match parent_ref with
      | some pr => load_component_by_id sc pr.comp_id
      | none => none
    let after1 : Option Nat := match parent_comp with
      | some pc =>
        if pc.isContainer then
          if !(truthyN after0) && truthyN pc.child_node_id then
            match pc.child_node_id with
            | some ch => find_last_sibling sc walk_fuel ch
            | none => after0
          else after0
        else after0
      | none => after0
    let prev_node_id := after1
    let next_node_id : Option Nat := match truthyVal after1 with
      | some a => match load_node sc a with
        | some an => an.next_node_id
        | none => none
      | none => none
    let gn := generate_id sc
    let child : Node :=
      { node_id := gn.1, ref_id := cr.2, parent_node_id := some node_id,
        previous_node_id := prev_node_id, next_node_id := next_node_id,
        created_at := gn.2.clock, updated_at := gn.2.clock }
    let se := (save_node gn.2 child).1
    let sf := match truthyVal prev_node_id with
      | some p => match load_node se p with
        | some pn => (save_node se { pn with next_node_id := some gn.1 }).1
        | none => se
      | none => se
    let sg := match truthyVal next_node_id with
      | some q => match load_node sf q with
        | some qn => (save_node sf { qn with previous_node_id := some gn.1 }).1
        | none => sf
      | none => sf
    let sh := match parent_comp with
      | some pc =>
        if pc.isContainer && !(truthyN pc.child_node_id) then
          (save_component sg (pc.withChild (some gn.1))).1
        else sg
      | none => sg
    (sh, some gn.1)

-- ===== serialization (to_dict / from_dict) =====

/-- Read a required integer id (`data[key]`); Python raises `KeyError` /
keeps arbitrary ints, our `Nat`-typed ids accept the non-negative ones. -/
def jToNat? : JValue → Option Nat
  | .jnum (.ofNat n) => some n
  | _ => none

/-- `data.get(key)` for an optional id field. -/
def jToOptNat : Option JValue → Option Nat
  | some (.jnum (.ofNat n)) => some n
  | _ => none

/-- `data.get(key, current_timestamp())` for a timestamp field. -/
def jTimeD (now : Nat) : Option JValue → Nat
  | some (.jnum (.ofNat n)) => n
  | _ => now

def jToInt (dflt : Int) : Option JValue → Int
  | some (.jnum i) => i
  | _ => dflt

def jToStrD (dflt : String) : Option JValue → String
  | some (.jstr s) => s
  | _ => dflt

def jToOptStr : Option JValue → Option String
  | some (.jstr s) => some s
  | _ => none

def jToBoolD (dflt : Bool) : Option JValue → Bool
  | some (.jbool b) => b
  | _ => dflt

def jToOptConfig : Option JValue → Option Config
  | some (.jobj m) => some m
  | _ => none

def jToConfigD : Option JValue → Config
  | some (.jobj m) => m
  | _ => []

def jToStr? : JValue → Option String
  | .jstr s => some s
  | _ => none

def mapJToNat : List JValue → Option (List Nat)
  | [] => some []
  | v :: vs =>
    match jToNat? v with
    | some n => (mapJToNat vs).map (fun l => n :: l)
    | none => none

def mapJToStr : List JValue → Option (List String)
  | [] => some []
  | v :: vs =>
    match jToStr? v with
    | some t => (mapJToStr vs).map (fun l => t :: l)
    | none => none

/-- `config.get('tag_ids', [])`-style list of ids. -/
def jToNatListD : Option JValue → Option (List Nat)
  | some (.jarr xs) => mapJToNat xs
  | none => some []
  | _ => none

/-- `config.get('custom_tags', [])`-style list of strings. -/
def jToStrListD : Option JValue → Option (List String)
  | some (.jarr xs) => mapJToStr xs
  | none => some []
  | _ => none

/-- `Node.to_dict`. -/
def Node.to_dict (n : Node) : Config :=
  [("node_id", .jnum n.node_id), ("ref_id", .jnum n.ref_id),
   ("parent_node_id", optNatJ n.parent_node_id),
   ("previous_node_id", optNatJ n.previous_node_id),
   ("next_node_id", optNatJ n.next_node_id),
   ("created_at", .jnum n.created_at), ("updated_at", .jnum n.updated_at)]

/-- `Node.from_dict` (`now` is the `current_timestamp()` default used for a
missing timestamp). -/
def Node.from_dict (now : Nat) (d : Config) : Option Node := do
  let nid ← (lookupKey d "node_id").bind jToNat?
  let rid ← (lookupKey d "ref_id").bind jToNat?
  some { node_id := nid, ref_id := rid,
         parent_node_id := jToOptNat (lookupKey d "parent_node_id"),
         previous_node_id := jToOptNat (lookupKey d "previous_node_id"),
         next_node_id := jToOptNat (lookupKey d "next_node_id"),
         created_at := jTimeD now (lookupKey d "created_at"),
         updated_at := jTimeD now (lookupKey d "updated_at") }

/-- `Reference.to_dict`. -/
def Reference.to_dict (r : Reference) : Config :=
  [("ref_id", .jnum r.ref_id), ("node_id", .jnum r.node_id),
   ("comp_id", .jnum r.comp_id),
   ("overrides", match r.overrides with | none => .jnull | some m => .jobj m),
   ("created_at", .jnum r.created_at), ("updated_at", .jnum r.updated_at)]

/-- `Reference.from_dict`. -/
def Reference.from_dict (now : Nat) (d : Config) : Option Reference := do
  let rid ← (lookupKey d "ref_id").bind jToNat?
  let nid ← (lookupKey d "node_id").bind jToNat?
  let cid ← (lookupKey d "comp_id").bind jToNat?
  some { ref_id := rid, node_id := nid, comp_id := cid,
         overrides := jToOptConfig (lookupKey d "overrides"),
         created_at := jTimeD now (lookupKey d "created_at"),
         updated_at := jTimeD now (lookupKey d "updated_at") }

/-- `Component.to_dict`: the shared `_component_base_dict` plus the variant's
`config`. -/
def Component.to_dict (c : Component) : Config :=
  [("comp_id", .jnum c.comp_id), ("type", .jstr c.ctype),
   ("reference_count", .jnum c.reference_count),
   ("created_at", .jnum c.created_at), ("updated_at", .jnum c.updated_at),
   ("config", .jobj c.get_config)]

/-- The per-variant `from_dict` bodies (reading `config` with each field's
source default), dispatched on the `type` tag by `component_from_dict`. -/
def compDataFromConfig (t : String) (config : Config) : Option CompData :=
  if t = "ViewContainer" then do
    let tids ← jToNatListD (lookupKey config "tag_ids")
    some (.viewContainer (jToStrD "" (lookupKey config "path"))
      (jToStrD "" (lookupKey config "name")) (jToStrD "" (lookupKey config "title"))
      (jToStrD "" (lookupKey config "browser_title"))
      (jToOptStr (lookupKey config "description")) tids
      (jToOptNat (lookupKey config "child_node_id")))
  else if t = "ListContainer" then
    some (.listContainer (jToStrD "View" (lookupKey config "list_type"))
      (jToStrD "list" (lookupKey config "display_mode"))
      (jToOptStr (lookupKey config "name"))
      (jToBoolD true (lookupKey config "show_name"))
      (jToOptNat (lookupKey config "child_node_id")))
  else if t = "InlineContainer" then
    some (.inlineContainer (jToOptNat (lookupKey config "child_node_id")))
  else if t = "StyleContainer" then
    some (.styleContainer (jToBoolD false (lookupKey config "is_transparent"))
      (jToOptNat (lookupKey config "child_node_id")))
  else if t = "SectionUnit" then
    some (.sectionUnit (jToStrD "" (lookupKey config "text"))
      (jToStrD "h1" (lookupKey config "level")))
  else if t = "PlainTextUnit" then
    some (.plainTextUnit (jToStrD "" (lookupKey config "content")))
  else if t = "AlertUnit" then
    some (.alertUnit (jToStrD "" (lookupKey config "content"))
      (jToStrD "info" (lookupKey config "variant")))
  else if t = "MarkdownUnit" then
    some (.markdownUnit (jToStrD "" (lookupKey config "content")))
  else if t = "LinkUnit" then
    some (.linkUnit (jToOptConfig (lookupKey config "basic_link")))
  else if t = "ImageMedia" then
    some (.imageMedia (jToStrD "" (lookupKey config "src"))
      (jToOptStr (lookupKey config "alt")) (jToOptStr (lookupKey config "caption")))
  else if t = "VideoMedia" then
    some (.videoMedia (jToStrD "" (lookupKey config "src"))
      (jToBoolD false (lookupKey config "autoplay"))
      (jToBoolD false (lookupKey config "muted"))
      (jToBoolD true (lookupKey config "controls")))
  else if t = "PDFMedia" then
    some (.pdfMedia (jToStrD "" (lookupKey config "src"))
      (jToOptStr (lookupKey config "title"))
      (jToStrD "600px" (lookupKey config "height"))
      (jToBoolD true (lookupKey config "display_title")))
  else if t = "ExperienceComponent" then
    some (.experienceComponent (jToStrD "" (lookupKey config "position"))
      (jToStrD "" (lookupKey config "company"))
      (jToStrD "" (lookupKey config "start_date"))
      (jToStrD "" (lookupKey config "end_date"))
      (jToOptStr (lookupKey config "image"))
      (jToStrD "" (lookupKey config "content")))
  else if t = "TagListComponent" then do
    let tags ← jToStrListD (lookupKey config "custom_tags")
    some (.tagListComponent tags)
  else none

/-- `component_from_dict`: dispatch on the `type` tag; an unknown tag is a
hard failure (`ValueError`), modelled as `none`. -/
def component_from_dict (now : Nat) (d : Config) : Option Component := do
  let cid ← (lookupKey d "comp_id").bind jToNat?
  let cdata ← match lookupKey d "type" with
    | some (.jstr t) => compDataFromConfig t (jToConfigD (lookupKey d "config"))
    | _ => none
  some { comp_id := cid,
         reference_count := jToInt 0 (lookupKey d "reference_count"),
         created_at := jTimeD now (lookupKey d "created_at"),
         updated_at := jTimeD now (lookupKey d "updated_at"),
         data := cdata }

-- ===== store algebra =====

theorem find?_putBy {α κ : Type} [DecidableEq κ] (key : α → κ) (x : α)
    (p : α → Bool) (k0 : κ) (hp : ∀ y, p y = true ↔ key y = k0) :
    ∀ l : List α, (putBy key x l).find? p =
      if key x = k0 then some x else l.find? p := by
  intro l
  induction l with
  | nil =>
    by_cases h : key x = k0
    · simp [putBy, List.find?, h, (hp x).mpr h]
    · have hx : p x = false := by
        cases hpx : p x
        · rfl
        · exact absurd ((hp x).mp hpx) h
      simp [putBy, List.find?, h, hx]
  | cons y ys ih =>
    by_cases hyx : key y = key x
    · simp only [putBy, if_pos hyx]
      by_cases h : key x = k0
      · simp [List.find?, (hp x).mpr h, h]
      · have hx : p x = false := by
          cases hpx : p x
          · rfl
          · exact absurd ((hp x).mp hpx) h
        have hy : p y = false := by
          cases hpy : p y
          · rfl
          · exact absurd ((hp y).mp hpy) (hyx ▸ h)
        simp [List.find?, hx, hy, h]
    · simp only [putBy, if_neg hyx]
      by_cases h : key x = k0
      · have hy : p y = false := by
          cases hpy : p y
          · rfl
          · exact absurd ((hp y).mp hpy) (fun hk => hyx (hk.trans h.symm))
        simp [List.find?, hy, ih, h]
      · cases hpy : p y
        · simp [List.find?, hpy, ih, h]
        · simp [List.find?, hpy, h]

theorem find?_filter_keep {α κ : Type} [DecidableEq κ] (key : α → κ) (kd : κ)
    (q : α → Bool) (hq : ∀ y, q y = true ↔ key y ≠ kd)
    (p : α → Bool) (k0 : κ) (hp : ∀ y, p y = true ↔ key y = k0) :
    ∀ l : List α, (l.filter q).find? p =
      if k0 = kd then none else l.find? p := by
  intro l
  induction l with
  | nil => by_cases h : k0 = kd <;> simp [h]
  | cons y ys ih =>
    cases hqy : q y
    · have hky : key y = kd := by
        by_contra hne
        exact absurd ((hq y).mpr hne) (by simp [hqy])
      by_cases h : k0 = kd
      · simp [List.filter, hqy, ih, h]
      · have hpyf : p y = false := by
          cases hpy : p y
          · rfl
          · exact absurd (((hp y).mp hpy).symm.trans hky) h
        simp [List.filter, hqy, ih, h, List.find?, hpyf]
    · have hky : key y ≠ kd := (hq y).mp hqy
      by_cases h : k0 = kd
      · have hpyf : p y = false := by
          cases hpy : p y
          · rfl
          · exact absurd ((hp y).mp hpy) (by rw [h]; exact hky)
        simp [List.filter, hqy, List.find?, hpyf, ih, h]
      · cases hpy : p y
        · simp [List.filter, hqy, List.find?, hpy, ih, h]
        · simp [List.filter, hqy, List.find?, hpy, h]

-- ---- specializations to the three record stores ----

theorem load_node_save_node (s : Store) (n : Node) (k : Nat) :
    load_node (save_node s n).1 k =
      if n.node_id = k then some { n with updated_at := s.clock }
      else load_node s k := by
  have := find?_putBy Node.node_id
    ({ n with updated_at := s.clock } : Node)
    (fun m => m.node_id == k) k (fun y => by simp) s.nodes
  simpa [load_node, save_node] using this

theorem load_node_delete_node_file (s : Store) (kd k : Nat) :
    load_node (delete_node_file s kd).1 k =
      if k = kd then none else load_node s k := by
  unfold delete_node_file
  by_cases hex : (load_node s kd).isSome
  · have := find?_filter_keep Node.node_id kd
      (fun m => !(m.node_id == kd)) (fun y => by simp)
      (fun m => m.node_id == k) k (fun y => by simp) s.nodes
    simp only [hex, if_true]
    simpa [load_node] using this
  · have hf : (load_node s kd).isSome = false := by simpa using hex
    simp only [hf, Bool.false_eq_true, if_false]
    by_cases h : k = kd
    · subst h
      have hn : load_node s k = none := by
        cases hl : load_node s k
        · rfl
        · rw [hl] at hf; simp at hf
      simp [hn]
    · simp [h]

theorem load_reference_save_reference (s : Store) (r : Reference) (k : Nat) :
    load_reference (save_reference s r).1 k =
      if r.ref_id = k then some { r with updated_at := s.clock }
      else load_reference s k := by
  have := find?_putBy Reference.ref_id
    ({ r with updated_at := s.clock } : Reference)
    (fun m => m.ref_id == k) k (fun y => by simp) s.refs
  simpa [load_reference, save_reference] using this

theorem load_reference_delete_ref_file (s : Store) (kd k : Nat) :
    load_reference (delete_ref_file s kd).1 k =
      if k = kd then none else load_reference s k := by
  unfold delete_ref_file
  by_cases hex : (load_reference s kd).isSome
  · have := find?_filter_keep Reference.ref_id kd
      (fun m => !(m.ref_id == kd)) (fun y => by simp)
      (fun m => m.ref_id == k) k (fun y => by simp) s.refs
    simp only [hex, if_true]
    simpa [load_reference] using this
  · have hf : (load_reference s kd).isSome = false := by simpa using hex
    simp only [hf, Bool.false_eq_true, if_false]
    by_cases h : k = kd
    · subst h
      have hn : load_reference s k = none := by
        cases hl : load_reference s k
        · rfl
        · rw [hl] at hf; simp at hf
      simp [hn]
    · simp [h]

theorem load_component_save_component (s : Store) (c : Component)
    (t : String) (k : Nat) :
    load_component (save_component s c).1 t k =
      if compKey c = (t, k) then some { c with updated_at := s.clock }
      else load_component s t k := by
  have := find?_putBy compKey ({ c with updated_at := s.clock } : Component)
    (fun m => m.ctype == t && m.comp_id == k) (t, k)
    (fun y => by simp [compKey, Prod.ext_iff]) s.comps
  have hkey : compKey ({ c with updated_at := s.clock } : Component) = compKey c := rfl
  simpa [load_component, save_component, hkey, compKey, Component.ctype]
    using this

-- ---- frame facts: each primitive touches only its own record list ----

theorem save_node_refs (s : Store) (n : Node) : (save_node s n).1.refs = s.refs := rfl

theorem save_node_comps (s : Store) (n : Node) : (save_node s n).1.comps = s.comps := rfl

theorem save_reference_nodes (s : Store) (r : Reference) :
    (save_reference s r).1.nodes = s.nodes := rfl

theorem save_reference_comps (s : Store) (r : Reference) :
    (save_reference s r).1.comps = s.comps := rfl

theorem save_component_nodes (s : Store) (c : Component) :
    (save_component s c).1.nodes = s.nodes := rfl

theorem save_component_refs (s : Store) (c : Component) :
    (save_component s c).1.refs = s.refs := rfl

theorem delete_node_file_refs (s : Store) (k : Nat) :
    (delete_node_file s k).1.refs = s.refs := by
  unfold delete_node_file; split <;> rfl

theorem delete_node_file_comps (s : Store) (k : Nat) :
    (delete_node_file s k).1.comps = s.comps := by
  unfold delete_node_file; split <;> rfl

theorem delete_ref_file_nodes (s : Store) (k : Nat) :
    (delete_ref_file s k).1.nodes = s.nodes := by
  unfold delete_ref_file; split <;> rfl

theorem delete_ref_file_comps (s : Store) (k : Nat) :
    (delete_ref_file s k).1.comps = s.comps := by
  unfold delete_ref_file; split <;> rfl

theorem load_node_congr {s t : Store} (h : s.nodes = t.nodes) (k : Nat) :
    load_node s k = load_node t k := by
  unfold load_node; rw [h]

theorem load_reference_congr {s t : Store} (h : s.refs = t.refs) (k : Nat) :
    load_reference s k = load_reference t k := by
  unfold load_reference; rw [h]

theorem load_component_congr {s t : Store} (h : s.comps = t.comps)
    (ty : String) (k : Nat) :
    load_component s ty k = load_component t ty k := by
  unfold load_component; rw [h]

theorem load_component_by_id_congr {s t : Store} (h : s.comps = t.comps)
    (k : Nat) : load_component_by_id s k = load_component_by_id t k := by
  unfold load_component_by_id
  have hc : ∀ ty, load_component s ty k = load_component t ty k :=
    fun ty => load_component_congr h ty k
  simp only [hc]

-- ===== dict update lemmas =====

theorem lookup_map_assign_same (k : String) (v : JValue) :
    ∀ m : Config,
      lookupKey (m.map (fun p => if p.1 = k then (k, v) else p)) k =
        if containsKey m k then some v else none := by
  intro m
  induction m with
  | nil => simp [lookupKey, containsKey]
  | cons p rest ih =>
    obtain ⟨a, b⟩ := p
    simp only [List.map_cons]
    by_cases ha : a = k
    · rw [if_pos (show (a, b).1 = k from ha)]
      simp [lookupKey, containsKey, ha]
    · rw [if_neg (show ¬(a, b).1 = k from ha)]
      simp [lookupKey, containsKey, ha, ih]

theorem lookup_map_assign_other (k k' : String) (v : JValue) (hne : k' ≠ k) :
    ∀ m : Config,
      lookupKey (m.map (fun p => if p.1 = k then (k, v) else p)) k' =
        lookupKey m k' := by
  intro m
  induction m with
  | nil => rfl
  | cons p rest ih =>
    obtain ⟨a, b⟩ := p
    simp only [List.map_cons]
    by_cases ha : a = k
    · rw [if_pos (show (a, b).1 = k from ha)]
      subst ha
      simp [lookupKey, Ne.symm hne, ih]
    · rw [if_neg (show ¬(a, b).1 = k from ha)]
      by_cases ha' : a = k'
      · simp [lookupKey, ha']
      · simp [lookupKey, ha', ih]

theorem lookup_append (k : String) :
    ∀ m1 m2 : Config,
      lookupKey (m1 ++ m2) k =
        match lookupKey m1 k with
        | some v => some v
        | none => lookupKey m2 k := by
  intro m1 m2
  induction m1 with
  | nil => simp [lookupKey]
  | cons p rest ih =>
    obtain ⟨a, b⟩ := p
    by_cases ha : a = k
    · simp [lookupKey, ha]
    · simp [lookupKey, ha, ih]

theorem lookup_updateOne_same (k : String) (v : JValue) (m : Config) :
    lookupKey (updateOne m k v) k = some v := by
  unfold updateOne
  by_cases h : containsKey m k = true
  · simp [h, lookup_map_assign_same]
  · have hn : lookupKey m k = none := by
      cases hl : lookupKey m k with
      | none => rfl
      | some w => exact absurd (by simp [containsKey, hl]) h
    simp [h, lookup_append, hn, lookupKey]

theorem lookup_updateOne_other (k k' : String) (v : JValue) (hne : k' ≠ k)
    (m : Config) : lookupKey (updateOne m k v) k' = lookupKey m k' := by
  unfold updateOne
  by_cases h : containsKey m k = true
  · simp [h, lookup_map_assign_other k k' v hne]
  · rw [if_neg h, lookup_append]
    cases hl : lookupKey m k' with
    | some w => rfl
    | none => simp [lookupKey, Ne.symm hne]

theorem lookup_dictUpdate_absent (k : String) :
    ∀ (ov base : Config), lookupKey ov k = none →
      lookupKey (dictUpdate base ov) k = lookupKey base k := by
  intro ov
  induction ov with
  | nil => intro base _; rfl
  | cons p rest ih =>
    intro base habs
    obtain ⟨a, b⟩ := p
    have ha : a ≠ k := by
      intro hk
      simp [lookupKey, hk] at habs
    have hrest : lookupKey rest k = none := by
      simpa [lookupKey, ha] using habs
    calc lookupKey (dictUpdate (updateOne base a b) rest) k
        = lookupKey (updateOne base a b) k := ih _ hrest
      _ = lookupKey base k := lookup_updateOne_other a k b (fun hk => ha hk.symm) base

theorem lookup_of_map_fst_not_mem {k : String} :
    ∀ {rest : Config}, k ∉ rest.map Prod.fst → lookupKey rest k = none := by
  intro rest
  induction rest with
  | nil => intro _; rfl
  | cons q qs ihq =>
    intro hnm
    obtain ⟨a, b⟩ := q
    simp only [List.map_cons, List.mem_cons] at hnm
    push_neg at hnm
    simp [lookupKey, (Ne.symm hnm.1 : a ≠ k), ihq hnm.2]

theorem lookup_dictUpdate_mem (k : String) (v : JValue) :
    ∀ (ov base : Config), (ov.map Prod.fst).Nodup →
      lookupKey ov k = some v →
      lookupKey (dictUpdate base ov) k = some v := by
  intro ov
  induction ov with
  | nil => intro base _ hmem; simp [lookupKey] at hmem
  | cons p rest ih =>
    intro base hnd hmem
    obtain ⟨a, b⟩ := p
    rw [List.map_cons] at hnd
    obtain ⟨hnotin, hndr⟩ := List.nodup_cons.mp hnd
    show lookupKey (dictUpdate (updateOne base a b) rest) k = some v
    by_cases ha : a = k
    · subst ha
      have hv : b = v := by simpa [lookupKey] using hmem
      have hrest : lookupKey rest a = none := lookup_of_map_fst_not_mem (by simpa using hnotin)
      rw [lookup_dictUpdate_absent a rest _ hrest, lookup_updateOne_same a b base, hv]
    · have hrest : lookupKey rest k = some v := by
        simpa [lookupKey, ha] using hmem
      exact ih _ hndr hrest

-- ===== component lookup lemmas =====

theorem findSome?_load_some (s : Store) (cid : Nat) (c0 : Component) :
    ∀ ts : List String,
      ts.findSome? (fun t => load_component s t cid) = some c0 →
      c0.comp_id = cid ∧ load_component s c0.ctype cid = some c0 := by
  intro ts
  induction ts with
  | nil => intro h; simp [List.findSome?] at h
  | cons t rest ih =>
    intro h
    rw [List.findSome?_cons] at h
    cases hl : load_component s t cid with
    | some x =>
      rw [hl] at h
      have hx : x = c0 := by injection h
      have hp := List.find?_some (show List.find?
          (fun c => c.ctype == t && c.comp_id == cid) s.comps = some x from hl)
      obtain ⟨ht, hcid⟩ : x.ctype = t ∧ x.comp_id = cid := by
        simpa using hp
      rw [hx] at ht hcid hl
      refine ⟨hcid, ?_⟩
      rw [ht]
      exact hl
    | none =>
      rw [hl] at h
      exact ih h

theorem load_component_by_id_comp_id {s : Store} {cid : Nat} {c0 : Component}
    (h : load_component_by_id s cid = some c0) : c0.comp_id = cid :=
  (findSome?_load_some s cid c0 COMPONENT_TYPES h).1

/-- Saving a component on top of the record found by `load_component_by_id`
(same type directory, same id) makes the updated record the one found. -/
theorem load_component_by_id_save_update (s : Store) (c0 c : Component)
    (hkey : compKey c = compKey c0)
    (h : load_component_by_id s c0.comp_id = some c0) :
    load_component_by_id (save_component s c).1 c0.comp_id =
      some { c with updated_at := s.clock } := by
  unfold load_component_by_id at h ⊢
  revert h
  induction COMPONENT_TYPES with
  | nil => intro h; simp [List.findSome?] at h
  | cons t rest ih =>
    intro h
    rw [List.findSome?_cons] at h ⊢
    cases hl : load_component s t c0.comp_id with
    | some x =>
      rw [hl] at h
      have hx : x = c0 := by injection h
      have hp := List.find?_some (show List.find?
          (fun c => c.ctype == t && c.comp_id == c0.comp_id) s.comps = some x from hl)
      have ht : c0.ctype = t := by
        rw [← hx]
        have hpp : x.ctype = t ∧ x.comp_id = c0.comp_id := by simpa using hp
        exact hpp.1
      have hpos : compKey c = (t, c0.comp_id) := by
        rw [hkey]
        show (c0.ctype, c0.comp_id) = (t, c0.comp_id)
        rw [ht]
      rw [load_component_save_component, if_pos hpos]
    | none =>
      rw [hl] at h
      have hne : compKey c ≠ (t, c0.comp_id) := by
        intro hck
        obtain ⟨_, hload⟩ := findSome?_load_some s c0.comp_id c0 rest h
        have hco : compKey c0 = (t, c0.comp_id) := by rw [← hkey]; exact hck
        have ht : c0.ctype = t := congrArg Prod.fst hco
        rw [ht, hl] at hload
        exact Option.noConfusion hload
      rw [load_component_save_component, if_neg hne, hl]
      exact ih h

theorem load_reference_save_self (s : Store) (r : Reference) :
    load_reference (save_reference s r).1 (save_reference s r).2 =
      some { r with updated_at := s.clock } := by
  rw [show (save_reference s r).2 = r.ref_id from rfl]
  rw [load_reference_save_reference, if_pos rfl]

-- ===== C4: shallow config merge =====

/-- C4: `mergeConfig(baseConfig, overrides)` is a shallow key-wise override:
every key present in `overrides` maps to exactly the overrides value (a
nested object replaces the base value in full), every key absent from
`overrides` keeps its unchanged `baseConfig` value; and the spec's two
concrete examples `mergeConfig({a:1,b:2},{b:3}) == {a:1,b:3}` and
`mergeConfig({a:{x:1}},{a:{y:2}}) == {a:{y:2}}` hold. -/
theorem merge_config_shallow_override (base ov : Config) (r : Reference)
    (hr : r.overrides = some ov) (hnd : (ov.map Prod.fst).Nodup) :
    (∀ k v, lookupKey ov k = some v →
      lookupKey (r.merge_config base) k = some v) ∧
    (∀ k, lookupKey ov k = none →
      lookupKey (r.merge_config base) k = lookupKey base k) ∧
    Reference.merge_config
        { ref_id := 1, node_id := 0, comp_id := 0,
          overrides := some [("b", .jnum 3)], created_at := 0, updated_at := 0 }
        [("a", .jnum 1), ("b", .jnum 2)] = [("a", .jnum 1), ("b", .jnum 3)] ∧
    Reference.merge_config
        { ref_id := 2, node_id := 0, comp_id := 0,
          overrides := some [("a", .jobj [("y", .jnum 2)])],
          created_at := 0, updated_at := 0 }
        [("a", .jobj [("x", .jnum 1)])] = [("a", .jobj [("y", .jnum 2)])] := by
  refine ⟨?_, ?_, by rfl, by rfl⟩
  · intro k v hkv
    unfold Reference.merge_config
    rw [hr]
    cases ov with
    | nil => simp [lookupKey] at hkv
    | cons p rest => exact lookup_dictUpdate_mem k v _ base hnd hkv
  · intro k hk
    unfold Reference.merge_config
    rw [hr]
    cases ov with
    | nil => rfl
    | cons p rest => exact lookup_dictUpdate_absent k _ base hk

theorem merge_config_shallow_override_witness :
    lookupKey (Reference.merge_config
      { ref_id := 1, node_id := 0, comp_id := 0,
        overrides := some [("b", .jnum 3)], created_at := 0, updated_at := 0 }
      [("a", .jnum 1), ("b", .jnum 2)]) "b" = some (.jnum 3) :=
  (merge_config_shallow_override [("a", .jnum 1), ("b", .jnum 2)]
    [("b", .jnum 3)]
    { ref_id := 1, node_id := 0, comp_id := 0,
      overrides := some [("b", .jnum 3)], created_at := 0, updated_at := 0 }
    rfl (by simp)).1 "b" (.jnum 3) rfl

-- ===== C10: attach with a dangling component id =====

/-- C10: `attach(component_id, ...)` on a component id with no Component
record still creates and persists a Reference with that `comp_id`, returns
the fresh reference id, and leaves every Component record unchanged (no
count is incremented) — no error is reported. -/
theorem attach_dangling_reference (s : Store) (cid : Nat)
    (ov : Option Config) (own : Nat)
    (hc : load_component_by_id s cid = none) :
    (create_reference_to_component s cid ov own).2 = s.idStream s.idIdx ∧
    load_reference (create_reference_to_component s cid ov own).1
        (create_reference_to_component s cid ov own).2 =
      some { ref_id := s.idStream s.idIdx, node_id := own, comp_id := cid,
             overrides := ov, created_at := s.clock, updated_at := s.clock } ∧
    (create_reference_to_component s cid ov own).1.comps = s.comps := by
  have h1 : create_reference_to_component s cid ov own =
      save_reference (generate_id s).2
        { ref_id := (generate_id s).1, node_id := own, comp_id := cid,
          overrides := ov, created_at := (generate_id s).2.clock,
          updated_at := (generate_id s).2.clock } := by
    unfold create_reference_to_component increment_component_ref_count
    rw [hc]
  rw [h1]
  exact ⟨rfl, load_reference_save_self (generate_id s).2 _, rfl⟩

theorem attach_dangling_reference_witness :
    load_component_by_id
      { nodes := [], refs := [], comps := [], clock := 0,
        idStream := fun i => i + 50, idIdx := 0, trace := [] } 7 = none ∧
    (create_reference_to_component
      { nodes := [], refs := [], comps := [], clock := 0,
        idStream := fun i => i + 50, idIdx := 0, trace := [] } 7 none 0).2 = 50 := by
  have h := attach_dangling_reference
    { nodes := [], refs := [], comps := [], clock := 0,
      idStream := fun i => i + 50, idIdx := 0, trace := [] } 7 none 0 rfl
  exact ⟨rfl, h.1⟩

-- ===== C5: attach increments before persisting =====

/-- C5: for an existing Component, `attach` increments exactly that
Component's persisted `reference_count` by one, and in the sequence of
record writes the updated Component record is saved strictly before the new
Reference record. -/
theorem attach_increments_before_persisting (s : Store) (c : Component)
    (cid : Nat) (ov : Option Config) (own : Nat)
    (hc : load_component_by_id s cid = some c) :
    load_component_by_id (create_reference_to_component s cid ov own).1 cid =
      some { c with reference_count := c.reference_count + 1,
                    updated_at := s.clock } ∧
    (create_reference_to_component s cid ov own).1.trace =
      s.trace ++ [Event.saveComp c.ctype cid,
                  Event.saveRef (create_reference_to_component s cid ov own).2] := by
  have hcid : c.comp_id = cid := load_component_by_id_comp_id hc
  have h1 : create_reference_to_component s cid ov own =
      save_reference (generate_id (save_component s c.increment_reference_count).1).2
        { ref_id := (generate_id (save_component s c.increment_reference_count).1).1,
          node_id := own, comp_id := cid, overrides := ov,
          created_at := (generate_id (save_component s c.increment_reference_count).1).2.clock,
          updated_at := (generate_id (save_component s c.increment_reference_count).1).2.clock } := by
    unfold create_reference_to_component increment_component_ref_count
    rw [hc]
  rw [h1]
  constructor
  · have hupd := load_component_by_id_save_update s c
      c.increment_reference_count rfl (by rw [hcid]; exact hc)
    have hframe : load_component_by_id
        (save_reference (generate_id (save_component s c.increment_reference_count).1).2
          { ref_id := (generate_id (save_component s c.increment_reference_count).1).1,
            node_id := own, comp_id := cid, overrides := ov,
            created_at := (generate_id (save_component s c.increment_reference_count).1).2.clock,
            updated_at := (generate_id (save_component s c.increment_reference_count).1).2.clock }).1 cid =
        load_component_by_id (save_component s c.increment_reference_count).1 cid :=
      load_component_by_id_congr rfl cid
    rw [hframe, ← hcid]
    exact hupd
  · rw [show (save_reference (generate_id (save_component s c.increment_reference_count).1).2
        { ref_id := (generate_id (save_component s c.increment_reference_count).1).1,
          node_id := own, comp_id := cid, overrides := ov,
          created_at := (generate_id (save_component s c.increment_reference_count).1).2.clock,
          updated_at := (generate_id (save_component s c.increment_reference_count).1).2.clock }).1.trace =
      s.trace ++ [Event.saveComp c.ctype c.comp_id] ++
        [Event.saveRef (generate_id (save_component s c.increment_reference_count).1).1] from rfl]
    rw [hcid, List.append_assoc]
    rfl

theorem attach_increments_before_persisting_witness :
    load_component_by_id
      { nodes := [], refs := [],
        comps := [{ comp_id := 7, reference_count := 0, created_at := 0,
                    updated_at := 0, data := CompData.plainTextUnit "hi" }],
        clock := 3, idStream := fun i => i + 90, idIdx := 0, trace := [] } 7 =
      some { comp_id := 7, reference_count := 0, created_at := 0,
             updated_at := 0, data := CompData.plainTextUnit "hi" } ∧
    load_component_by_id
      (create_reference_to_component
        { nodes := [], refs := [],
          comps := [{ comp_id := 7, reference_count := 0, created_at := 0,
                      updated_at := 0, data := CompData.plainTextUnit "hi" }],
          clock := 3, idStream := fun i => i + 90, idIdx := 0, trace := [] }
        7 none 0).1 7 =
      some { comp_id := 7, reference_count := 1, created_at := 0,
             updated_at := 3, data := CompData.plainTextUnit "hi" } := by
  have h := attach_increments_before_persisting
    { nodes := [], refs := [],
      comps := [{ comp_id := 7, reference_count := 0, created_at := 0,
                  updated_at := 0, data := CompData.plainTextUnit "hi" }],
      clock := 3, idStream := fun i => i + 90, idIdx := 0, trace := [] }
    { comp_id := 7, reference_count := 0, created_at := 0,
      updated_at := 0, data := CompData.plainTextUnit "hi" }
    7 none 0 rfl
  exact ⟨rfl, h.1⟩

-- ===== C9: round trips =====

theorem jToNat_cast (n : Nat) : jToNat? (JValue.jnum (n : Int)) = some n := rfl

theorem mapJToNat_round (l : List Nat) :
    mapJToNat (l.map (fun i : Nat => JValue.jnum (i : Int))) = some l := by
  induction l with
  | nil => rfl
  | cons n ns ih => simp [mapJToNat, jToNat_cast, ih]

theorem mapJToStr_round (l : List String) :
    mapJToStr (l.map (fun t => JValue.jstr t)) = some l := by
  induction l with
  | nil => rfl
  | cons t ts ih => simp [mapJToStr, jToStr?, ih]

theorem node_from_to_dict (now : Nat) (n : Node) :
    Node.from_dict now n.to_dict = some n := by
  obtain ⟨nid, rid, pn, pv, nx, ca, ua⟩ := n
  cases pn <;> cases pv <;> cases nx <;> rfl

theorem reference_from_to_dict (now : Nat) (r : Reference) :
    Reference.from_dict now r.to_dict = some r := by
  obtain ⟨rid, nid, cid, ov, ca, ua⟩ := r
  cases ov <;> rfl

theorem component_from_to_dict (now : Nat) (c : Component) :
    component_from_dict now c.to_dict = some c := by
  obtain ⟨cid, rc, ca, ua, data⟩ := c
  cases data with
  | viewContainer a b tt bt ds tids ch =>
    cases ds <;> cases ch <;>
      simp [component_from_dict, Component.to_dict, Component.ctype,
        CompData.typeName, Component.get_config, CompData.get_config,
        compDataFromConfig, lookupKey, jToNat?, jToOptNat, jTimeD, jToInt,
        jToStrD, jToOptStr, jToBoolD, jToConfigD, jToOptConfig, jToNatListD,
        mapJToNat_round, optStrJ, optNatJ]
  | listContainer a b nm sn ch => cases nm <;> cases ch <;> rfl
  | inlineContainer ch => cases ch <;> rfl
  | styleContainer tr ch => cases tr <;> cases ch <;> rfl
  | sectionUnit a b => rfl
  | plainTextUnit a => rfl
  | alertUnit a b => rfl
  | markdownUnit a => rfl
  | linkUnit bl => cases bl <;> rfl
  | imageMedia a al cp => cases al <;> cases cp <;> rfl
  | videoMedia a ap mu co => cases ap <;> cases mu <;> cases co <;> rfl
  | pdfMedia a ti he dt => cases ti <;> cases dt <;> rfl
  | experienceComponent a b c3 d im co => cases im <;> rfl
  | tagListComponent tags =>
    simp [component_from_dict, Component.to_dict, Component.ctype,
      CompData.typeName, Component.get_config, CompData.get_config,
      compDataFromConfig, lookupKey, jToNat?, jTimeD, jToInt,
      jToConfigD, jToStrListD, mapJToStr_round]

/-- C9 counterexample: saving a Node and loading it back does not return a
record equal to the original in all fields — `save_node` refreshes
`updated_at` (`update_timestamp()`), so a node saved at clock 5 with
`updated_at = 0` loads back with `updated_at = 5`. -/
theorem save_load_roundtrip_counterexample :
    load_node
      (save_node
        { nodes := [], refs := [], comps := [], clock := 5,
          idStream := fun _ => 0, idIdx := 0, trace := [] }
        { node_id := 1, ref_id := 2, parent_node_id := none,
          previous_node_id := none, next_node_id := none,
          created_at := 0, updated_at := 0 }).1 1 ≠
    some { node_id := 1, ref_id := 2, parent_node_id := none,
           previous_node_id := none, next_node_id := none,
           created_at := 0, updated_at := 0 } := by
  decide

/-- C9 (amended): serialization round-trips exactly — `from_dict(to_dict(x))`
returns `x` with every field preserved, timestamps and optional fields
included, for Node, Reference and every Component variant — and saving then
loading by id returns the saved record with every field of `x` unchanged
except `updated_at`, which save refreshes to the save-time timestamp (the
source mutates `x` in place, so the caller's `x` carries the same refreshed
timestamp). -/
theorem save_load_roundtrip_amended :
    (∀ (now : Nat) (n : Node), Node.from_dict now n.to_dict = some n) ∧
    (∀ (now : Nat) (r : Reference), Reference.from_dict now r.to_dict = some r) ∧
    (∀ (now : Nat) (c : Component), component_from_dict now c.to_dict = some c) ∧
    (∀ (s : Store) (n : Node),
      load_node (save_node s n).1 n.node_id =
        some { n with updated_at := s.clock }) ∧
    (∀ (s : Store) (r : Reference),
      load_reference (save_reference s r).1 r.ref_id =
        some { r with updated_at := s.clock }) ∧
    (∀ (s : Store) (c : Component),
      load_component (save_component s c).1 c.ctype c.comp_id =
        some { c with updated_at := s.clock }) := by
  refine ⟨node_from_to_dict, reference_from_to_dict, component_from_to_dict,
    ?_, ?_, ?_⟩
  · intro s n
    rw [load_node_save_node, if_pos rfl]
  · intro s r
    rw [load_reference_save_reference, if_pos rfl]
  · intro s c
    rw [load_component_save_component,
      if_pos (show compKey c = (c.ctype, c.comp_id) from rfl)]

-- ===== C1: resolution and dangling hops =====

/-- A store whose root container node 1 resolves, although its child node 2
has a dangling `ref_id` (reference 12 does not exist). -/
def c1store : Store :=
  { nodes :=
      [{ node_id := 1, ref_id := 11, parent_node_id := none,
         previous_node_id := none, next_node_id := none,
         created_at := 0, updated_at := 0 },
       { node_id := 2, ref_id := 12, parent_node_id := some 1,
         previous_node_id := none, next_node_id := none,
         created_at := 0, updated_at := 0 }],
    refs :=
      [{ ref_id := 11, node_id := 1, comp_id := 21, overrides := none,
         created_at := 0, updated_at := 0 }],
    comps :=
      [{ comp_id := 21, reference_count := 1, created_at := 0,
         updated_at := 0, data := .inlineContainer (some 2) }],
    clock := 1, idStream := fun _ => 0, idIdx := 0, trace := [] }

/-- C1 counterexample: a resolution in which a descendant hop dangles (child
node 2 exists and is reached through the container's `child_node_id`, but
its Reference 12 is missing) still returns a resolved tree — with the
unresolvable child silently omitted (`children = []`) — instead of
returning NotFound for the whole resolution. -/
theorem resolve_dangling_descendant_counterexample :
    (load_component_by_id c1store 21).map Component.activeChild =
      some (some 2) ∧
    (load_node c1store 2).map Node.ref_id = some 12 ∧
    load_reference c1store 12 = none ∧
    resolve_node 10 c1store 2 = none ∧
    (resolve_node 10 c1store 1).map (fun r => (r.node_id, r.children.length)) =
      some (1, 0) := by
  exact ⟨rfl, rfl, rfl, rfl, rfl⟩

/-- C1 (amended): `resolve(node_id)` returns NotFound exactly when one of
the three hops of the *root* resolution dangles — the Node record is
missing, its `ref_id` has no Reference, or the Reference's `comp_id` has no
Component.  A dangling hop at a descendant does not propagate: the
descendant is skipped, yielding a partial tree (counterexample above). -/
theorem resolve_root_notfound (fuel : Nat) (s : Store) (node_id : Nat)
    (hf : 0 < fuel) :
    resolve_node fuel s node_id = none ↔
      load_node s node_id = none ∨
      (∃ node, load_node s node_id = some node ∧
        load_reference s node.ref_id = none) ∨
      (∃ node ref, load_node s node_id = some node ∧
        load_reference s node.ref_id = some ref ∧
        load_component_by_id s ref.comp_id = none) := by
  obtain ⟨fuel, rfl⟩ : ∃ k, fuel = k + 1 :=
    ⟨fuel - 1, (Nat.succ_pred_eq_of_pos hf).symm⟩
  constructor
  · intro h
    rw [resolve_node] at h
    cases hn : load_node s node_id with
    | none => exact Or.inl rfl
    | some node =>
      simp only [hn] at h
      cases hr : load_reference s node.ref_id with
      | none => exact Or.inr (Or.inl ⟨node, rfl, hr⟩)
      | some ref =>
        simp only [hr] at h
        cases hc : load_component_by_id s ref.comp_id with
        | none => exact Or.inr (Or.inr ⟨node, ref, rfl, hr, hc⟩)
        | some comp =>
          simp only [hc] at h
          exact Option.noConfusion h
  · rintro (h | ⟨node, hn, hr⟩ | ⟨node, ref, hn, hr, hc⟩)
    · simp only [resolve_node, h]
    · simp only [resolve_node, hn, hr]
    · simp only [resolve_node, hn, hr, hc]

theorem resolve_root_notfound_witness :
    0 < 10 ∧ resolve_node 10 c1store 2 = none ∧
    (∃ node, load_node c1store 2 = some node ∧
      load_reference c1store node.ref_id = none) := by
  refine ⟨by decide, ?_, ?_⟩
  · exact (resolve_root_notfound 10 c1store 2 (by decide)).mpr
      (Or.inr (Or.inl ⟨Node.mk 2 12 (some 1) none none 0 0, rfl, rfl⟩))
  · exact ⟨Node.mk 2 12 (some 1) none none 0 0, rfl, rfl⟩

-- ===== C2: resolution ordering and move-to-front =====

/-- A store holding a single container node 10 (component 100, reference
110) with no children yet; fresh ids are drawn as 200, 201, 202, ... . -/
def c2base : Store :=
  { nodes :=
      [{ node_id := 10, ref_id := 110, parent_node_id := none,
         previous_node_id := none, next_node_id := none,
         created_at := 0, updated_at := 0 }],
    refs :=
      [{ ref_id := 110, node_id := 10, comp_id := 100, overrides := none,
         created_at := 0, updated_at := 0 }],
    comps :=
      [{ comp_id := 100, reference_count := 1, created_at := 0,
         updated_at := 0, data := .inlineContainer none }],
    clock := 1, idStream := fun i => 200 + i, idIdx := 0, trace := [] }

/-- Insert three leaf children X, Y, Z in order (they get node ids 202, 205,
208). -/
def c2before : Store :=
  (add_child_to_node
    (add_child_to_node
      (add_child_to_node c2base 10 (.plainTextUnit "X") none 10).1
      10 (.plainTextUnit "Y") none 10).1
    10 (.plainTextUnit "Z") none 10).1

/-- `move(Y, after=null)` with the same parent. -/
def c2after : Store := (move_node c2before 205 (some 10) none).1

/-- C2 counterexample: after `move(Y, after=null)` the container resolves to
children `[X, Z]` — not `[Y, X, Z]` as claimed: `move_node` with a null
`after_node_id` detaches Y entirely (its `previous`/`next` become null and
the container's `child_node_id` is not updated), it does not make Y the
first child. -/
theorem resolution_order_counterexample :
    (resolve_node 20 c2after 10).map (fun r => r.children.map Resolved.node_id)
      = some [202, 208] ∧
    (resolve_node 20 c2after 10).map (fun r => r.children.map Resolved.node_id)
      ≠ some [205, 202, 208] := by
  constructor
  · rfl
  · intro h
    rw [show (resolve_node 20 c2after 10).map
        (fun r => r.children.map Resolved.node_id) = some [202, 208] from rfl] at h
    simp at h

/-- C2 (amended): with three leaf children inserted in order X, Y, Z the
container resolves to children exactly `[X, Y, Z]` (sibling-chain order);
after `move(Y, after=null)` Y is *detached* — its parent is set, its
sibling pointers become null, the container's `child_node_id` is untouched
— and the container resolves to `[X, Z]`. -/
theorem resolution_order_after_moves :
    (resolve_node 20 c2before 10).map (fun r => r.children.map Resolved.node_id)
      = some [202, 205, 208] ∧
    (resolve_node 20 c2after 10).map (fun r => r.children.map Resolved.node_id)
      = some [202, 208] ∧
    (load_node c2after 205).map
        (fun n => (n.parent_node_id, n.previous_node_id, n.next_node_id))
      = some (some 10, none, none) ∧
    (load_component_by_id c2after 100).map Component.child_node_id
      = some (some 202) := by
  exact ⟨rfl, rfl, rfl, rfl⟩

-- ===== C7: recursive subtree deletion =====

/-- A 2-level tree: root container node 1 (comp 300) with children node 2
(leaf, comp 301) and node 3 (container, comp 302), node 3 owning child node
4 (leaf, comp 303); each component has `reference_count = 1`. -/
def c7store : Store :=
  { nodes :=
      [{ node_id := 1, ref_id := 310, parent_node_id := none,
         previous_node_id := none, next_node_id := none,
         created_at := 0, updated_at := 0 },
       { node_id := 2, ref_id := 311, parent_node_id := some 1,
         previous_node_id := none, next_node_id := some 3,
         created_at := 0, updated_at := 0 },
       { node_id := 3, ref_id := 312, parent_node_id := some 1,
         previous_node_id := some 2, next_node_id := none,
         created_at := 0, updated_at := 0 },
       { node_id := 4, ref_id := 313, parent_node_id := some 3,
         previous_node_id := none, next_node_id := none,
         created_at := 0, updated_at := 0 }],
    refs :=
      [{ ref_id := 310, node_id := 1, comp_id := 300, overrides := none,
         created_at := 0, updated_at := 0 },
       { ref_id := 311, node_id := 2, comp_id := 301, overrides := none,
         created_at := 0, updated_at := 0 },
       { ref_id := 312, node_id := 3, comp_id := 302, overrides := none,
         created_at := 0, updated_at := 0 },
       { ref_id := 313, node_id := 4, comp_id := 303, overrides := none,
         created_at := 0, updated_at := 0 }],
    comps :=
      [{ comp_id := 300, reference_count := 1, created_at := 0,
         updated_at := 0, data := .inlineContainer (some 2) },
       { comp_id := 301, reference_count := 1, created_at := 0,
         updated_at := 0, data := .plainTextUnit "A" },
       { comp_id := 302, reference_count := 1, created_at := 0,
         updated_at := 0, data := .inlineContainer (some 4) },
       { comp_id := 303, reference_count := 1, created_at := 0,
         updated_at := 0, data := .plainTextUnit "D" }],
    clock := 1, idStream := fun _ => 0, idIdx := 0, trace := [] }

def c7after : Store := delete_node_tree 10 c7store 1

/-- C7: on the 2-level 4-node tree, `deleteSubtree(root)` removes all 4 Node
records and all 4 Reference records, and decrements each referenced
Component's `reference_count` by exactly 1 (each goes from 1 to 0; the
Component records themselves remain). -/
theorem delete_subtree_removes_all :
    load_node c7after 1 = none ∧ load_node c7after 2 = none ∧
    load_node c7after 3 = none ∧ load_node c7after 4 = none ∧
    load_reference c7after 310 = none ∧ load_reference c7after 311 = none ∧
    load_reference c7after 312 = none ∧ load_reference c7after 313 = none ∧
    (load_component_by_id c7store 300).map Component.reference_count = some 1 ∧
    (load_component_by_id c7store 301).map Component.reference_count = some 1 ∧
    (load_component_by_id c7store 302).map Component.reference_count = some 1 ∧
    (load_component_by_id c7store 303).map Component.reference_count = some 1 ∧
    (load_component_by_id c7after 300).map Component.reference_count = some 0 ∧
    (load_component_by_id c7after 301).map Component.reference_count = some 0 ∧
    (load_component_by_id c7after 302).map Component.reference_count = some 0 ∧
    (load_component_by_id c7after 303).map Component.reference_count = some 0 := by
  exact ⟨rfl, rfl, rfl, rfl, rfl, rfl, rfl, rfl, rfl, rfl, rfl, rfl,
    rfl, rfl, rfl, rfl⟩

-- ===== C8: shallow delete frame =====

theorem load_component_save_other (s : Store) (c : Component) (t : String)
    (k : Nat) (hk : k ≠ c.comp_id) :
    load_component (save_component s c).1 t k = load_component s t k := by
  rw [load_component_save_component, if_neg]
  intro hck
  exact hk (congrArg Prod.snd hck).symm

theorem load_component_by_id_save_other (s : Store) (c : Component) (k : Nat)
    (hk : k ≠ c.comp_id) :
    load_component_by_id (save_component s c).1 k = load_component_by_id s k := by
  unfold load_component_by_id
  have hldr : ∀ t, load_component (save_component s c).1 t k = load_component s t k :=
    fun t => load_component_save_other s c t k hk
  simp only [hldr]

theorem decrement_nodes (s : Store) (cid : Nat) :
    (decrement_component_ref_count s cid).1.nodes = s.nodes := by
  unfold decrement_component_ref_count
  cases load_component_by_id s cid <;> rfl

theorem decrement_refs (s : Store) (cid : Nat) :
    (decrement_component_ref_count s cid).1.refs = s.refs := by
  unfold decrement_component_ref_count
  cases load_component_by_id s cid <;> rfl

theorem delete_reference_nodes (s : Store) (rid : Nat) :
    (delete_reference s rid).1.nodes = s.nodes := by
  unfold delete_reference
  cases load_reference s rid
  · rfl
  · rw [delete_ref_file_nodes, decrement_nodes]

theorem delete_reference_comps (s : Store) (rid : Nat) (k : Nat)
    {r : Reference} (hr : load_reference s rid = some r) :
    load_component_by_id (delete_reference s rid).1 k =
      load_component_by_id (decrement_component_ref_count s r.comp_id).1 k := by
  unfold delete_reference
  rw [hr]
  exact load_component_by_id_congr (delete_ref_file_comps _ _) k

theorem load_reference_delete_reference (s : Store) (rid k : Nat)
    {r : Reference} (hr : load_reference s rid = some r) :
    load_reference (delete_reference s rid).1 k =
      if k = rid then none else load_reference s k := by
  unfold delete_reference
  rw [hr]
  rw [load_reference_delete_ref_file]
  by_cases hk : k = rid
  · rw [if_pos hk, if_pos hk]
  · rw [if_neg hk, if_neg hk]
    exact load_reference_congr (decrement_refs s r.comp_id) k

/-- C8: shallow `delete(node_id)` on an existing node returns true and
removes exactly that Node's record and its Reference's record; the
referenced Component record changes only in `reference_count` (the clamped
decrement) and `updated_at` — in particular a Container's `child_node_id`
pointing at the deleted node is left dangling, not fixed — and every other
Node, Reference and Component record is left byte-for-byte unchanged
(children, siblings and parent containers included).  On a `node_id` with
no record, delete returns false and the store is unchanged. -/
theorem shallow_delete_frame (s : Store) (nid : Nat) (node : Node)
    (ref : Reference) (comp : Component)
    (hn : load_node s nid = some node)
    (hrid : node.ref_id ≠ 0)
    (hr : load_reference s node.ref_id = some ref)
    (hc : load_component_by_id s ref.comp_id = some comp) :
    (delete_node s nid).2 = true ∧
    load_node (delete_node s nid).1 nid = none ∧
    load_reference (delete_node s nid).1 node.ref_id = none ∧
    load_component_by_id (delete_node s nid).1 ref.comp_id =
      some { comp with
        reference_count :=
          if comp.reference_count > 0 then comp.reference_count - 1
          else comp.reference_count,
        updated_at := s.clock } ∧
    (∀ k, k ≠ nid → load_node (delete_node s nid).1 k = load_node s k) ∧
    (∀ k, k ≠ node.ref_id →
      load_reference (delete_node s nid).1 k = load_reference s k) ∧
    (∀ k, k ≠ ref.comp_id →
      load_component_by_id (delete_node s nid).1 k =
        load_component_by_id s k) ∧
    (∀ m, load_node s m = none →
      (delete_node s m).2 = false ∧ (delete_node s m).1 = s) := by
  have hcid : comp.comp_id = ref.comp_id := load_component_by_id_comp_id hc
  have hd : delete_node s nid =
      delete_node_file (delete_reference s node.ref_id).1 nid := by
    unfold delete_node
    rw [hn]
    simp only [ne_eq, hrid, not_false_eq_true, if_true]
  have hnodes1 : (delete_reference s node.ref_id).1.nodes = s.nodes :=
    delete_reference_nodes s node.ref_id
  have hload1 : load_node (delete_reference s node.ref_id).1 nid = some node := by
    rw [load_node_congr hnodes1]
    exact hn
  refine ⟨?_, ?_, ?_, ?_, ?_, ?_, ?_, ?_⟩
  · rw [hd]
    unfold delete_node_file
    rw [hload1]
    simp
  · rw [hd, load_node_delete_node_file, if_pos rfl]
  · rw [hd]
    rw [load_reference_congr (delete_node_file_refs _ _) node.ref_id]
    rw [load_reference_delete_reference s node.ref_id node.ref_id hr, if_pos rfl]
  · rw [hd]
    rw [load_component_by_id_congr (delete_node_file_comps _ _) ref.comp_id]
    rw [delete_reference_comps s node.ref_id ref.comp_id hr]
    have hupd := load_component_by_id_save_update s comp
      comp.decrement_reference_count
      (by unfold Component.decrement_reference_count; split <;> rfl)
      (by rw [hcid]; exact hc)
    have hdec : decrement_component_ref_count s ref.comp_id =
        ((save_component s comp.decrement_reference_count).1, true) := by
      unfold decrement_component_ref_count
      rw [hc]
    rw [hdec, ← hcid, hupd]
    by_cases hcnt : comp.reference_count > 0 <;>
      simp [Component.decrement_reference_count, hcnt]
  · intro k hk
    rw [hd, load_node_delete_node_file, if_neg hk]
    exact load_node_congr hnodes1 k
  · intro k hk
    rw [hd]
    rw [load_reference_congr (delete_node_file_refs _ _) k]
    rw [load_reference_delete_reference s node.ref_id k hr, if_neg hk]
  · intro k hk
    rw [hd]
    rw [load_component_by_id_congr (delete_node_file_comps _ _) k]
    rw [delete_reference_comps s node.ref_id k hr]
    have hdec : decrement_component_ref_count s ref.comp_id =
        ((save_component s comp.decrement_reference_count).1, true) := by
      unfold decrement_component_ref_count
      rw [hc]
    rw [hdec]
    exact load_component_by_id_save_other s comp.decrement_reference_count k
      (by rw [show comp.decrement_reference_count.comp_id = comp.comp_id from ?_, hcid]
          · exact hk
          · unfold Component.decrement_reference_count
            split <;> rfl)
  · intro m hm
    unfold delete_node
    rw [hm]
    exact ⟨rfl, rfl⟩

theorem shallow_delete_frame_witness :
    (delete_node
      { nodes :=
          [Node.mk 5 15 none none (some 6) 0 0, Node.mk 6 16 none (some 5) none 0 0],
        refs :=
          [Reference.mk 15 5 25 none 0 0, Reference.mk 16 6 26 none 0 0],
        comps :=
          [Component.mk 25 1 0 0 (.plainTextUnit "p"),
           Component.mk 26 1 0 0 (.plainTextUnit "q")],
        clock := 2, idStream := fun _ => 0, idIdx := 0, trace := [] } 5).2 = true ∧
    load_node
      (delete_node
        { nodes :=
            [Node.mk 5 15 none none (some 6) 0 0, Node.mk 6 16 none (some 5) none 0 0],
          refs :=
            [Reference.mk 15 5 25 none 0 0, Reference.mk 16 6 26 none 0 0],
          comps :=
            [Component.mk 25 1 0 0 (.plainTextUnit "p"),
             Component.mk 26 1 0 0 (.plainTextUnit "q")],
          clock := 2, idStream := fun _ => 0, idIdx := 0, trace := [] } 5).1 6 =
      some (Node.mk 6 16 none (some 5) none 0 0) := by
  have h := shallow_delete_frame
    { nodes :=
        [Node.mk 5 15 none none (some 6) 0 0, Node.mk 6 16 none (some 5) none 0 0],
      refs :=
        [Reference.mk 15 5 25 none 0 0, Reference.mk 16 6 26 none 0 0],
      comps :=
        [Component.mk 25 1 0 0 (.plainTextUnit "p"),
         Component.mk 26 1 0 0 (.plainTextUnit "q")],
      clock := 2, idStream := fun _ => 0, idIdx := 0, trace := [] }
    5 (Node.mk 5 15 none none (some 6) 0 0) (Reference.mk 15 5 25 none 0 0)
    (Component.mk 25 1 0 0 (.plainTextUnit "p"))
    rfl (by decide) rfl rfl
  refine ⟨h.1, ?_⟩
  rw [h.2.2.2.2.1 6 (by decide)]
  rfl

-- ===== C3: reference-count invariant =====

/-- One public reference-layer call targeting component `c`:
`attach(c, overrides?, owning_node_id?)` or `detach(ref_id)`. -/
inductive RefOp where
  | attach (overrides : Option Config) (owning : Nat)
  | detach (rid : Nat)

def applyRefOp (c : Nat) (s : Store) : RefOp → Store
  | .attach ov own => (create_reference_to_component s c ov own).1
  | .detach rid => (delete_reference s rid).1

def applyRefOps (c : Nat) : Store → List RefOp → Store
  | s, [] => s
  | s, op :: rest => applyRefOps c (applyRefOp c s op) rest

def refIds (s : Store) : List Nat := s.refs.map Reference.ref_id

/-- Validity of one call: an attach's freshly drawn reference id collides
with no existing reference (the source draws randomly with no collision
check); a detach names a reference that exists and points at `c` (a detach
of a missing reference is a no-op returning False and targets nothing). -/
def refOpOk (c : Nat) (s : Store) : RefOp → Bool
  | .attach _ _ => !(refIds s).contains (s.idStream s.idIdx)
  | .detach rid =>
    match load_reference s rid with
    | some r => r.comp_id == c
    | none => false

def refOpsOk (c : Nat) : Store → List RefOp → Bool
  | _, [] => true
  | s, op :: rest => refOpOk c s op && refOpsOk c (applyRefOp c s op) rest

def countAttaches : List RefOp → Nat
  | [] => 0
  | .attach _ _ :: rest => countAttaches rest + 1
  | .detach _ :: rest => countAttaches rest

def countDetaches : List RefOp → Nat
  | [] => 0
  | .attach _ _ :: rest => countDetaches rest
  | .detach _ :: rest => countDetaches rest + 1

/-- Number of live Reference records pointing at `c`. -/
def countRefsTo (s : Store) (c : Nat) : Nat :=
  (s.refs.filter (fun r => r.comp_id == c)).length

/-- The validator's `actual_counts` fold equals the filter count. -/
theorem actual_count_eq (c : Nat) :
    ∀ (refs : List Reference) (acc : Nat),
      refs.foldl (fun acc r => if r.comp_id = c then acc + 1 else acc) acc =
        acc + (refs.filter (fun r => r.comp_id == c)).length := by
  intro refs
  induction refs with
  | nil => intro acc; simp
  | cons r rest ih =>
    intro acc
    by_cases hr : r.comp_id = c
    · simp only [List.foldl_cons, List.filter_cons, hr, if_pos rfl, beq_self_eq_true]
      rw [ih]
      simp [Nat.add_comm, Nat.add_assoc, Nat.add_left_comm]
    · simp only [List.foldl_cons, List.filter_cons, if_neg hr,
        beq_eq_false_iff_ne, ne_eq]
      rw [ih]
      simp [hr]

theorem putBy_fresh {α κ : Type} [DecidableEq κ] (key : α → κ) (x : α) :
    ∀ l : List α, (∀ y ∈ l, key y ≠ key x) → putBy key x l = l ++ [x] := by
  intro l
  induction l with
  | nil => intro _; rfl
  | cons y ys ih =>
    intro hf
    rw [putBy, if_neg (hf y (List.mem_cons_self y ys))]
    rw [ih (fun z hz => hf z (List.mem_cons_of_mem y hz))]
    rfl

theorem filter_no_key (rid : Nat) :
    ∀ refs : List Reference, rid ∉ refs.map Reference.ref_id →
      refs.filter (fun x => !(x.ref_id == rid)) = refs := by
  intro refs
  induction refs with
  | nil => intro _; rfl
  | cons r rest ih =>
    intro hno
    simp only [List.map_cons, List.mem_cons] at hno
    push_neg at hno
    rw [List.filter_cons, if_pos (by simp [Ne.symm hno.1]), ih hno.2]

theorem countRefs_remove (rid c : Nat) (r : Reference) :
    ∀ refs : List Reference,
      refs.find? (fun x => x.ref_id == rid) = some r →
      (refs.map Reference.ref_id).Nodup → r.comp_id = c →
      ((refs.filter (fun x => !(x.ref_id == rid))).filter
          (fun x => x.comp_id == c)).length + 1 =
        (refs.filter (fun x => x.comp_id == c)).length := by
  intro refs
  induction refs with
  | nil => intro hf; simp [List.find?] at hf
  | cons h rest ih =>
    intro hf hnd hcomp
    rw [List.map_cons] at hnd
    obtain ⟨hnotin, hndr⟩ := List.nodup_cons.mp hnd
    by_cases hh : h.ref_id = rid
    · have hr : h = r := by
        have := List.find?_cons_of_pos (p := fun x => x.ref_id == rid)
          (a := h) (l := rest) (by simp [hh])
        rw [this] at hf
        injection hf
      rw [List.filter_cons_of_neg (by simp [hh])]
      rw [filter_no_key rid rest (by rw [← hh]; exact hnotin)]
      rw [List.filter_cons_of_pos (by simp [hr, hcomp])]
      simp [Nat.add_comm]
    · have hf' : rest.find? (fun x => x.ref_id == rid) = some r := by
        have := List.find?_cons_of_neg (p := fun x => x.ref_id == rid)
          (a := h) (l := rest) (by simp [hh])
        rw [this] at hf
        exact hf
      rw [List.filter_cons_of_pos (by simp [hh])]
      by_cases hc : h.comp_id = c
      · rw [List.filter_cons_of_pos (by simp [hc]),
          List.filter_cons_of_pos (by simp [hc])]
        simp only [List.length_cons]
        have := ih hf' hndr hcomp
        omega
      · rw [List.filter_cons_of_neg (by simp [hc]),
          List.filter_cons_of_neg (by simp [hc])]
        exact ih hf' hndr hcomp

/-- The running invariant: the component found for `c` stores count `n`,
`n` Reference records point at `c`, and reference ids are collision-free. -/
def RefInv (c : Nat) (s : Store) (n : Nat) : Prop :=
  (∃ comp, load_component_by_id s c = some comp ∧
    comp.reference_count = (n : Int)) ∧
  countRefsTo s c = n ∧ (refIds s).Nodup

theorem refInv_attach (c : Nat) (s : Store) (n : Nat) (ov : Option Config)
    (own : Nat) (hInv : RefInv c s n)
    (hok : refOpOk c s (.attach ov own) = true) :
    RefInv c (applyRefOp c s (.attach ov own)) (n + 1) := by
  obtain ⟨⟨comp, hload, hcnt⟩, hcount, hnd⟩ := hInv
  have hcid : comp.comp_id = c := load_component_by_id_comp_id hload
  have hfresh : s.idStream s.idIdx ∉ refIds s := by
    intro hmem
    rw [refOpOk, Bool.not_eq_true'] at hok
    have hcontains : (refIds s).contains (s.idStream s.idIdx) = true :=
      List.elem_iff.mpr hmem
    rw [hok] at hcontains
    exact Bool.noConfusion hcontains
  have h1 : applyRefOp c s (.attach ov own) =
      (save_reference (generate_id (save_component s comp.increment_reference_count).1).2
        { ref_id := (generate_id (save_component s comp.increment_reference_count).1).1,
          node_id := own, comp_id := c,
          created_at := (generate_id (save_component s comp.increment_reference_count).1).2.clock,
          updated_at := (generate_id (save_component s comp.increment_reference_count).1).2.clock,
          overrides := ov }).1 := by
    show (create_reference_to_component s c ov own).1 = _
    unfold create_reference_to_component increment_component_ref_count
    rw [hload]
  have hput : putBy Reference.ref_id
      { ref_id := s.idStream s.idIdx, node_id := own, comp_id := c,
        overrides := ov, created_at := s.clock + 1, updated_at := s.clock + 1 }
        s.refs =
      s.refs ++
        [{ ref_id := s.idStream s.idIdx, node_id := own, comp_id := c,
           overrides := ov, created_at := s.clock + 1, updated_at := s.clock + 1 }] :=
    putBy_fresh Reference.ref_id _ s.refs
      (by
        intro y hy hkey
        apply hfresh
        have hmm : y.ref_id ∈ refIds s := List.mem_map_of_mem Reference.ref_id hy
        rw [hkey] at hmm
        exact hmm)
  have hrefs : (applyRefOp c s (.attach ov own)).refs =
      s.refs ++
        [{ ref_id := s.idStream s.idIdx, node_id := own, comp_id := c,
           overrides := ov, created_at := s.clock + 1, updated_at := s.clock + 1 }] := by
    rw [h1]
    exact hput
  refine ⟨?_, ?_, ?_⟩
  · refine ⟨{ comp.increment_reference_count with updated_at := s.clock }, ?_, ?_⟩
    · have hcomps : (applyRefOp c s (.attach ov own)).comps =
          (save_component s comp.increment_reference_count).1.comps := by
        rw [h1]
        rfl
      rw [load_component_by_id_congr hcomps c]
      have hupd := load_component_by_id_save_update s comp
        comp.increment_reference_count rfl (by rw [hcid]; exact hload)
      rw [hcid] at hupd
      exact hupd
    · show comp.increment_reference_count.reference_count = ((n + 1 : Nat) : Int)
      unfold Component.increment_reference_count
      rw [show ({ comp with reference_count := comp.reference_count + 1 } :
        Component).reference_count = comp.reference_count + 1 from rfl, hcnt]
      push_cast
      ring
  · unfold countRefsTo
    rw [hrefs, List.filter_append, List.length_append]
    unfold countRefsTo at hcount
    rw [hcount]
    have hone : (List.filter (fun r : Reference => r.comp_id == c)
        [{ ref_id := s.idStream s.idIdx, node_id := own, comp_id := c,
           overrides := ov, created_at := s.clock + 1,
           updated_at := s.clock + 1 }]).length = 1 := by
      rw [List.filter_cons_of_pos (by simp)]
      rfl
    rw [hone]
  · unfold refIds
    rw [hrefs, List.map_append]
    rw [List.nodup_append]
    refine ⟨hnd, by simp, ?_⟩
    intro a ha hb
    simp only [List.map_cons, List.map_nil, List.mem_singleton] at hb
    rw [hb] at ha
    exact hfresh ha

theorem refInv_detach (c : Nat) (s : Store) (n : Nat) (rid : Nat)
    (hInv : RefInv c s n) (hok : refOpOk c s (.detach rid) = true) :
    1 ≤ n ∧ RefInv c (applyRefOp c s (.detach rid)) (n - 1) := by
  obtain ⟨⟨comp, hload, hcnt⟩, hcount, hnd⟩ := hInv
  have hcid : comp.comp_id = c := load_component_by_id_comp_id hload
  obtain ⟨r, hr, hrc⟩ : ∃ r, load_reference s rid = some r ∧ r.comp_id = c := by
    rw [refOpOk] at hok
    cases hl : load_reference s rid with
    | none =>
      rw [hl] at hok
      exact Bool.noConfusion hok
    | some r =>
      rw [hl] at hok
      exact ⟨r, rfl, by simpa using hok⟩
  have hge : 1 ≤ n := by
    have hmem : r ∈ s.refs.filter (fun x => x.comp_id == c) := by
      refine List.mem_filter.mpr ⟨?_, by simp [hrc]⟩
      exact List.mem_of_find?_eq_some hr
    have : 0 < (s.refs.filter (fun x => x.comp_id == c)).length :=
      List.length_pos.mpr (List.ne_nil_of_mem hmem)
    unfold countRefsTo at hcount
    omega
  have hpos : comp.reference_count > 0 := by
    rw [hcnt]
    exact_mod_cast hge
  have h1 : applyRefOp c s (.detach rid) =
      (delete_ref_file (decrement_component_ref_count s c).1 rid).1 := by
    show (delete_reference s rid).1 = _
    unfold delete_reference
    simp only [hr]
    rw [hrc]
  have hdec : decrement_component_ref_count s c =
      ((save_component s comp.decrement_reference_count).1, true) := by
    unfold decrement_component_ref_count
    rw [hload]
  have hdecc : comp.decrement_reference_count =
      { comp with reference_count := comp.reference_count - 1 } := by
    unfold Component.decrement_reference_count
    rw [if_pos hpos]
  have hrefs2 : (decrement_component_ref_count s c).1.refs = s.refs := by
    rw [hdec, hdecc]
    rfl
  have hrexists : (load_reference (decrement_component_ref_count s c).1 rid).isSome := by
    rw [load_reference_congr hrefs2, hr]
    rfl
  have hrefs : (applyRefOp c s (.detach rid)).refs =
      s.refs.filter (fun x => !(x.ref_id == rid)) := by
    rw [h1]
    unfold delete_ref_file
    rw [if_pos hrexists]
    show (decrement_component_ref_count s c).1.refs.filter _ = _
    rw [hrefs2]
  refine ⟨hge, ?_, ?_, ?_⟩
  · refine ⟨{ comp.decrement_reference_count with updated_at := s.clock }, ?_, ?_⟩
    · rw [h1]
      rw [load_component_by_id_congr (delete_ref_file_comps _ _) c]
      rw [hdec]
      have := load_component_by_id_save_update s comp comp.decrement_reference_count
        (by rw [hdecc]; rfl) (by rw [hcid]; exact hload)
      rw [hcid] at this
      exact this
    · rw [hdecc]
      show comp.reference_count - 1 = ((n - 1 : Nat) : Int)
      rw [hcnt]
      omega
  · unfold countRefsTo
    rw [hrefs]
    have := countRefs_remove rid c r s.refs hr hnd hrc
    unfold countRefsTo at hcount
    omega
  · unfold refIds
    rw [hrefs]
    exact hnd.sublist ((List.filter_sublist _).map Reference.ref_id)

theorem refRun (c : Nat) :
    ∀ (ops : List RefOp) (s : Store) (n : Nat),
      RefInv c s n → refOpsOk c s ops = true →
      ∀ m, RefInv c (applyRefOps c s (ops.take m))
          (n + countAttaches (ops.take m) - countDetaches (ops.take m)) ∧
        countDetaches (ops.take m) ≤ n + countAttaches (ops.take m) := by
  intro ops
  induction ops with
  | nil =>
    intro s n hInv _ m
    simp only [List.take_nil, applyRefOps, countAttaches, countDetaches]
    exact ⟨by simpa using hInv, by omega⟩
  | cons op rest ih =>
    intro s n hInv hok m
    rw [refOpsOk, Bool.and_eq_true] at hok
    obtain ⟨hok1, hok2⟩ := hok
    cases m with
    | zero =>
      simp only [List.take_zero, applyRefOps, countAttaches, countDetaches]
      exact ⟨by simpa using hInv, by omega⟩
    | succ m =>
      rw [List.take_succ_cons]
      cases op with
      | attach ov own =>
        have hstep := refInv_attach c s n ov own hInv hok1
        have := ih (applyRefOp c s (.attach ov own)) (n + 1) hstep hok2 m
        simp only [applyRefOps, countAttaches, countDetaches]
        constructor
        · rw [show n + (countAttaches (rest.take m) + 1) -
              countDetaches (rest.take m) =
            n + 1 + countAttaches (rest.take m) -
              countDetaches (rest.take m) from by omega]
          exact this.1
        · omega
      | detach rid =>
        obtain ⟨hge, hstep⟩ := refInv_detach c s n rid hInv hok1
        have := ih (applyRefOp c s (.detach rid)) (n - 1) hstep hok2 m
        simp only [applyRefOps, countAttaches, countDetaches]
        constructor
        · rw [show n + countAttaches (rest.take m) -
              (countDetaches (rest.take m) + 1) =
            n - 1 + countAttaches (rest.take m) -
              countDetaches (rest.take m) from by omega]
          exact this.1
        · omega

/-- C3: starting from a Component with stored `reference_count = 0` and no
References pointing at it, after every prefix of any valid sequence of
`attach`/`detach` calls targeting it, the stored `reference_count` equals
(number of attaches) − (number of detaches) — the clamp never engages, as a
valid detach always removes a live reference — and it equals the count the
Integrity Validator recomputes by scanning all Reference records whose
`comp_id` matches the Component. -/
theorem refcount_invariant (c : Nat) (s : Store) (ops : List RefOp)
    (comp0 : Component)
    (hload : load_component_by_id s c = some comp0)
    (hzero : comp0.reference_count = 0)
    (hnorefs : countRefsTo s c = 0)
    (hnd : (refIds s).Nodup)
    (hok : refOpsOk c s ops = true) :
    ∀ m, ∃ comp,
      load_component_by_id (applyRefOps c s (ops.take m)) c = some comp ∧
      comp.reference_count =
        (countAttaches (ops.take m) : Int) - (countDetaches (ops.take m) : Int) ∧
      (actual_count (get_all_references (applyRefOps c s (ops.take m))) c : Int) =
        comp.reference_count := by
  intro m
  have hInv0 : RefInv c s 0 := ⟨⟨comp0, hload, by rw [hzero]; rfl⟩, hnorefs, hnd⟩
  obtain ⟨⟨comp, hcomp, hcnt⟩, hcount, _⟩ :=
    (refRun c ops s 0 hInv0 hok m).1
  have hle : countDetaches (ops.take m) ≤ countAttaches (ops.take m) := by
    have := (refRun c ops s 0 hInv0 hok m).2
    omega
  refine ⟨comp, hcomp, ?_, ?_⟩
  · rw [hcnt]
    omega
  · have hac : actual_count (get_all_references (applyRefOps c s (ops.take m))) c =
        countRefsTo (applyRefOps c s (ops.take m)) c := by
      unfold actual_count get_all_references countRefsTo
      rw [actual_count_eq]
      omega
    rw [hac, hcount, hcnt]

theorem refcount_invariant_witness :
    ∃ comp, load_component_by_id
        (applyRefOps 7
          { nodes := [], refs := [],
            comps := [Component.mk 7 0 0 0 (.plainTextUnit "w")],
            clock := 0, idStream := fun i => 40 + i, idIdx := 0, trace := [] }
          ([RefOp.attach none 0, RefOp.attach none 0,
            RefOp.detach 41].take 3)) 7 = some comp ∧
      comp.reference_count = (2 : Int) - (1 : Int) := by
  obtain ⟨comp, h1, h2, _⟩ := refcount_invariant 7
    { nodes := [], refs := [],
      comps := [Component.mk 7 0 0 0 (.plainTextUnit "w")],
      clock := 0, idStream := fun i => 40 + i, idIdx := 0, trace := [] }
    [RefOp.attach none 0, RefOp.attach none 0, RefOp.detach 41]
    (Component.mk 7 0 0 0 (.plainTextUnit "w"))
    rfl rfl rfl (by simp [refIds]) (by decide) 3
  exact ⟨comp, h1, by simpa using h2⟩

-- ===== C6: sibling-link symmetry =====

/-- Spec §8 sibling symmetry over a list of Node records: every `next`
pointer from A to B is mirrored by B's `previous` pointer, and conversely. -/
def SymNodes (l : List Node) : Prop :=
  ∀ A ∈ l, ∀ B ∈ l,
    (A.next_node_id = some B.node_id → B.previous_node_id = some A.node_id) ∧
    (A.previous_node_id = some B.node_id → B.next_node_id = some A.node_id)

instance instDecSymNodes (l : List Node) : Decidable (SymNodes l) := by
  unfold SymNodes; infer_instance

/-- The same symmetry property, viewed through the `load_node` map. -/
def SymF (f : Nat → Option Node) : Prop :=
  ∀ x y X Y, f x = some X → f y = some Y →
    (X.next_node_id = some y → Y.previous_node_id = some x) ∧
    (X.previous_node_id = some y → Y.next_node_id = some x)

/-- Every record's stored id matches the key it is filed under. -/
def Ids (f : Nat → Option Node) : Prop := ∀ x X, f x = some X → X.node_id = x

/-- No record is filed under id 0. -/
def NZ (f : Nat → Option Node) : Prop := ∀ x X, f x = some X → x ≠ 0

/-- No record's sibling pointer targets `nid`. -/
def NoIn (f : Nat → Option Node) (nid : Nat) : Prop :=
  ∀ x X, f x = some X → X.next_node_id ≠ some nid ∧ X.previous_node_id ≠ some nid

/-- No record has `previous = next` with both set (no "hairpin"). -/
def NoHair (f : Nat → Option Node) : Prop :=
  ∀ x X, f x = some X → X.previous_node_id = none ∨ X.previous_node_id ≠ X.next_node_id

/-- Decidable hairpin-freedom scan of the node files. -/
def noHairpin (s : Store) : Bool :=
  s.nodes.all (fun n => !(n.previous_node_id.isSome && n.previous_node_id == n.next_node_id))

/-- Node-file well-formedness: node ids are distinct and nonzero. -/
def NodesWF (s : Store) : Prop :=
  (s.nodes.map Node.node_id).Nodup ∧ ∀ n ∈ s.nodes, n.node_id ≠ 0

instance instDecNodesWF (s : Store) : Decidable (NodesWF s) := by
  unfold NodesWF; infer_instance

theorem load_node_id {s : Store} {a : Nat} {A : Node} (h : load_node s a = some A) :
    A.node_id = a := by
  have h2 := List.find?_some (show s.nodes.find? (fun n => n.node_id == a) = some A from h)
  simpa using h2

theorem load_node_mem {s : Store} {a : Nat} {A : Node} (h : load_node s a = some A) :
    A ∈ s.nodes :=
  List.mem_of_find?_eq_some (show s.nodes.find? (fun n => n.node_id == a) = some A from h)

theorem ids_load (s : Store) : Ids (load_node s) := fun _ _ h => load_node_id h

theorem nz_load (s : Store) (hwf : NodesWF s) : NZ (load_node s) := by
  intro x X h
  have h2 := hwf.2 X (load_node_mem h)
  rw [load_node_id h] at h2
  exact h2

theorem nohair_load (s : Store) (hh : noHairpin s = true) : NoHair (load_node s) := by
  intro x X h
  have h2 := List.all_eq_true.mp hh X (load_node_mem h)
  cases hpv : X.previous_node_id with
  | none => exact Or.inl rfl
  | some v =>
    right
    intro he
    simp [hpv, ← he] at h2

theorem find?_key_of_mem {l : List Node} (hnd : (l.map Node.node_id).Nodup)
    {A : Node} (hA : A ∈ l) :
    l.find? (fun n => n.node_id == A.node_id) = some A := by
  induction l with
  | nil => cases hA
  | cons h t ih =>
    rw [List.map_cons, List.nodup_cons] at hnd
    rcases List.mem_cons.mp hA with rfl | hmem
    · rw [List.find?_cons_of_pos _ (by simp)]
    · rw [List.find?_cons_of_neg _ ?_]
      · exact ih hnd.2 hmem
      · simp only [beq_eq_false_iff_ne, ne_eq, Bool.not_eq_true]
        intro heq
        exact hnd.1 (heq ▸ List.mem_map_of_mem Node.node_id hmem)

theorem load_node_of_mem {s : Store} (hnd : (s.nodes.map Node.node_id).Nodup)
    {A : Node} (hA : A ∈ s.nodes) : load_node s A.node_id = some A :=
  find?_key_of_mem hnd hA

theorem symNodes_iff_symF {s : Store} (hnd : (s.nodes.map Node.node_id).Nodup) :
    SymNodes s.nodes ↔ SymF (load_node s) := by
  constructor
  · intro hs x y X Y hX hY
    have hXm := load_node_mem hX
    have hYm := load_node_mem hY
    have hXi := load_node_id hX
    have hYi := load_node_id hY
    have hp := hs X hXm Y hYm
    constructor
    · intro hn
      rw [← hYi] at hn
      have h3 := hp.1 hn
      rw [hXi] at h3
      exact h3
    · intro hn
      rw [← hYi] at hn
      have h3 := hp.2 hn
      rw [hXi] at h3
      exact h3
  · intro hs A hA B hB
    exact hs A.node_id B.node_id A B (load_node_of_mem hnd hA) (load_node_of_mem hnd hB)

theorem putBy_map_key {α κ : Type} [DecidableEq κ] (key : α → κ) (x : α) :
    ∀ l : List α, (putBy key x l).map key =
      if key x ∈ l.map key then l.map key else l.map key ++ [key x]
  | [] => by simp [putBy]
  | y :: ys => by
    by_cases h : key y = key x
    · simp [putBy, h]
    · have ih := putBy_map_key key x ys
      by_cases h2 : key x ∈ ys.map key
      · simp [putBy, h, ih, h2, Ne.symm h]
      · simp [putBy, h, ih, h2, Ne.symm h]

theorem mem_putBy {α κ : Type} [DecidableEq κ] (key : α → κ) (x z : α) :
    ∀ l : List α, z ∈ putBy key x l → z = x ∨ z ∈ l
  | [], hz => by
    simp [putBy] at hz
    exact Or.inl hz
  | y :: ys, hz => by
    unfold putBy at hz
    split at hz
    · rcases List.mem_cons.mp hz with h | h
      · exact Or.inl h
      · exact Or.inr (List.mem_cons_of_mem _ h)
    · rcases List.mem_cons.mp hz with h | h
      · exact Or.inr (h ▸ List.mem_cons_self _ _)
      · rcases mem_putBy key x z ys h with h2 | h2
        · exact Or.inl h2
        · exact Or.inr (List.mem_cons_of_mem _ h2)

theorem nodesWF_save (s : Store) (n : Node) (hwf : NodesWF s) (h0 : n.node_id ≠ 0) :
    NodesWF (save_node s n).1 := by
  constructor
  · show ((putBy Node.node_id { n with updated_at := s.clock } s.nodes).map Node.node_id).Nodup
    rw [putBy_map_key]
    split
    · exact hwf.1
    · next hmem =>
      rw [List.nodup_append]
      exact ⟨hwf.1, List.nodup_singleton _, by
        intro a ha hb
        simp only [List.mem_singleton] at hb
        exact hmem (hb ▸ ha)⟩
  · intro m hm
    rcases mem_putBy Node.node_id { n with updated_at := s.clock } m s.nodes hm with h | h
    · rw [h]; exact h0
    · exact hwf.2 m h

theorem nodesWF_delete_file (s : Store) (k : Nat) (hwf : NodesWF s) :
    NodesWF (delete_node_file s k).1 := by
  unfold delete_node_file
  split
  · constructor
    · exact ((List.filter_sublist _).map Node.node_id).nodup hwf.1
    · intro n hn
      exact hwf.2 n (List.mem_of_mem_filter hn)
  · exact hwf

theorem nodesWF_congr {s t : Store} (h : t.nodes = s.nodes) (hwf : NodesWF s) :
    NodesWF t := by
  unfold NodesWF
  rw [h]
  exact hwf

/-- Pointwise record override: the load-map effect of one `save_node`. -/
def wr (r : Node) (f : Nat → Option Node) : Nat → Option Node :=
  fun x => if x = r.node_id then some r else f x

def wr? : Option Node → (Nat → Option Node) → (Nat → Option Node)
  | none, f => f
  | some r, f => wr r f

theorem wr_self (r : Node) (f : Nat → Option Node) : wr r f r.node_id = some r := by
  simp [wr]

theorem wr_other (r : Node) (f : Nat → Option Node) {x : Nat} (h : x ≠ r.node_id) :
    wr r f x = f x := if_neg h

theorem wr_cases {r : Node} {f : Nat → Option Node} {x : Nat} {X : Node}
    (h : wr r f x = some X) : (x = r.node_id ∧ X = r) ∨ (x ≠ r.node_id ∧ f x = some X) := by
  unfold wr at h
  split at h
  · exact Or.inl ⟨by assumption, (Option.some.inj h).symm⟩
  · exact Or.inr ⟨by assumption, h⟩

theorem load_save_wr (s : Store) (n : Node) (k : Nat) :
    load_node (save_node s n).1 k = wr { n with updated_at := s.clock } (load_node s) k := by
  rw [load_node_save_node]
  unfold wr
  by_cases h : n.node_id = k
  · rw [if_pos h, if_pos h.symm]
  · rw [if_neg h, if_neg (Ne.symm h)]

theorem truthyVal_eq_some {o : Option Nat} {v : Nat} (h : truthyVal o = some v) :
    o = some v ∧ v ≠ 0 := by
  unfold truthyVal at h
  split at h
  · next ht =>
    refine ⟨h, ?_⟩
    rw [h] at ht
    simpa [truthyN] using ht
  · exact absurd h (by simp)

theorem truthyVal_of {o : Option Nat} {v : Nat} (h : o = some v) (hv : v ≠ 0) :
    truthyVal o = some v := by
  simp [truthyVal, truthyN, h, hv]

theorem symF_shrink (f g : Nat → Option Node)
    (hsh : ∀ x, g x = none ∨ g x = f x) (hsym : SymF f) : SymF g := by
  intro x y X Y hX hY
  rcases hsh x with h | h
  · rw [h] at hX; cases hX
  · rcases hsh y with h2 | h2
    · rw [h2] at hY; cases hY
    · rw [h] at hX
      rw [h2] at hY
      exact hsym x y X Y hX hY

/-- Detach phase of `move_node`, both old neighbours found: rewiring them
past `node` (and viewing the moved record as detached) keeps the node map
symmetric, leaves nothing pointing at `nid`, and preserves the id and
nonzero invariants. -/
theorem symF_detach_pq (f G : Nat → Option Node) (nid pp qq : Nat)
    (node p q d Q' P' : Node)
    (hsym : SymF f) (hid : Ids f) (hnz : NZ f)
    (hnode : f nid = some node)
    (hprev : node.previous_node_id = some pp) (hpp0 : pp ≠ 0)
    (hnext : node.next_node_id = some qq) (hqq0 : qq ≠ 0)
    (hfp : f pp = some p) (hfq : f qq = some q)
    (hppn : pp ≠ nid) (hqqn : qq ≠ nid) (hppq : pp ≠ qq)
    (hd1 : d.node_id = nid) (hd2 : d.previous_node_id = none)
    (hd3 : d.next_node_id = none)
    (hQ1 : Q'.node_id = qq) (hQ2 : Q'.previous_node_id = node.previous_node_id)
    (hQ3 : Q'.next_node_id = q.next_node_id)
    (hP1 : P'.node_id = pp) (hP2 : P'.previous_node_id = p.previous_node_id)
    (hP3 : P'.next_node_id = node.next_node_id)
    (hG : G = wr d (wr Q' (wr P' f))) :
    SymF G ∧ NoIn G nid ∧ Ids G ∧ NZ G := by
  have hnid0 : nid ≠ 0 := hnz nid node hnode
  have hp_next : p.next_node_id = some nid := (hsym nid pp node p hnode hfp).2 hprev
  have hq_prev : q.previous_node_id = some nid := (hsym nid qq node q hnode hfq).1 hnext
  have hGpp : G pp = some P' := by
    rw [hG]
    unfold wr
    rw [if_neg (show ¬(pp = d.node_id) from fun he => hppn (he.trans hd1)),
        if_neg (show ¬(pp = Q'.node_id) from fun he => hppq (he.trans hQ1)),
        if_pos hP1.symm]
  have hGqq : G qq = some Q' := by
    rw [hG]
    unfold wr
    rw [if_neg (show ¬(qq = d.node_id) from fun he => hqqn (he.trans hd1)),
        if_pos hQ1.symm]
  have hGo : ∀ t, t ≠ nid → t ≠ qq → t ≠ pp → G t = f t := by
    intro t h1 h2 h3
    rw [hG]
    unfold wr
    rw [if_neg (show ¬(t = d.node_id) from fun he => h1 (he.trans hd1)),
        if_neg (show ¬(t = Q'.node_id) from fun he => h2 (he.trans hQ1)),
        if_neg (show ¬(t = P'.node_id) from fun he => h3 (he.trans hP1))]
  have hXcases : ∀ x X, G x = some X →
      (x = nid ∧ X = d) ∨ (x = qq ∧ X = Q') ∨ (x = pp ∧ X = P') ∨
      (x ≠ nid ∧ x ≠ qq ∧ x ≠ pp ∧ f x = some X) := by
    intro x X h
    rw [hG] at h
    rcases wr_cases h with ⟨h1, rfl⟩ | ⟨h1, h2⟩
    · exact Or.inl ⟨h1.trans hd1, rfl⟩
    · rcases wr_cases h2 with ⟨h3, rfl⟩ | ⟨h3, h4⟩
      · exact Or.inr (Or.inl ⟨h3.trans hQ1, rfl⟩)
      · rcases wr_cases h4 with ⟨h5, rfl⟩ | ⟨h5, h6⟩
        · exact Or.inr (Or.inr (Or.inl ⟨h5.trans hP1, rfl⟩))
        · exact Or.inr (Or.inr (Or.inr ⟨fun he => h1 (he.trans hd1.symm),
            fun he => h3 (he.trans hQ1.symm), fun he => h5 (he.trans hP1.symm), h6⟩))
  refine ⟨?_, ?_, ?_, ?_⟩
  · intro x y X Y hX hY
    constructor
    · intro hxy
      rcases hXcases x X hX with ⟨hx, rfl⟩ | ⟨hx, rfl⟩ | ⟨hx, rfl⟩ | ⟨hx1, hx2, hx3, hfX⟩
      · rw [hd3] at hxy
        cases hxy
      · rw [hQ3] at hxy
        rw [hx]
        by_cases hy1 : y = nid
        · rw [hy1] at hxy
          have h7 := (hsym qq nid q node hfq hnode).1 hxy
          rw [hprev] at h7
          exact absurd (Option.some.inj h7) hppq
        by_cases hy2 : y = qq
        · rw [hy2] at hxy
          have h7 := (hsym qq qq q q hfq hfq).1 hxy
          rw [hq_prev] at h7
          exact absurd (Option.some.inj h7).symm hqqn
        by_cases hy3 : y = pp
        · rw [hy3] at hxy hY
          rw [hGpp] at hY
          obtain rfl := Option.some.inj hY
          rw [hP2]
          exact (hsym qq pp q p hfq hfp).1 hxy
        · rw [hGo y hy1 hy2 hy3] at hY
          exact (hsym qq y q Y hfq hY).1 hxy
      · rw [hP3, hnext] at hxy
        obtain rfl := Option.some.inj hxy
        rw [hGqq] at hY
        obtain rfl := Option.some.inj hY
        rw [hx, hQ2, hprev]
      · by_cases hy1 : y = nid
        · rw [hy1] at hxy
          have h7 := (hsym x nid X node hfX hnode).1 hxy
          have h8 := truthyVal_of h7 (hnz x X hfX)
          rw [truthyVal_of hprev hpp0] at h8
          exact absurd (Option.some.inj h8).symm hx3
        by_cases hy2 : y = qq
        · rw [hy2] at hxy
          have h7 := (hsym x qq X q hfX hfq).1 hxy
          rw [hq_prev] at h7
          exact absurd (Option.some.inj h7).symm hx1
        by_cases hy3 : y = pp
        · rw [hy3] at hxy hY
          rw [hGpp] at hY
          obtain rfl := Option.some.inj hY
          rw [hP2]
          exact (hsym x pp X p hfX hfp).1 hxy
        · rw [hGo y hy1 hy2 hy3] at hY
          exact (hsym x y X Y hfX hY).1 hxy
    · intro hxy
      rcases hXcases x X hX with ⟨hx, rfl⟩ | ⟨hx, rfl⟩ | ⟨hx, rfl⟩ | ⟨hx1, hx2, hx3, hfX⟩
      · rw [hd2] at hxy
        cases hxy
      · rw [hQ2, hprev] at hxy
        obtain rfl := Option.some.inj hxy
        rw [hGpp] at hY
        obtain rfl := Option.some.inj hY
        rw [hP3, hnext, hx]
      · rw [hP2] at hxy
        by_cases hy1 : y = nid
        · rw [hy1] at hxy
          have h7 := (hsym pp nid p node hfp hnode).2 hxy
          rw [hnext] at h7
          exact absurd (Option.some.inj h7).symm hppq
        by_cases hy3 : y = pp
        · rw [hy3] at hxy
          have h7 := (hsym pp pp p p hfp hfp).2 hxy
          rw [hp_next] at h7
          exact absurd (Option.some.inj h7).symm hppn
        by_cases hy2 : y = qq
        · rw [hy2] at hxy hY
          rw [hGqq] at hY
          obtain rfl := Option.some.inj hY
          rw [hQ3, hx]
          exact (hsym pp qq p q hfp hfq).2 hxy
        · rw [hGo y hy1 hy2 hy3] at hY
          rw [hx]
          exact (hsym pp y p Y hfp hY).2 hxy
      · by_cases hy1 : y = nid
        · rw [hy1] at hxy
          have h7 := (hsym x nid X node hfX hnode).2 hxy
          rw [hnext] at h7
          exact absurd (Option.some.inj h7).symm hx2
        by_cases hy2 : y = qq
        · rw [hy2] at hxy hY
          rw [hGqq] at hY
          obtain rfl := Option.some.inj hY
          rw [hQ3]
          exact (hsym x qq X q hfX hfq).2 hxy
        by_cases hy3 : y = pp
        · rw [hy3] at hxy
          have h7 := (hsym x pp X p hfX hfp).2 hxy
          rw [hp_next] at h7
          exact absurd (Option.some.inj h7).symm hx1
        · rw [hGo y hy1 hy2 hy3] at hY
          exact (hsym x y X Y hfX hY).2 hxy
  · intro x X hX
    rcases hXcases x X hX with ⟨hx, rfl⟩ | ⟨hx, rfl⟩ | ⟨hx, rfl⟩ | ⟨hx1, hx2, hx3, hfX⟩
    · exact ⟨by simp [hd3], by simp [hd2]⟩
    · constructor
      · rw [hQ3]
        intro h7
        have h8 := (hsym qq nid q node hfq hnode).1 h7
        rw [hprev] at h8
        exact hppq (Option.some.inj h8)
      · rw [hQ2, hprev]
        intro h7
        exact hppn (Option.some.inj h7)
    · constructor
      · rw [hP3, hnext]
        intro h7
        exact hqqn (Option.some.inj h7)
      · rw [hP2]
        intro h7
        have h8 := (hsym pp nid p node hfp hnode).2 h7
        rw [hnext] at h8
        exact hppq (Option.some.inj h8).symm
    · constructor
      · intro h7
        have h8 := (hsym x nid X node hfX hnode).1 h7
        have h9 := truthyVal_of h8 (hnz x X hfX)
        rw [truthyVal_of hprev hpp0] at h9
        exact hx3 (Option.some.inj h9).symm
      · intro h7
        have h8 := (hsym x nid X node hfX hnode).2 h7
        rw [hnext] at h8
        exact hx2 (Option.some.inj h8).symm
  · intro x X hX
    rcases hXcases x X hX with ⟨hx, rfl⟩ | ⟨hx, rfl⟩ | ⟨hx, rfl⟩ | ⟨hx1, hx2, hx3, hfX⟩
    · rw [hd1, hx]
    · rw [hQ1, hx]
    · rw [hP1, hx]
    · exact hid x X hfX
  · intro x X hX
    rcases hXcases x X hX with ⟨hx, _⟩ | ⟨hx, _⟩ | ⟨hx, _⟩ | ⟨hx1, hx2, hx3, hfX⟩
    · rw [hx]
      exact hnid0
    · rw [hx]
      exact hqq0
    · rw [hx]
      exact hpp0
    · exact hnz x X hfX

/-- Detach phase of `move_node` when only the old previous neighbour is
found (`node.next_node_id` is untruthy or dangling). -/
theorem symF_detach_p (f G : Nat → Option Node) (nid pp : Nat)
    (node p d P' : Node)
    (hsym : SymF f) (hid : Ids f) (hnz : NZ f)
    (hnode : f nid = some node)
    (hprev : node.previous_node_id = some pp) (hpp0 : pp ≠ 0)
    (hfp : f pp = some p)
    (hQabs : (truthyVal node.next_node_id).bind f = none)
    (hQn : truthyVal node.next_node_id ≠ some nid)
    (hppn : pp ≠ nid)
    (hd1 : d.node_id = nid) (hd2 : d.previous_node_id = none)
    (hd3 : d.next_node_id = none)
    (hP1 : P'.node_id = pp) (hP2 : P'.previous_node_id = p.previous_node_id)
    (hP3 : P'.next_node_id = node.next_node_id)
    (hG : G = wr d (wr P' f)) :
    SymF G ∧ NoIn G nid ∧ Ids G ∧ NZ G := by
  have hnid0 : nid ≠ 0 := hnz nid node hnode
  have hp_next : p.next_node_id = some nid := (hsym nid pp node p hnode hfp).2 hprev
  have hQc : ∀ t T, node.next_node_id = some t → f t = some T → False := by
    intro t T h1 h2
    have h4 := truthyVal_of h1 (hnz t T h2)
    rw [h4] at hQabs
    have h3 : f t = none := hQabs
    rw [h2] at h3
    exact Option.some_ne_none T h3
  have hGpp : G pp = some P' := by
    rw [hG]
    unfold wr
    rw [if_neg (show ¬(pp = d.node_id) from fun he => hppn (he.trans hd1)),
        if_pos hP1.symm]
  have hGo : ∀ t, t ≠ nid → t ≠ pp → G t = f t := by
    intro t h1 h3
    rw [hG]
    unfold wr
    rw [if_neg (show ¬(t = d.node_id) from fun he => h1 (he.trans hd1)),
        if_neg (show ¬(t = P'.node_id) from fun he => h3 (he.trans hP1))]
  have hXcases : ∀ x X, G x = some X →
      (x = nid ∧ X = d) ∨ (x = pp ∧ X = P') ∨
      (x ≠ nid ∧ x ≠ pp ∧ f x = some X) := by
    intro x X h
    rw [hG] at h
    rcases wr_cases h with ⟨h1, rfl⟩ | ⟨h1, h2⟩
    · exact Or.inl ⟨h1.trans hd1, rfl⟩
    · rcases wr_cases h2 with ⟨h5, rfl⟩ | ⟨h5, h6⟩
      · exact Or.inr (Or.inl ⟨h5.trans hP1, rfl⟩)
      · exact Or.inr (Or.inr ⟨fun he => h1 (he.trans hd1.symm),
          fun he => h5 (he.trans hP1.symm), h6⟩)
  refine ⟨?_, ?_, ?_, ?_⟩
  · intro x y X Y hX hY
    constructor
    · intro hxy
      rcases hXcases x X hX with ⟨hx, rfl⟩ | ⟨hx, rfl⟩ | ⟨hx1, hx2, hfX⟩
      · rw [hd3] at hxy
        cases hxy
      · rw [hP3] at hxy
        by_cases hy1 : y = nid
        · rw [hy1] at hxy
          exact absurd (truthyVal_of hxy hnid0) hQn
        by_cases hy3 : y = pp
        · rw [hy3] at hxy
          exact (hQc pp p hxy hfp).elim
        · rw [hGo y hy1 hy3] at hY
          exact (hQc y Y hxy hY).elim
      · by_cases hy1 : y = nid
        · rw [hy1] at hxy
          have h7 := (hsym x nid X node hfX hnode).1 hxy
          have h8 := truthyVal_of h7 (hnz x X hfX)
          rw [truthyVal_of hprev hpp0] at h8
          exact absurd (Option.some.inj h8).symm hx2
        by_cases hy3 : y = pp
        · rw [hy3] at hxy hY
          rw [hGpp] at hY
          obtain rfl := Option.some.inj hY
          rw [hP2]
          exact (hsym x pp X p hfX hfp).1 hxy
        · rw [hGo y hy1 hy3] at hY
          exact (hsym x y X Y hfX hY).1 hxy
    · intro hxy
      rcases hXcases x X hX with ⟨hx, rfl⟩ | ⟨hx, rfl⟩ | ⟨hx1, hx2, hfX⟩
      · rw [hd2] at hxy
        cases hxy
      · rw [hP2] at hxy
        rw [hx]
        by_cases hy1 : y = nid
        · rw [hy1] at hxy
          have h7 := (hsym pp nid p node hfp hnode).2 hxy
          exact (hQc pp p h7 hfp).elim
        by_cases hy3 : y = pp
        · rw [hy3] at hxy
          have h7 := (hsym pp pp p p hfp hfp).2 hxy
          rw [hp_next] at h7
          exact absurd (Option.some.inj h7).symm hppn
        · rw [hGo y hy1 hy3] at hY
          exact (hsym pp y p Y hfp hY).2 hxy
      · by_cases hy1 : y = nid
        · rw [hy1] at hxy
          have h7 := (hsym x nid X node hfX hnode).2 hxy
          exact (hQc x X h7 hfX).elim
        by_cases hy3 : y = pp
        · rw [hy3] at hxy
          have h7 := (hsym x pp X p hfX hfp).2 hxy
          rw [hp_next] at h7
          exact absurd (Option.some.inj h7).symm hx1
        · rw [hGo y hy1 hy3] at hY
          exact (hsym x y X Y hfX hY).2 hxy
  · intro x X hX
    rcases hXcases x X hX with ⟨hx, rfl⟩ | ⟨hx, rfl⟩ | ⟨hx1, hx2, hfX⟩
    · exact ⟨by simp [hd3], by simp [hd2]⟩
    · constructor
      · rw [hP3]
        intro h7
        exact hQn (truthyVal_of h7 hnid0)
      · rw [hP2]
        intro h7
        have h8 := (hsym pp nid p node hfp hnode).2 h7
        exact hQc pp p h8 hfp
    · constructor
      · intro h7
        have h8 := (hsym x nid X node hfX hnode).1 h7
        have h9 := truthyVal_of h8 (hnz x X hfX)
        rw [truthyVal_of hprev hpp0] at h9
        exact hx2 (Option.some.inj h9).symm
      · intro h7
        have h8 := (hsym x nid X node hfX hnode).2 h7
        exact hQc x X h8 hfX
  · intro x X hX
    rcases hXcases x X hX with ⟨hx, rfl⟩ | ⟨hx, rfl⟩ | ⟨hx1, hx2, hfX⟩
    · rw [hd1, hx]
    · rw [hP1, hx]
    · exact hid x X hfX
  · intro x X hX
    rcases hXcases x X hX with ⟨hx, _⟩ | ⟨hx, _⟩ | ⟨hx1, hx2, hfX⟩
    · rw [hx]
      exact hnid0
    · rw [hx]
      exact hpp0
    · exact hnz x X hfX

/-- Detach phase of `move_node` when only the old next neighbour is found
(`node.previous_node_id` is untruthy or dangling). -/
theorem symF_detach_q (f G : Nat → Option Node) (nid qq : Nat)
    (node q d Q' : Node)
    (hsym : SymF f) (hid : Ids f) (hnz : NZ f)
    (hnode : f nid = some node)
    (hnext : node.next_node_id = some qq) (hqq0 : qq ≠ 0)
    (hfq : f qq = some q)
    (hPabs : (truthyVal node.previous_node_id).bind f = none)
    (hPn : truthyVal node.previous_node_id ≠ some nid)
    (hqqn : qq ≠ nid)
    (hd1 : d.node_id = nid) (hd2 : d.previous_node_id = none)
    (hd3 : d.next_node_id = none)
    (hQ1 : Q'.node_id = qq) (hQ2 : Q'.previous_node_id = node.previous_node_id)
    (hQ3 : Q'.next_node_id = q.next_node_id)
    (hG : G = wr d (wr Q' f)) :
    SymF G ∧ NoIn G nid ∧ Ids G ∧ NZ G := by
  have hnid0 : nid ≠ 0 := hnz nid node hnode
  have hq_prev : q.previous_node_id = some nid := (hsym nid qq node q hnode hfq).1 hnext
  have hPc : ∀ t T, node.previous_node_id = some t → f t = some T → False := by
    intro t T h1 h2
    have h4 := truthyVal_of h1 (hnz t T h2)
    rw [h4] at hPabs
    have h3 : f t = none := hPabs
    rw [h2] at h3
    exact Option.some_ne_none T h3
  have hGqq : G qq = some Q' := by
    rw [hG]
    unfold wr
    rw [if_neg (show ¬(qq = d.node_id) from fun he => hqqn (he.trans hd1)),
        if_pos hQ1.symm]
  have hGo : ∀ t, t ≠ nid → t ≠ qq → G t = f t := by
    intro t h1 h2
    rw [hG]
    unfold wr
    rw [if_neg (show ¬(t = d.node_id) from fun he => h1 (he.trans hd1)),
        if_neg (show ¬(t = Q'.node_id) from fun he => h2 (he.trans hQ1))]
  have hXcases : ∀ x X, G x = some X →
      (x = nid ∧ X = d) ∨ (x = qq ∧ X = Q') ∨
      (x ≠ nid ∧ x ≠ qq ∧ f x = some X) := by
    intro x X h
    rw [hG] at h
    rcases wr_cases h with ⟨h1, rfl⟩ | ⟨h1, h2⟩
    · exact Or.inl ⟨h1.trans hd1, rfl⟩
    · rcases wr_cases h2 with ⟨h5, rfl⟩ | ⟨h5, h6⟩
      · exact Or.inr (Or.inl ⟨h5.trans hQ1, rfl⟩)
      · exact Or.inr (Or.inr ⟨fun he => h1 (he.trans hd1.symm),
          fun he => h5 (he.trans hQ1.symm), h6⟩)
  refine ⟨?_, ?_, ?_, ?_⟩
  · intro x y X Y hX hY
    constructor
    · intro hxy
      rcases hXcases x X hX with ⟨hx, rfl⟩ | ⟨hx, rfl⟩ | ⟨hx1, hx2, hfX⟩
      · rw [hd3] at hxy
        cases hxy
      · rw [hQ3] at hxy
        rw [hx]
        by_cases hy1 : y = nid
        · rw [hy1] at hxy
          have h7 := (hsym qq nid q node hfq hnode).1 hxy
          exact (hPc qq q h7 hfq).elim
        by_cases hy2 : y = qq
        · rw [hy2] at hxy
          have h7 := (hsym qq qq q q hfq hfq).1 hxy
          rw [hq_prev] at h7
          exact absurd (Option.some.inj h7).symm hqqn
        · rw [hGo y hy1 hy2] at hY
          exact (hsym qq y q Y hfq hY).1 hxy
      · by_cases hy1 : y = nid
        · rw [hy1] at hxy
          have h7 := (hsym x nid X node hfX hnode).1 hxy
          exact (hPc x X h7 hfX).elim
        by_cases hy2 : y = qq
        · rw [hy2] at hxy
          have h7 := (hsym x qq X q hfX hfq).1 hxy
          rw [hq_prev] at h7
          exact absurd (Option.some.inj h7).symm hx1
        · rw [hGo y hy1 hy2] at hY
          exact (hsym x y X Y hfX hY).1 hxy
    · intro hxy
      rcases hXcases x X hX with ⟨hx, rfl⟩ | ⟨hx, rfl⟩ | ⟨hx1, hx2, hfX⟩
      · rw [hd2] at hxy
        cases hxy
      · rw [hQ2] at hxy
        by_cases hy1 : y = nid
        · rw [hy1] at hxy
          exact absurd (truthyVal_of hxy hnid0) hPn
        by_cases hy2 : y = qq
        · rw [hy2] at hxy
          exact (hPc qq q hxy hfq).elim
        · rw [hGo y hy1 hy2] at hY
          exact (hPc y Y hxy hY).elim
      · by_cases hy1 : y = nid
        · rw [hy1] at hxy
          have h7 := (hsym x nid X node hfX hnode).2 hxy
          rw [hnext] at h7
          exact absurd (Option.some.inj h7).symm hx2
        by_cases hy2 : y = qq
        · rw [hy2] at hxy hY
          rw [hGqq] at hY
          obtain rfl := Option.some.inj hY
          rw [hQ3]
          exact (hsym x qq X q hfX hfq).2 hxy
        · rw [hGo y hy1 hy2] at hY
          exact (hsym x y X Y hfX hY).2 hxy
  · intro x X hX
    rcases hXcases x X hX with ⟨hx, rfl⟩ | ⟨hx, rfl⟩ | ⟨hx1, hx2, hfX⟩
    · exact ⟨by simp [hd3], by simp [hd2]⟩
    · constructor
      · rw [hQ3]
        intro h7
        have h8 := (hsym qq nid q node hfq hnode).1 h7
        exact hPc qq q h8 hfq
      · rw [hQ2]
        intro h7
        exact hPn (truthyVal_of h7 hnid0)
    · constructor
      · intro h7
        have h8 := (hsym x nid X node hfX hnode).1 h7
        exact hPc x X h8 hfX
      · intro h7
        have h8 := (hsym x nid X node hfX hnode).2 h7
        rw [hnext] at h8
        exact hx2 (Option.some.inj h8).symm
  · intro x X hX
    rcases hXcases x X hX with ⟨hx, rfl⟩ | ⟨hx, rfl⟩ | ⟨hx1, hx2, hfX⟩
    · rw [hd1, hx]
    · rw [hQ1, hx]
    · exact hid x X hfX
  · intro x X hX
    rcases hXcases x X hX with ⟨hx, _⟩ | ⟨hx, _⟩ | ⟨hx1, hx2, hfX⟩
    · rw [hx]
      exact hnid0
    · rw [hx]
      exact hqq0
    · exact hnz x X hfX

/-- Detach phase of `move_node` when neither old neighbour is found. -/
theorem symF_detach_none (f G : Nat → Option Node) (nid : Nat) (node d : Node)
    (hsym : SymF f) (hid : Ids f) (hnz : NZ f)
    (hnode : f nid = some node)
    (hPabs : (truthyVal node.previous_node_id).bind f = none)
    (hQabs : (truthyVal node.next_node_id).bind f = none)
    (hd1 : d.node_id = nid) (hd2 : d.previous_node_id = none)
    (hd3 : d.next_node_id = none)
    (hG : G = wr d f) :
    SymF G ∧ NoIn G nid ∧ Ids G ∧ NZ G := by
  have hnid0 : nid ≠ 0 := hnz nid node hnode
  have hPc : ∀ t T, node.previous_node_id = some t → f t = some T → False := by
    intro t T h1 h2
    have h4 := truthyVal_of h1 (hnz t T h2)
    rw [h4] at hPabs
    have h3 : f t = none := hPabs
    rw [h2] at h3
    exact Option.some_ne_none T h3
  have hQc : ∀ t T, node.next_node_id = some t → f t = some T → False := by
    intro t T h1 h2
    have h4 := truthyVal_of h1 (hnz t T h2)
    rw [h4] at hQabs
    have h3 : f t = none := hQabs
    rw [h2] at h3
    exact Option.some_ne_none T h3
  have hGo : ∀ t, t ≠ nid → G t = f t := by
    intro t h1
    rw [hG]
    unfold wr
    rw [if_neg (show ¬(t = d.node_id) from fun he => h1 (he.trans hd1))]
  have hXcases : ∀ x X, G x = some X →
      (x = nid ∧ X = d) ∨ (x ≠ nid ∧ f x = some X) := by
    intro x X h
    rw [hG] at h
    rcases wr_cases h with ⟨h1, rfl⟩ | ⟨h1, h2⟩
    · exact Or.inl ⟨h1.trans hd1, rfl⟩
    · exact Or.inr ⟨fun he => h1 (he.trans hd1.symm), h2⟩
  refine ⟨?_, ?_, ?_, ?_⟩
  · intro x y X Y hX hY
    constructor
    · intro hxy
      rcases hXcases x X hX with ⟨hx, rfl⟩ | ⟨hx1, hfX⟩
      · rw [hd3] at hxy
        cases hxy
      · by_cases hy1 : y = nid
        · rw [hy1] at hxy
          have h7 := (hsym x nid X node hfX hnode).1 hxy
          exact (hPc x X h7 hfX).elim
        · rw [hGo y hy1] at hY
          exact (hsym x y X Y hfX hY).1 hxy
    · intro hxy
      rcases hXcases x X hX with ⟨hx, rfl⟩ | ⟨hx1, hfX⟩
      · rw [hd2] at hxy
        cases hxy
      · by_cases hy1 : y = nid
        · rw [hy1] at hxy
          have h7 := (hsym x nid X node hfX hnode).2 hxy
          exact (hQc x X h7 hfX).elim
        · rw [hGo y hy1] at hY
          exact (hsym x y X Y hfX hY).2 hxy
  · intro x X hX
    rcases hXcases x X hX with ⟨hx, rfl⟩ | ⟨hx1, hfX⟩
    · exact ⟨by simp [hd3], by simp [hd2]⟩
    · constructor
      · intro h7
        have h8 := (hsym x nid X node hfX hnode).1 h7
        exact hPc x X h8 hfX
      · intro h7
        have h8 := (hsym x nid X node hfX hnode).2 h7
        exact hQc x X h8 hfX
  · intro x X hX
    rcases hXcases x X hX with ⟨hx, rfl⟩ | ⟨hx1, hfX⟩
    · rw [hd1, hx]
    · exact hid x X hfX
  · intro x X hX
    rcases hXcases x X hX with ⟨hx, _⟩ | ⟨hx1, hfX⟩
    · rw [hx]
      exact hnid0
    · exact hnz x X hfX

/-- Insertion phase of `move_node` when no insertion target is found: the
moved record is re-filed detached (its raw `previous` may dangle). -/
theorem symF_attach_none (g G : Nat → Option Node) (nid : Nat) (af : Option Nat)
    (M : Node)
    (hsym : SymF g) (hni : NoIn g nid) (hnz : NZ g)
    (haf : af ≠ some nid)
    (hAabs : (truthyVal af).bind g = none)
    (hM1 : M.node_id = nid) (hM2 : M.previous_node_id = af)
    (hM3 : M.next_node_id = none)
    (hG : G = wr M g) :
    SymF G := by
  have hGnid : G nid = some M := by
    rw [hG]
    unfold wr
    rw [if_pos hM1.symm]
  have hGo : ∀ t, t ≠ nid → G t = g t := by
    intro t h1
    rw [hG]
    unfold wr
    rw [if_neg (show ¬(t = M.node_id) from fun he => h1 (he.trans hM1))]
  have hXcases : ∀ x X, G x = some X →
      (x = nid ∧ X = M) ∨ (x ≠ nid ∧ g x = some X) := by
    intro x X h
    rw [hG] at h
    rcases wr_cases h with ⟨h1, rfl⟩ | ⟨h1, h2⟩
    · exact Or.inl ⟨h1.trans hM1, rfl⟩
    · exact Or.inr ⟨fun he => h1 (he.trans hM1.symm), h2⟩
  intro x y X Y hX hY
  constructor
  · intro hxy
    rcases hXcases x X hX with ⟨hx, rfl⟩ | ⟨hx1, hfX⟩
    · rw [hM3] at hxy
      cases hxy
    · by_cases hy1 : y = nid
      · rw [hy1] at hxy
        exact absurd hxy (hni x X hfX).1
      · rw [hGo y hy1] at hY
        exact (hsym x y X Y hfX hY).1 hxy
  · intro hxy
    rcases hXcases x X hX with ⟨hx, rfl⟩ | ⟨hx1, hfX⟩
    · rw [hM2] at hxy
      by_cases hy1 : y = nid
      · rw [hy1] at hxy
        exact absurd hxy haf
      · rw [hGo y hy1] at hY
        have h4 := truthyVal_of hxy (hnz y Y hY)
        rw [h4] at hAabs
        have h3 : g y = none := hAabs
        rw [hY] at h3
        exact (Option.some_ne_none Y h3).elim
    · by_cases hy1 : y = nid
      · rw [hy1] at hxy
        exact absurd hxy (hni x X hfX).2
      · rw [hGo y hy1] at hY
        exact (hsym x y X Y hfX hY).2 hxy

/-- Insertion phase of `move_node` with an `after` target but no node after
it: splice the moved record at the end of the chain. -/
theorem symF_attach_a (g G : Nat → Option Node) (nid aa : Nat) (af : Option Nat)
    (a M A' : Node)
    (hsym : SymF g) (hni : NoIn g nid) (hnz : NZ g)
    (haa : truthyVal af = some aa) (hga : g aa = some a)
    (hBabs : (truthyVal a.next_node_id).bind g = none)
    (haan : aa ≠ nid)
    (hM1 : M.node_id = nid) (hM2 : M.previous_node_id = some aa)
    (hM3 : M.next_node_id = none)
    (hA1 : A'.node_id = aa) (hA2 : A'.previous_node_id = a.previous_node_id)
    (hA3 : A'.next_node_id = some nid)
    (hG : G = wr M (wr A' g)) :
    SymF G := by
  have haa0 : aa ≠ 0 := (truthyVal_eq_some haa).2
  have hGnid : G nid = some M := by
    rw [hG]
    unfold wr
    rw [if_pos hM1.symm]
  have hGaa : G aa = some A' := by
    rw [hG]
    unfold wr
    rw [if_neg (show ¬(aa = M.node_id) from fun he => haan (he.trans hM1)),
        if_pos hA1.symm]
  have hGo : ∀ t, t ≠ nid → t ≠ aa → G t = g t := by
    intro t h1 h2
    rw [hG]
    unfold wr
    rw [if_neg (show ¬(t = M.node_id) from fun he => h1 (he.trans hM1)),
        if_neg (show ¬(t = A'.node_id) from fun he => h2 (he.trans hA1))]
  have hXcases : ∀ x X, G x = some X →
      (x = nid ∧ X = M) ∨ (x = aa ∧ X = A') ∨
      (x ≠ nid ∧ x ≠ aa ∧ g x = some X) := by
    intro x X h
    rw [hG] at h
    rcases wr_cases h with ⟨h1, rfl⟩ | ⟨h1, h2⟩
    · exact Or.inl ⟨h1.trans hM1, rfl⟩
    · rcases wr_cases h2 with ⟨h5, rfl⟩ | ⟨h5, h6⟩
      · exact Or.inr (Or.inl ⟨h5.trans hA1, rfl⟩)
      · exact Or.inr (Or.inr ⟨fun he => h1 (he.trans hM1.symm),
          fun he => h5 (he.trans hA1.symm), h6⟩)
  have hBc : ∀ t T, a.next_node_id = some t → g t = some T → False := by
    intro t T h1 h2
    have h4 := truthyVal_of h1 (hnz t T h2)
    rw [h4] at hBabs
    have h3 : g t = none := hBabs
    rw [h2] at h3
    exact Option.some_ne_none T h3
  intro x y X Y hX hY
  constructor
  · intro hxy
    rcases hXcases x X hX with ⟨hx, rfl⟩ | ⟨hx, rfl⟩ | ⟨hx1, hx2, hfX⟩
    · rw [hM3] at hxy
      cases hxy
    · rw [hA3] at hxy
      obtain rfl := Option.some.inj hxy
      rw [hGnid] at hY
      obtain rfl := Option.some.inj hY
      rw [hM2, hx]
    · by_cases hy1 : y = nid
      · rw [hy1] at hxy
        exact absurd hxy (hni x X hfX).1
      by_cases hy2 : y = aa
      · rw [hy2] at hxy hY
        rw [hGaa] at hY
        obtain rfl := Option.some.inj hY
        rw [hA2]
        exact (hsym x aa X a hfX hga).1 hxy
      · rw [hGo y hy1 hy2] at hY
        exact (hsym x y X Y hfX hY).1 hxy
  · intro hxy
    rcases hXcases x X hX with ⟨hx, rfl⟩ | ⟨hx, rfl⟩ | ⟨hx1, hx2, hfX⟩
    · rw [hM2] at hxy
      obtain rfl := Option.some.inj hxy
      rw [hGaa] at hY
      obtain rfl := Option.some.inj hY
      rw [hA3, hx]
    · rw [hA2] at hxy
      rw [hx]
      by_cases hy1 : y = nid
      · rw [hy1] at hxy
        exact absurd hxy (hni aa a hga).2
      by_cases hy2 : y = aa
      · rw [hy2] at hxy
        have h7 := (hsym aa aa a a hga hga).2 hxy
        exact (hBc aa a h7 hga).elim
      · rw [hGo y hy1 hy2] at hY
        exact (hsym aa y a Y hga hY).2 hxy
    · by_cases hy1 : y = nid
      · rw [hy1] at hxy
        exact absurd hxy (hni x X hfX).2
      by_cases hy2 : y = aa
      · rw [hy2] at hxy
        have h7 := (hsym x aa X a hfX hga).2 hxy
        exact (hBc x X h7 hfX).elim
      · rw [hGo y hy1 hy2] at hY
        exact (hsym x y X Y hfX hY).2 hxy

/-- Insertion phase of `move_node` with both an `after` target and a node
after it: splice the moved record between the two. -/
theorem symF_attach_ab (g G : Nat → Option Node) (nid aa bb : Nat) (af : Option Nat)
    (a b M A' B' : Node)
    (hsym : SymF g) (hni : NoIn g nid) (hnz : NZ g)
    (haa : truthyVal af = some aa) (hga : g aa = some a)
    (hbb : a.next_node_id = some bb) (hbb0 : bb ≠ 0) (hgb : g bb = some b)
    (haan : aa ≠ nid) (hbbn : bb ≠ nid) (hbba : bb ≠ aa)
    (hM1 : M.node_id = nid) (hM2 : M.previous_node_id = some aa)
    (hM3 : M.next_node_id = some bb)
    (hA1 : A'.node_id = aa) (hA2 : A'.previous_node_id = a.previous_node_id)
    (hA3 : A'.next_node_id = some nid)
    (hB1 : B'.node_id = bb) (hB2 : B'.previous_node_id = some nid)
    (hB3 : B'.next_node_id = b.next_node_id)
    (hG : G = wr M (wr B' (wr A' g))) :
    SymF G := by
  have hGnid : G nid = some M := by
    rw [hG]
    unfold wr
    rw [if_pos hM1.symm]
  have hGbb : G bb = some B' := by
    rw [hG]
    unfold wr
    rw [if_neg (show ¬(bb = M.node_id) from fun he => hbbn (he.trans hM1)),
        if_pos hB1.symm]
  have hGaa : G aa = some A' := by
    rw [hG]
    unfold wr
    rw [if_neg (show ¬(aa = M.node_id) from fun he => haan (he.trans hM1)),
        if_neg (show ¬(aa = B'.node_id) from fun he => hbba (he.trans hB1).symm),
        if_pos hA1.symm]
  have hGo : ∀ t, t ≠ nid → t ≠ bb → t ≠ aa → G t = g t := by
    intro t h1 h2 h3
    rw [hG]
    unfold wr
    rw [if_neg (show ¬(t = M.node_id) from fun he => h1 (he.trans hM1)),
        if_neg (show ¬(t = B'.node_id) from fun he => h2 (he.trans hB1)),
        if_neg (show ¬(t = A'.node_id) from fun he => h3 (he.trans hA1))]
  have hXcases : ∀ x X, G x = some X →
      (x = nid ∧ X = M) ∨ (x = bb ∧ X = B') ∨ (x = aa ∧ X = A') ∨
      (x ≠ nid ∧ x ≠ bb ∧ x ≠ aa ∧ g x = some X) := by
    intro x X h
    rw [hG] at h
    rcases wr_cases h with ⟨h1, rfl⟩ | ⟨h1, h2⟩
    · exact Or.inl ⟨h1.trans hM1, rfl⟩
    · rcases wr_cases h2 with ⟨h3, rfl⟩ | ⟨h3, h4⟩
      · exact Or.inr (Or.inl ⟨h3.trans hB1, rfl⟩)
      · rcases wr_cases h4 with ⟨h5, rfl⟩ | ⟨h5, h6⟩
        · exact Or.inr (Or.inr (Or.inl ⟨h5.trans hA1, rfl⟩))
        · exact Or.inr (Or.inr (Or.inr ⟨fun he => h1 (he.trans hM1.symm),
            fun he => h3 (he.trans hB1.symm), fun he => h5 (he.trans hA1.symm), h6⟩))
  intro x y X Y hX hY
  constructor
  · intro hxy
    rcases hXcases x X hX with ⟨hx, rfl⟩ | ⟨hx, rfl⟩ | ⟨hx, rfl⟩ | ⟨hx1, hx2, hx3, hfX⟩
    · rw [hM3] at hxy
      obtain rfl := Option.some.inj hxy
      rw [hGbb] at hY
      obtain rfl := Option.some.inj hY
      rw [hB2, hx]
    · rw [hB3] at hxy
      rw [hx]
      by_cases hy1 : y = nid
      · rw [hy1] at hxy
        exact absurd hxy (hni bb b hgb).1
      by_cases hy2 : y = bb
      · rw [hy2] at hxy
        have h7 := (hsym bb bb b b hgb hgb).1 hxy
        have h8 := (hsym aa bb a b hga hgb).1 hbb
        rw [h8] at h7
        exact absurd (Option.some.inj h7) hbba.symm
      by_cases hy3 : y = aa
      · rw [hy3] at hxy hY
        rw [hGaa] at hY
        obtain rfl := Option.some.inj hY
        rw [hA2]
        exact (hsym bb aa b a hgb hga).1 hxy
      · rw [hGo y hy1 hy2 hy3] at hY
        exact (hsym bb y b Y hgb hY).1 hxy
    · rw [hA3] at hxy
      obtain rfl := Option.some.inj hxy
      rw [hGnid] at hY
      obtain rfl := Option.some.inj hY
      rw [hM2, hx]
    · by_cases hy1 : y = nid
      · rw [hy1] at hxy
        exact absurd hxy (hni x X hfX).1
      by_cases hy2 : y = bb
      · rw [hy2] at hxy
        have h7 := (hsym x bb X b hfX hgb).1 hxy
        have h8 := (hsym aa bb a b hga hgb).1 hbb
        rw [h8] at h7
        exact absurd (Option.some.inj h7).symm hx3
      by_cases hy3 : y = aa
      · rw [hy3] at hxy hY
        rw [hGaa] at hY
        obtain rfl := Option.some.inj hY
        rw [hA2]
        exact (hsym x aa X a hfX hga).1 hxy
      · rw [hGo y hy1 hy2 hy3] at hY
        exact (hsym x y X Y hfX hY).1 hxy
  · intro hxy
    rcases hXcases x X hX with ⟨hx, rfl⟩ | ⟨hx, rfl⟩ | ⟨hx, rfl⟩ | ⟨hx1, hx2, hx3, hfX⟩
    · rw [hM2] at hxy
      obtain rfl := Option.some.inj hxy
      rw [hGaa] at hY
      obtain rfl := Option.some.inj hY
      rw [hA3, hx]
    · rw [hB2] at hxy
      obtain rfl := Option.some.inj hxy
      rw [hGnid] at hY
      obtain rfl := Option.some.inj hY
      rw [hM3, hx]
    · rw [hA2] at hxy
      rw [hx]
      by_cases hy1 : y = nid
      · rw [hy1] at hxy
        exact absurd hxy (hni aa a hga).2
      by_cases hy2 : y = bb
      · rw [hy2] at hxy hY
        rw [hGbb] at hY
        obtain rfl := Option.some.inj hY
        rw [hB3]
        exact (hsym aa bb a b hga hgb).2 hxy
      by_cases hy3 : y = aa
      · rw [hy3] at hxy
        have h7 := (hsym aa aa a a hga hga).2 hxy
        rw [hbb] at h7
        exact absurd (Option.some.inj h7) hbba
      · rw [hGo y hy1 hy2 hy3] at hY
        exact (hsym aa y a Y hga hY).2 hxy
    · by_cases hy1 : y = nid
      · rw [hy1] at hxy
        exact absurd hxy (hni x X hfX).2
      by_cases hy2 : y = bb
      · rw [hy2] at hxy hY
        rw [hGbb] at hY
        obtain rfl := Option.some.inj hY
        rw [hB3]
        exact (hsym x bb X b hfX hgb).2 hxy
      by_cases hy3 : y = aa
      · rw [hy3] at hxy
        have h7 := (hsym x aa X a hfX hga).2 hxy
        rw [hbb] at h7
        exact absurd (Option.some.inj h7).symm hx2
      · rw [hGo y hy1 hy2 hy3] at hY
        exact (hsym x y X Y hfX hY).2 hxy

theorem wr_comm (r1 r2 : Node) (f : Nat → Option Node)
    (h : r1.node_id ≠ r2.node_id) : wr r1 (wr r2 f) = wr r2 (wr r1 f) :=
  funext fun x => by
    unfold wr
    by_cases h1 : x = r1.node_id
    · by_cases h2 : x = r2.node_id
      · exact absurd (h1.symm.trans h2) h
      · rw [if_pos h1, if_neg h2, if_pos h1]
    · by_cases h2 : x = r2.node_id
      · rw [if_neg h1, if_pos h2, if_pos h2]
      · rw [if_neg h1, if_neg h2, if_neg h2, if_neg h1]

/-- `add_child_to_node` splice with an `after` node `an` but nothing after
it: the fresh child is filed at the end of the chain. -/
theorem symF_insert_pa (g G : Nat → Option Node) (na aa : Nat)
    (an C P2 : Node)
    (hsym : SymF g) (hnz : NZ g)
    (hfresh : ∀ x X, g x = some X → x ≠ na ∧ X.next_node_id ≠ some na ∧
      X.previous_node_id ≠ some na)
    (hga : g aa = some an) (haa0 : aa ≠ 0) (haan : aa ≠ na)
    (hBnone : ∀ t, truthyVal an.next_node_id = some t → g t = none ∧ t ≠ aa)
    (hC1 : C.node_id = na) (hC2 : C.previous_node_id = some aa)
    (hC3 : C.next_node_id = an.next_node_id)
    (hP1 : P2.node_id = aa) (hP2 : P2.previous_node_id = an.previous_node_id)
    (hP3 : P2.next_node_id = some na)
    (hG : G = wr P2 (wr C g)) :
    SymF G := by
  have hGna : G na = some C := by
    rw [hG]
    unfold wr
    rw [if_neg (show ¬(na = P2.node_id) from fun he => haan (he.trans hP1).symm),
        if_pos hC1.symm]
  have hGaa : G aa = some P2 := by
    rw [hG]
    unfold wr
    rw [if_pos hP1.symm]
  have hGo : ∀ t, t ≠ na → t ≠ aa → G t = g t := by
    intro t h1 h2
    rw [hG]
    unfold wr
    rw [if_neg (show ¬(t = P2.node_id) from fun he => h2 (he.trans hP1)),
        if_neg (show ¬(t = C.node_id) from fun he => h1 (he.trans hC1))]
  have hXcases : ∀ x X, G x = some X →
      (x = aa ∧ X = P2) ∨ (x = na ∧ X = C) ∨
      (x ≠ na ∧ x ≠ aa ∧ g x = some X) := by
    intro x X h
    rw [hG] at h
    rcases wr_cases h with ⟨h1, rfl⟩ | ⟨h1, h2⟩
    · exact Or.inl ⟨h1.trans hP1, rfl⟩
    · rcases wr_cases h2 with ⟨h5, rfl⟩ | ⟨h5, h6⟩
      · exact Or.inr (Or.inl ⟨h5.trans hC1, rfl⟩)
      · exact Or.inr (Or.inr ⟨fun he => h5 (he.trans hC1.symm),
          fun he => h1 (he.trans hP1.symm), h6⟩)
  have hBc : ∀ t T, an.next_node_id = some t → g t = some T → False := by
    intro t T h1 h2
    have h4 := hBnone t (truthyVal_of h1 (hnz t T h2))
    rw [h2] at h4
    exact Option.some_ne_none T h4.1
  intro x y X Y hX hY
  constructor
  · intro hxy
    rcases hXcases x X hX with ⟨hx, rfl⟩ | ⟨hx, rfl⟩ | ⟨hx1, hx2, hfX⟩
    · rw [hP3] at hxy
      obtain rfl := Option.some.inj hxy
      rw [hGna] at hY
      obtain rfl := Option.some.inj hY
      rw [hC2, hx]
    · rw [hC3] at hxy
      by_cases hy1 : y = na
      · rw [hy1] at hxy
        exact absurd hxy (hfresh aa an hga).2.1
      by_cases hy2 : y = aa
      · rw [hy2] at hxy
        exact absurd rfl (hBnone aa (truthyVal_of hxy haa0)).2
      · rw [hGo y hy1 hy2] at hY
        exact (hBc y Y hxy hY).elim
    · by_cases hy1 : y = na
      · rw [hy1] at hxy
        exact absurd hxy (hfresh x X hfX).2.1
      by_cases hy2 : y = aa
      · rw [hy2] at hxy hY
        rw [hGaa] at hY
        obtain rfl := Option.some.inj hY
        rw [hP2]
        exact (hsym x aa X an hfX hga).1 hxy
      · rw [hGo y hy1 hy2] at hY
        exact (hsym x y X Y hfX hY).1 hxy
  · intro hxy
    rcases hXcases x X hX with ⟨hx, rfl⟩ | ⟨hx, rfl⟩ | ⟨hx1, hx2, hfX⟩
    · rw [hP2] at hxy
      rw [hx]
      by_cases hy1 : y = na
      · rw [hy1] at hxy
        exact absurd hxy (hfresh aa an hga).2.2
      by_cases hy2 : y = aa
      · rw [hy2] at hxy
        have h7 := (hsym aa aa an an hga hga).2 hxy
        exact absurd rfl (hBnone aa (truthyVal_of h7 haa0)).2
      · rw [hGo y hy1 hy2] at hY
        exact (hsym aa y an Y hga hY).2 hxy
    · rw [hC2] at hxy
      obtain rfl := Option.some.inj hxy
      rw [hGaa] at hY
      obtain rfl := Option.some.inj hY
      rw [hP3, hx]
    · by_cases hy1 : y = na
      · rw [hy1] at hxy
        exact absurd hxy (hfresh x X hfX).2.2
      by_cases hy2 : y = aa
      · rw [hy2] at hxy
        have h7 := (hsym x aa X an hfX hga).2 hxy
        exact (hBc x X h7 hfX).elim
      · rw [hGo y hy1 hy2] at hY
        exact (hsym x y X Y hfX hY).2 hxy

/-- `add_child_to_node` splice after a self-looped `after` node: the final
record at `aa` links to the fresh child in both directions. -/
theorem symF_insert_paa (g G : Nat → Option Node) (na aa : Nat)
    (an C D : Node)
    (hsym : SymF g)
    (hfresh : ∀ x X, g x = some X → x ≠ na ∧ X.next_node_id ≠ some na ∧
      X.previous_node_id ≠ some na)
    (hga : g aa = some an) (haan : aa ≠ na)
    (han : an.next_node_id = some aa)
    (hC1 : C.node_id = na) (hC2 : C.previous_node_id = some aa)
    (hC3 : C.next_node_id = some aa)
    (hD1 : D.node_id = aa) (hD2 : D.previous_node_id = some na)
    (hD3 : D.next_node_id = some na)
    (hG : G = wr D (wr C g)) :
    SymF G := by
  have hanp : an.previous_node_id = some aa := (hsym aa aa an an hga hga).1 han
  have hGna : G na = some C := by
    rw [hG]
    unfold wr
    rw [if_neg (show ¬(na = D.node_id) from fun he => haan (he.trans hD1).symm),
        if_pos hC1.symm]
  have hGaa : G aa = some D := by
    rw [hG]
    unfold wr
    rw [if_pos hD1.symm]
  have hGo : ∀ t, t ≠ na → t ≠ aa → G t = g t := by
    intro t h1 h2
    rw [hG]
    unfold wr
    rw [if_neg (show ¬(t = D.node_id) from fun he => h2 (he.trans hD1)),
        if_neg (show ¬(t = C.node_id) from fun he => h1 (he.trans hC1))]
  have hXcases : ∀ x X, G x = some X →
      (x = aa ∧ X = D) ∨ (x = na ∧ X = C) ∨
      (x ≠ na ∧ x ≠ aa ∧ g x = some X) := by
    intro x X h
    rw [hG] at h
    rcases wr_cases h with ⟨h1, rfl⟩ | ⟨h1, h2⟩
    · exact Or.inl ⟨h1.trans hD1, rfl⟩
    · rcases wr_cases h2 with ⟨h5, rfl⟩ | ⟨h5, h6⟩
      · exact Or.inr (Or.inl ⟨h5.trans hC1, rfl⟩)
      · exact Or.inr (Or.inr ⟨fun he => h5 (he.trans hC1.symm),
          fun he => h1 (he.trans hD1.symm), h6⟩)
  intro x y X Y hX hY
  constructor
  · intro hxy
    rcases hXcases x X hX with ⟨hx, rfl⟩ | ⟨hx, rfl⟩ | ⟨hx1, hx2, hfX⟩
    · rw [hD3] at hxy
      obtain rfl := Option.some.inj hxy
      rw [hGna] at hY
      obtain rfl := Option.some.inj hY
      rw [hC2, hx]
    · rw [hC3] at hxy
      obtain rfl := Option.some.inj hxy
      rw [hGaa] at hY
      obtain rfl := Option.some.inj hY
      rw [hD2, hx]
    · by_cases hy1 : y = na
      · rw [hy1] at hxy
        exact absurd hxy (hfresh x X hfX).2.1
      by_cases hy2 : y = aa
      · rw [hy2] at hxy
        have h7 := (hsym x aa X an hfX hga).1 hxy
        rw [hanp] at h7
        exact absurd (Option.some.inj h7).symm hx2
      · rw [hGo y hy1 hy2] at hY
        exact (hsym x y X Y hfX hY).1 hxy
  · intro hxy
    rcases hXcases x X hX with ⟨hx, rfl⟩ | ⟨hx, rfl⟩ | ⟨hx1, hx2, hfX⟩
    · rw [hD2] at hxy
      obtain rfl := Option.some.inj hxy
      rw [hGna] at hY
      obtain rfl := Option.some.inj hY
      rw [hC3, hx]
    · rw [hC2] at hxy
      obtain rfl := Option.some.inj hxy
      rw [hGaa] at hY
      obtain rfl := Option.some.inj hY
      rw [hD3, hx]
    · by_cases hy1 : y = na
      · rw [hy1] at hxy
        exact absurd hxy (hfresh x X hfX).2.2
      by_cases hy2 : y = aa
      · rw [hy2] at hxy
        have h7 := (hsym x aa X an hfX hga).2 hxy
        rw [han] at h7
        exact absurd (Option.some.inj h7).symm hx2
      · rw [hGo y hy1 hy2] at hY
        exact (hsym x y X Y hfX hY).2 hxy

/-- Dynamic validity guard for `move_node`: recompute the touched positions
exactly the way `move_node` does and reject the degenerate self-referential
configurations (a self-`after`, a self-looped moved node, equal old
neighbours, or an insertion point folding back onto the moved node). -/
def moveOk (s : Store) (nid : Nat) (af : Option Nat) : Bool :=
  match load_node s nid with
  | none => true
  | some node =>
    let old_prev := (truthyVal node.previous_node_id).bind (fun i => load_node s i)
    let old_next := (truthyVal node.next_node_id).bind (fun i => load_node s i)
    let s1 := match old_prev with
      | some p => (save_node s { p with next_node_id := node.next_node_id }).1
      | none => s
    let s2 := match old_next with
      | some q => (save_node s1 { q with previous_node_id := node.previous_node_id }).1
      | none => s1
    let new_after := (truthyVal af).bind (fun i => load_node s2 i)
    let new_before := match new_after with
      | some a => (truthyVal a.next_node_id).bind (fun i => load_node s2 i)
      | none => none
    !(af == some nid) &&
    !(truthyVal node.previous_node_id == some nid) &&
    !(truthyVal node.next_node_id == some nid) &&
    !((truthyVal node.previous_node_id).isSome &&
      truthyVal node.previous_node_id == truthyVal node.next_node_id) &&
    !(new_before.map Node.node_id == some nid) &&
    !(new_after.isSome && new_before.map Node.node_id == new_after.map Node.node_id)

/-- Dynamic validity guard for `add_child_to_node`: the drawn child node id
must be fresh — nonzero, not an existing node id, not targeted by any
sibling pointer or container `child_node_id`, and distinct from the
requested `after0`. -/
def addChildOk (s : Store) (node_id : Nat) (cdata : CompData)
    (after0 : Option Nat) : Bool :=
  match load_node s node_id with
  | none => true
  | some _ =>
    let na := s.idStream (s.idIdx + 2)
    !(na == 0) &&
    !(after0 == some na) &&
    s.nodes.all (fun n => !(n.node_id == na) && !(n.next_node_id == some na) &&
      !(n.previous_node_id == some na)) &&
    s.comps.all (fun c => !(c.child_node_id == some na)) &&
    (match cdata.containerChild with
     | some ch => !(ch == some na)
     | none => true)

/-- The tree-mutating operations of spec §8 (create / move / deleteSubtree),
as invoked through the public routes. -/
inductive TreeOp where
  | addChild (parent : Nat) (cdata : CompData) (after0 : Option Nat) (walk_fuel : Nat)
  | move (nid : Nat) (new_parent after : Option Nat)
  | deleteSubtree (fuel : Nat) (nid : Nat)

def applyTreeOp (s : Store) : TreeOp → Store
  | .addChild parent cdata after0 walk_fuel =>
    (add_child_to_node s parent cdata after0 walk_fuel).1
  | .move nid np af => (move_node s nid np af).1
  | .deleteSubtree fuel nid => delete_node_tree fuel s nid

def treeOpOk (s : Store) : TreeOp → Bool
  | .addChild parent cdata after0 _ => addChildOk s parent cdata after0
  | .move nid _ af => moveOk s nid af
  | .deleteSubtree _ _ => true

def applyTreeOps : Store → List TreeOp → Store
  | s, [] => s
  | s, op :: rest => applyTreeOps (applyTreeOp s op) rest

def treeOpsOk : Store → List TreeOp → Bool
  | _, [] => true
  | s, op :: rest => treeOpOk s op && treeOpsOk (applyTreeOp s op) rest

/-- Evolution that only ever removes node files: each load either
disappears or is unchanged, and well-formedness is preserved. -/
def ShrinkWF (s t : Store) : Prop :=
  (∀ k, load_node t k = none ∨ load_node t k = load_node s k) ∧
  (NodesWF s → NodesWF t)

theorem shrinkWF_refl (s : Store) : ShrinkWF s s :=
  ⟨fun _ => Or.inr rfl, fun h => h⟩

theorem shrinkWF_trans {s t u : Store} (h1 : ShrinkWF s t) (h2 : ShrinkWF t u) :
    ShrinkWF s u := by
  refine ⟨fun k => ?_, fun hw => h2.2 (h1.2 hw)⟩
  rcases h2.1 k with h | h
  · exact Or.inl h
  · rcases h1.1 k with h3 | h3
    · exact Or.inl (h.trans h3)
    · exact Or.inr (h.trans h3)

theorem shrinkWF_delete_node (s : Store) (nid : Nat) :
    ShrinkWF s (delete_node s nid).1 := by
  unfold delete_node
  cases hl : load_node s nid with
  | none => exact shrinkWF_refl s
  | some node =>
    have h1 : (if node.ref_id ≠ 0 then (delete_reference s node.ref_id).1 else s).nodes
        = s.nodes := by
      split
      · exact delete_reference_nodes s node.ref_id
      · rfl
    constructor
    · intro k
      rw [load_node_delete_node_file]
      by_cases hk : k = nid
      · rw [if_pos hk]
        exact Or.inl rfl
      · rw [if_neg hk]
        exact Or.inr (load_node_congr h1 k)
    · intro hwf
      exact nodesWF_delete_file _ nid (nodesWF_congr h1 hwf)

theorem shrinkWF_delete_tree : ∀ (fuel : Nat) (s : Store) (nid : Nat),
    ShrinkWF s (delete_node_tree fuel s nid) := by
  intro fuel
  induction fuel with
  | zero => intro s nid; exact shrinkWF_refl s
  | succ fuel ih =>
    intro s nid
    unfold delete_node_tree
    cases hl : load_node s nid with
    | none => exact shrinkWF_refl s
    | some node =>
      have hs1 : ShrinkWF s (match truthyVal node.next_node_id with
          | some nid2 => delete_node_tree fuel s nid2
          | none => s) := by
        split
        · exact ih s _
        · exact shrinkWF_refl s
      have hs2 : ∀ s1 : Store, ShrinkWF s s1 →
          ShrinkWF s (match (if node.ref_id ≠ 0 then load_reference s1 node.ref_id
              else none) with
            | some r =>
              match load_component_by_id s1 r.comp_id with
              | some comp =>
                match comp.activeChild with
                | some cid => delete_node_tree fuel s1 cid
                | none => s1
              | none => s1
            | none => s1) := by
        intro s1 h1
        split
        · split
          · split
            · exact shrinkWF_trans h1 (ih s1 _)
            · exact h1
          · exact h1
        · exact h1
      exact shrinkWF_trans (hs2 _ hs1) (shrinkWF_delete_node _ nid)

theorem symF_congr {f g : Nat → Option Node} (h : ∀ k, f k = g k)
    (hs : SymF f) : SymF g := by
  intro x y X Y hX hY
  rw [← h x] at hX
  rw [← h y] at hY
  exact hs x y X Y hX hY

theorem deleteSubtree_preserves (fuel : Nat) (s : Store) (nid : Nat)
    (hwf : NodesWF s) (hsym : SymF (load_node s)) :
    SymF (load_node (delete_node_tree fuel s nid)) ∧
    NodesWF (delete_node_tree fuel s nid) := by
  have h := shrinkWF_delete_tree fuel s nid
  exact ⟨symF_shrink (load_node s) _ h.1 hsym, h.2 hwf⟩

/-- Definitional record helpers for the splice proofs. -/
@[reducible] def stampN (n : Node) (c : Nat) : Node := { n with updated_at := c }

@[reducible] def withNext (n : Node) (v : Option Nat) : Node := { n with next_node_id := v }

@[reducible] def withPrev (n : Node) (v : Option Nat) : Node := { n with previous_node_id := v }

/-- The record `move_node` builds for the moved node. -/
@[reducible] def movedRec (node : Node) (np af : Option Nat) (nb : Option Node) : Node :=
  { node with parent_node_id := np, previous_node_id := af,
              next_node_id := nb.map Node.node_id }

/-- The moved node viewed as detached (both sibling pointers cleared). -/
@[reducible] def detachedRec (node : Node) : Node :=
  { node with previous_node_id := none, next_node_id := none }

/-- The insertion phase of `move_node`, starting from the post-detach store
`s2e` (verbatim the second half of `move_node`). -/
def move_splice (s2e : Store) (nid : Nat) (node : Node) (np af : Option Nat) : Store :=
  let new_after := (truthyVal af).bind (fun i => load_node s2e i)
  let new_before := match new_after with
    | some a => (truthyVal a.next_node_id).bind (fun i => load_node s2e i)
    | none => none
  let moved : Node :=
    { node with parent_node_id := np, previous_node_id := af,
                next_node_id := new_before.map Node.node_id }
  let s3 := match new_after with
    | some a => (save_node s2e { a with next_node_id := some nid }).1
    | none => s2e
  let s4 := match new_before with
    | some b => (save_node s3 { b with previous_node_id := some nid }).1
    | none => s3
  (save_node s4 moved).1

/-- The insertion phase preserves symmetry and node-file well-formedness,
given the invariants established by the detach phase (`G` is the detached
view of `s2e`) and the dynamic non-degeneracy checks. -/
theorem move_splice_sym (s2e : Store) (nid : Nat) (node : Node) (np af : Option Nat)
    (G : Nat → Option Node)
    (hGs : ∀ k, k ≠ nid → G k = load_node s2e k)
    (hstale : load_node s2e nid = some node)
    (hsymG : SymF G) (hniG : NoIn G nid) (hnzG : NZ G)
    (hnodeid : node.node_id = nid) (hnid0 : nid ≠ 0)
    (haf : af ≠ some nid)
    (hwf2 : NodesWF s2e)
    (hcb : (match (truthyVal af).bind (fun i => load_node s2e i) with
            | some a => (truthyVal a.next_node_id).bind (fun i => load_node s2e i)
            | none => none).map Node.node_id ≠ some nid)
    (hcab : ∀ a b, (truthyVal af).bind (fun i => load_node s2e i) = some a →
        (truthyVal a.next_node_id).bind (fun i => load_node s2e i) = some b →
        b.node_id ≠ a.node_id) :
    SymF (load_node (move_splice s2e nid node np af)) ∧
    NodesWF (move_splice s2e nid node np af) := by
  cases hna : (truthyVal af).bind (fun i => load_node s2e i) with
  | none =>
    have hstep : move_splice s2e nid node np af =
        (save_node s2e (movedRec node np af none)).1 := by
      unfold move_splice
      simp only [hna]
    have hAabs : (truthyVal af).bind G = none := by
      cases htv : truthyVal af with
      | none => rfl
      | some aa =>
        obtain ⟨hafa, haa0⟩ := truthyVal_eq_some htv
        have haan : aa ≠ nid := fun he => haf (by rw [hafa, he])
        rw [htv] at hna
        have h5 : load_node s2e aa = none := hna
        show G aa = none
        rw [hGs aa haan]
        exact h5
    have e1 : load_node (save_node s2e (movedRec node np af none)).1 =
        wr (stampN (movedRec node np af none) s2e.clock) (load_node s2e) :=
      funext fun k => load_save_wr s2e (movedRec node np af none) k
    rw [← hstep] at e1
    have hM1 : (stampN (movedRec node np af none) s2e.clock).node_id = nid := hnodeid
    have hpt : ∀ k, wr (stampN (movedRec node np af none) s2e.clock) G k =
        load_node (move_splice s2e nid node np af) k := by
      intro k
      rw [e1]
      unfold wr
      by_cases h1 : k = (stampN (movedRec node np af none) s2e.clock).node_id
      · rw [if_pos h1, if_pos h1]
      · rw [if_neg h1, if_neg h1]
        exact hGs k (fun he => h1 (he.trans hM1.symm))
    constructor
    · exact symF_congr hpt (symF_attach_none G _ nid af _ hsymG hniG hnzG haf hAabs
        hM1 rfl rfl rfl)
    · rw [hstep]
      exact nodesWF_save s2e _ hwf2 (fun he => hnid0 (hnodeid.symm.trans he))
  | some a =>
    obtain ⟨aa, htva, hla⟩ := Option.bind_eq_some.mp hna
    obtain ⟨hafa, haa0⟩ := truthyVal_eq_some htva
    have haan : aa ≠ nid := fun he => haf (by rw [hafa, he])
    have haid : a.node_id = aa := load_node_id hla
    have hga : G aa = some a := by
      rw [hGs aa haan]
      exact hla
    cases hnb : (truthyVal a.next_node_id).bind (fun i => load_node s2e i) with
    | none =>
      have hstep : move_splice s2e nid node np af =
          (save_node (save_node s2e (withNext a (some nid))).1
            (movedRec node np af none)).1 := by
        unfold move_splice
        simp only [hna, hnb]
      have hBabs : (truthyVal a.next_node_id).bind G = none := by
        cases htb : truthyVal a.next_node_id with
        | none => rfl
        | some bb =>
          rw [htb] at hnb
          have h5 : load_node s2e bb = none := hnb
          have hbbn : bb ≠ nid := fun he => by
            rw [he, hstale] at h5
            cases h5
          show G bb = none
          rw [hGs bb hbbn]
          exact h5
      have e1 : load_node (save_node s2e (withNext a (some nid))).1 =
          wr (stampN (withNext a (some nid)) s2e.clock) (load_node s2e) :=
        funext fun k => load_save_wr s2e (withNext a (some nid)) k
      have e2 : load_node (save_node (save_node s2e (withNext a (some nid))).1
            (movedRec node np af none)).1 =
          wr (stampN (movedRec node np af none)
              (save_node s2e (withNext a (some nid))).1.clock)
            (load_node (save_node s2e (withNext a (some nid))).1) :=
        funext fun k => load_save_wr (save_node s2e (withNext a (some nid))).1
          (movedRec node np af none) k
      rw [e1, ← hstep] at e2
      have hM1 : (stampN (movedRec node np af none)
          (save_node s2e (withNext a (some nid))).1.clock).node_id = nid := hnodeid
      have hA1 : (stampN (withNext a (some nid)) s2e.clock).node_id = aa := haid
      have hpt : ∀ k, wr (stampN (movedRec node np af none)
            (save_node s2e (withNext a (some nid))).1.clock)
          (wr (stampN (withNext a (some nid)) s2e.clock) G) k =
          load_node (move_splice s2e nid node np af) k := by
        intro k
        rw [e2]
        unfold wr
        by_cases h1 : k = (stampN (movedRec node np af none)
            (save_node s2e (withNext a (some nid))).1.clock).node_id
        · rw [if_pos h1, if_pos h1]
        · rw [if_neg h1, if_neg h1]
          by_cases h2 : k = (stampN (withNext a (some nid)) s2e.clock).node_id
          · rw [if_pos h2, if_pos h2]
          · rw [if_neg h2, if_neg h2]
            exact hGs k (fun he => h1 (he.trans hM1.symm))
      constructor
      · exact symF_congr hpt (symF_attach_a G _ nid aa af a _ _ hsymG hniG hnzG
          htva hga hBabs haan hM1 hafa rfl hA1 rfl rfl rfl)
      · rw [hstep]
        exact nodesWF_save _ _
          (nodesWF_save s2e _ hwf2 (fun he => haa0 (haid.symm.trans he)))
          (fun he => hnid0 (hnodeid.symm.trans he))
    | some b =>
      obtain ⟨bb, htvb, hlb⟩ := Option.bind_eq_some.mp hnb
      obtain ⟨hanb, hbb0⟩ := truthyVal_eq_some htvb
      have hbid : b.node_id = bb := load_node_id hlb
      simp only [hna, hnb, Option.map_some'] at hcb
      have hbbn : bb ≠ nid := fun he => hcb (congrArg some (hbid.trans he))
      have hbba : bb ≠ aa := fun he =>
        (hcab a b hna hnb) (hbid.trans (he.trans haid.symm))
      have hgb : G bb = some b := by
        rw [hGs bb hbbn]
        exact hlb
      have hstep : move_splice s2e nid node np af =
          (save_node (save_node (save_node s2e (withNext a (some nid))).1
              (withPrev b (some nid))).1
            (movedRec node np af (some b))).1 := by
        unfold move_splice
        simp only [hna, hnb]
      have e1 : load_node (save_node s2e (withNext a (some nid))).1 =
          wr (stampN (withNext a (some nid)) s2e.clock) (load_node s2e) :=
        funext fun k => load_save_wr s2e (withNext a (some nid)) k
      have e2 : load_node (save_node (save_node s2e (withNext a (some nid))).1
            (withPrev b (some nid))).1 =
          wr (stampN (withPrev b (some nid))
              (save_node s2e (withNext a (some nid))).1.clock)
            (load_node (save_node s2e (withNext a (some nid))).1) :=
        funext fun k => load_save_wr (save_node s2e (withNext a (some nid))).1
          (withPrev b (some nid)) k
      have e3 : load_node (save_node (save_node (save_node s2e
              (withNext a (some nid))).1 (withPrev b (some nid))).1
            (movedRec node np af (some b))).1 =
          wr (stampN (movedRec node np af (some b))
              (save_node (save_node s2e (withNext a (some nid))).1
                (withPrev b (some nid))).1.clock)
            (load_node (save_node (save_node s2e (withNext a (some nid))).1
              (withPrev b (some nid))).1) :=
        funext fun k => load_save_wr (save_node (save_node s2e
            (withNext a (some nid))).1 (withPrev b (some nid))).1
          (movedRec node np af (some b)) k
      rw [e1] at e2
      rw [e2, ← hstep] at e3
      have hM1 : (stampN (movedRec node np af (some b))
          (save_node (save_node s2e (withNext a (some nid))).1
            (withPrev b (some nid))).1.clock).node_id = nid := hnodeid
      have hB1 : (stampN (withPrev b (some nid))
          (save_node s2e (withNext a (some nid))).1.clock).node_id = bb := hbid
      have hA1 : (stampN (withNext a (some nid)) s2e.clock).node_id = aa := haid
      have hpt : ∀ k, wr (stampN (movedRec node np af (some b))
            (save_node (save_node s2e (withNext a (some nid))).1
              (withPrev b (some nid))).1.clock)
          (wr (stampN (withPrev b (some nid))
              (save_node s2e (withNext a (some nid))).1.clock)
            (wr (stampN (withNext a (some nid)) s2e.clock) G)) k =
          load_node (move_splice s2e nid node np af) k := by
        intro k
        rw [e3]
        unfold wr
        by_cases h1 : k = (stampN (movedRec node np af (some b))
            (save_node (save_node s2e (withNext a (some nid))).1
              (withPrev b (some nid))).1.clock).node_id
        · rw [if_pos h1, if_pos h1]
        · rw [if_neg h1, if_neg h1]
          by_cases h2 : k = (stampN (withPrev b (some nid))
              (save_node s2e (withNext a (some nid))).1.clock).node_id
          · rw [if_pos h2, if_pos h2]
          · rw [if_neg h2, if_neg h2]
            by_cases h3 : k = (stampN (withNext a (some nid)) s2e.clock).node_id
            · rw [if_pos h3, if_pos h3]
            · rw [if_neg h3, if_neg h3]
              exact hGs k (fun he => h1 (he.trans hM1.symm))
      constructor
      · exact symF_congr hpt (symF_attach_ab G _ nid aa bb af a b _ _ _ hsymG hniG hnzG
          htva hga hanb hbb0 hgb haan hbbn hbba hM1 hafa (congrArg some hbid)
          hA1 rfl rfl hB1 rfl rfl rfl)
      · rw [hstep]
        exact nodesWF_save _ _
          (nodesWF_save _ _
            (nodesWF_save s2e _ hwf2 (fun he => haa0 (haid.symm.trans he)))
            (fun he => hbb0 (hbid.symm.trans he)))
          (fun he => hnid0 (hnodeid.symm.trans he))

theorem bne_ne {α : Type} [BEq α] [LawfulBEq α] {x y : α} (h : (!(x == y)) = true) :
    x ≠ y := by simpa using h

/-- A `move_node` call passing the dynamic `moveOk` checks preserves
sibling-link symmetry and node-file well-formedness. -/
theorem move_node_preserves (s : Store) (nid : Nat) (np af : Option Nat)
    (hwf : NodesWF s) (hsym : SymF (load_node s))
    (hok : moveOk s nid af = true) :
    SymF (load_node (move_node s nid np af).1) ∧ NodesWF (move_node s nid np af).1 := by
  cases hl : load_node s nid with
  | none =>
    have hmv : move_node s nid np af = (s, false) := by
      unfold move_node
      rw [hl]
    rw [hmv]
    exact ⟨hsym, hwf⟩
  | some node =>
    have hnodeid : node.node_id = nid := load_node_id hl
    have hnid0 : nid ≠ 0 := nz_load s hwf nid node hl
    have hdid : (detachedRec node).node_id = nid := hnodeid
    unfold moveOk at hok
    rw [hl] at hok
    simp only [Bool.and_eq_true] at hok
    obtain ⟨⟨⟨⟨⟨hc1, hc2⟩, hc3⟩, hc4⟩, hc5⟩, hc6⟩ := hok
    have haf : af ≠ some nid := by simpa using hc1
    have hPn : truthyVal node.previous_node_id ≠ some nid := by simpa using hc2
    have hQn : truthyVal node.next_node_id ≠ some nid := by simpa using hc3
    cases hop : (truthyVal node.previous_node_id).bind (fun i => load_node s i) with
    | some p =>
      obtain ⟨pp, hppv, hfp⟩ := Option.bind_eq_some.mp hop
      obtain ⟨hpraw, hpp0⟩ := truthyVal_eq_some hppv
      have hpid : p.node_id = pp := load_node_id hfp
      have hppn : pp ≠ nid := fun he => hPn (by rw [hppv, he])
      cases hoq : (truthyVal node.next_node_id).bind (fun i => load_node s i) with
      | some q =>
        obtain ⟨qq, hqqv, hfq⟩ := Option.bind_eq_some.mp hoq
        obtain ⟨hqraw, hqq0⟩ := truthyVal_eq_some hqqv
        have hqid : q.node_id = qq := load_node_id hfq
        have hqqn : qq ≠ nid := fun he => hQn (by rw [hqqv, he])
        have hppq : pp ≠ qq := by simpa [hppv, hqqv] using hc4
        have e1 : load_node (save_node s (withNext p node.next_node_id)).1 =
            wr (stampN (withNext p node.next_node_id) s.clock) (load_node s) :=
          funext fun k => load_save_wr s (withNext p node.next_node_id) k
        have e2 : load_node (save_node (save_node s (withNext p node.next_node_id)).1
              (withPrev q node.previous_node_id)).1 =
            wr (stampN (withPrev q node.previous_node_id)
                (save_node s (withNext p node.next_node_id)).1.clock)
              (load_node (save_node s (withNext p node.next_node_id)).1) :=
          funext fun k => load_save_wr (save_node s (withNext p node.next_node_id)).1
            (withPrev q node.previous_node_id) k
        rw [e1] at e2
        have hdet := symF_detach_pq (load_node s)
          (wr (detachedRec node) (load_node (save_node (save_node s
            (withNext p node.next_node_id)).1 (withPrev q node.previous_node_id)).1))
          nid pp qq node p q (detachedRec node)
          (stampN (withPrev q node.previous_node_id)
            (save_node s (withNext p node.next_node_id)).1.clock)
          (stampN (withNext p node.next_node_id) s.clock)
          hsym (ids_load s) (nz_load s hwf) hl hpraw hpp0 hqraw hqq0 hfp hfq
          hppn hqqn hppq hdid rfl rfl hqid rfl rfl hpid rfl rfl (by rw [e2])
        obtain ⟨hsymG, hniG, _, hnzG⟩ := hdet
        have hGs : ∀ k, k ≠ nid →
            wr (detachedRec node) (load_node (save_node (save_node s
              (withNext p node.next_node_id)).1 (withPrev q node.previous_node_id)).1) k =
            load_node (save_node (save_node s (withNext p node.next_node_id)).1
              (withPrev q node.previous_node_id)).1 k := by
          intro k hk
          unfold wr
          rw [if_neg (fun he => hk (he.trans hdid))]
        have hstale : load_node (save_node (save_node s (withNext p node.next_node_id)).1
            (withPrev q node.previous_node_id)).1 nid = some node := by
          rw [e2]
          unfold wr
          rw [if_neg (show ¬(nid = (stampN (withPrev q node.previous_node_id)
                (save_node s (withNext p node.next_node_id)).1.clock).node_id) from
              fun he => hqqn (he.trans hqid).symm),
            if_neg (show ¬(nid = (stampN (withNext p node.next_node_id) s.clock).node_id) from
              fun he => hppn (he.trans hpid).symm)]
          exact hl
        have hwf2 : NodesWF (save_node (save_node s (withNext p node.next_node_id)).1
            (withPrev q node.previous_node_id)).1 :=
          nodesWF_save _ _
            (nodesWF_save s _ hwf (fun he => hpp0 (hpid.symm.trans he)))
            (fun he => hqq0 (hqid.symm.trans he))
        simp only [hop, hoq] at hc5 hc6
        have hcb := bne_ne hc5
        have hcab : ∀ a b,
            (truthyVal af).bind (fun i => load_node (save_node (save_node s
              (withNext p node.next_node_id)).1 (withPrev q node.previous_node_id)).1 i)
              = some a →
            (truthyVal a.next_node_id).bind (fun i => load_node (save_node (save_node s
              (withNext p node.next_node_id)).1 (withPrev q node.previous_node_id)).1 i)
              = some b →
            b.node_id ≠ a.node_id := by
          intro a b h1 h2
          simp only [h1, h2] at hc6
          simpa using hc6
        have hmv : (move_node s nid np af).1 = move_splice (save_node (save_node s
            (withNext p node.next_node_id)).1 (withPrev q node.previous_node_id)).1
            nid node np af := by
          unfold move_node move_splice
          rw [hl]
          simp only [hop, hoq]
        rw [hmv]
        exact move_splice_sym _ nid node np af _ hGs hstale hsymG hniG hnzG
          hnodeid hnid0 haf hwf2 hcb hcab
      | none =>
        have e1 : load_node (save_node s (withNext p node.next_node_id)).1 =
            wr (stampN (withNext p node.next_node_id) s.clock) (load_node s) :=
          funext fun k => load_save_wr s (withNext p node.next_node_id) k
        have hdet := symF_detach_p (load_node s)
          (wr (detachedRec node)
            (load_node (save_node s (withNext p node.next_node_id)).1))
          nid pp node p (detachedRec node)
          (stampN (withNext p node.next_node_id) s.clock)
          hsym (ids_load s) (nz_load s hwf) hl hpraw hpp0 hfp hoq hQn
          hppn hdid rfl rfl hpid rfl rfl (by rw [e1])
        obtain ⟨hsymG, hniG, _, hnzG⟩ := hdet
        have hGs : ∀ k, k ≠ nid →
            wr (detachedRec node)
              (load_node (save_node s (withNext p node.next_node_id)).1) k =
            load_node (save_node s (withNext p node.next_node_id)).1 k := by
          intro k hk
          unfold wr
          rw [if_neg (fun he => hk (he.trans hdid))]
        have hstale : load_node (save_node s (withNext p node.next_node_id)).1 nid
            = some node := by
          rw [e1]
          unfold wr
          rw [if_neg (show ¬(nid = (stampN (withNext p node.next_node_id) s.clock).node_id)
              from fun he => hppn (he.trans hpid).symm)]
          exact hl
        have hwf2 : NodesWF (save_node s (withNext p node.next_node_id)).1 :=
          nodesWF_save s _ hwf (fun he => hpp0 (hpid.symm.trans he))
        simp only [hop, hoq] at hc5 hc6
        have hcb := bne_ne hc5
        have hcab : ∀ a b,
            (truthyVal af).bind (fun i =>
              load_node (save_node s (withNext p node.next_node_id)).1 i) = some a →
            (truthyVal a.next_node_id).bind (fun i =>
              load_node (save_node s (withNext p node.next_node_id)).1 i) = some b →
            b.node_id ≠ a.node_id := by
          intro a b h1 h2
          simp only [h1, h2] at hc6
          simpa using hc6
        have hmv : (move_node s nid np af).1 =
            move_splice (save_node s (withNext p node.next_node_id)).1 nid node np af := by
          unfold move_node move_splice
          rw [hl]
          simp only [hop, hoq]
        rw [hmv]
        exact move_splice_sym _ nid node np af _ hGs hstale hsymG hniG hnzG
          hnodeid hnid0 haf hwf2 hcb hcab
    | none =>
      cases hoq : (truthyVal node.next_node_id).bind (fun i => load_node s i) with
      | some q =>
        obtain ⟨qq, hqqv, hfq⟩ := Option.bind_eq_some.mp hoq
        obtain ⟨hqraw, hqq0⟩ := truthyVal_eq_some hqqv
        have hqid : q.node_id = qq := load_node_id hfq
        have hqqn : qq ≠ nid := fun he => hQn (by rw [hqqv, he])
        have e1 : load_node (save_node s (withPrev q node.previous_node_id)).1 =
            wr (stampN (withPrev q node.previous_node_id) s.clock) (load_node s) :=
          funext fun k => load_save_wr s (withPrev q node.previous_node_id) k
        have hdet := symF_detach_q (load_node s)
          (wr (detachedRec node)
            (load_node (save_node s (withPrev q node.previous_node_id)).1))
          nid qq node q (detachedRec node)
          (stampN (withPrev q node.previous_node_id) s.clock)
          hsym (ids_load s) (nz_load s hwf) hl hqraw hqq0 hfq hop hPn
          hqqn hdid rfl rfl hqid rfl rfl (by rw [e1])
        obtain ⟨hsymG, hniG, _, hnzG⟩ := hdet
        have hGs : ∀ k, k ≠ nid →
            wr (detachedRec node)
              (load_node (save_node s (withPrev q node.previous_node_id)).1) k =
            load_node (save_node s (withPrev q node.previous_node_id)).1 k := by
          intro k hk
          unfold wr
          rw [if_neg (fun he => hk (he.trans hdid))]
        have hstale : load_node (save_node s (withPrev q node.previous_node_id)).1 nid
            = some node := by
          rw [e1]
          unfold wr
          rw [if_neg (show ¬(nid = (stampN (withPrev q node.previous_node_id)
              s.clock).node_id) from fun he => hqqn (he.trans hqid).symm)]
          exact hl
        have hwf2 : NodesWF (save_node s (withPrev q node.previous_node_id)).1 :=
          nodesWF_save s _ hwf (fun he => hqq0 (hqid.symm.trans he))
        simp only [hop, hoq] at hc5 hc6
        have hcb := bne_ne hc5
        have hcab : ∀ a b,
            (truthyVal af).bind (fun i =>
              load_node (save_node s (withPrev q node.previous_node_id)).1 i) = some a →
            (truthyVal a.next_node_id).bind (fun i =>
              load_node (save_node s (withPrev q node.previous_node_id)).1 i) = some b →
            b.node_id ≠ a.node_id := by
          intro a b h1 h2
          simp only [h1, h2] at hc6
          simpa using hc6
        have hmv : (move_node s nid np af).1 =
            move_splice (save_node s (withPrev q node.previous_node_id)).1 nid node np af := by
          unfold move_node move_splice
          rw [hl]
          simp only [hop, hoq]
        rw [hmv]
        exact move_splice_sym _ nid node np af _ hGs hstale hsymG hniG hnzG
          hnodeid hnid0 haf hwf2 hcb hcab
      | none =>
        have hdet := symF_detach_none (load_node s)
          (wr (detachedRec node) (load_node s)) nid node (detachedRec node)
          hsym (ids_load s) (nz_load s hwf) hl hop hoq hdid rfl rfl rfl
        obtain ⟨hsymG, hniG, _, hnzG⟩ := hdet
        have hGs : ∀ k, k ≠ nid →
            wr (detachedRec node) (load_node s) k = load_node s k := by
          intro k hk
          unfold wr
          rw [if_neg (fun he => hk (he.trans hdid))]
        simp only [hop, hoq] at hc5 hc6
        have hcb := bne_ne hc5
        have hcab : ∀ a b,
            (truthyVal af).bind (fun i => load_node s i) = some a →
            (truthyVal a.next_node_id).bind (fun i => load_node s i) = some b →
            b.node_id ≠ a.node_id := by
          intro a b h1 h2
          simp only [h1, h2] at hc6
          simpa using hc6
        have hmv : (move_node s nid np af).1 = move_splice s nid node np af := by
          unfold move_node move_splice
          rw [hl]
          simp only [hop, hoq]
        rw [hmv]
        exact move_splice_sym s nid node np af _ hGs hl hsymG hniG hnzG
          hnodeid hnid0 haf hwf hcb hcab

theorem create_reference_frame (s : Store) (cid : Nat) (ov : Option Config)
    (oid : Nat) :
    (create_reference_to_component s cid ov oid).1.nodes = s.nodes ∧
    (create_reference_to_component s cid ov oid).1.idIdx = s.idIdx + 1 ∧
    (create_reference_to_component s cid ov oid).1.idStream = s.idStream := by
  unfold create_reference_to_component increment_component_ref_count
  cases load_component_by_id s cid <;> exact ⟨rfl, rfl, rfl⟩

theorem load_component_by_id_mem {s : Store} {cid : Nat} {c : Component}
    (h : load_component_by_id s cid = some c) : c ∈ s.comps := by
  have h2 := (findSome?_load_some s cid c COMPONENT_TYPES h).2
  exact List.mem_of_find?_eq_some (show s.comps.find?
    (fun x => x.ctype == c.ctype && x.comp_id == cid) = some c from h2)

theorem create_reference_comps_mem (s : Store) (cid : Nat) (ov : Option Config)
    (oid : Nat) {c : Component}
    (h : c ∈ (create_reference_to_component s cid ov oid).1.comps) :
    c ∈ s.comps ∨ ∃ c0 : Component, c0 ∈ s.comps ∧ c.data = c0.data := by
  unfold create_reference_to_component increment_component_ref_count at h
  cases hlc : load_component_by_id s cid with
  | none =>
    rw [hlc] at h
    exact Or.inl h
  | some c0 =>
    rw [hlc] at h
    have h2 : c ∈ (save_component s c0.increment_reference_count).1.comps := h
    rcases mem_putBy compKey _ c s.comps h2 with h3 | h3
    · exact Or.inr ⟨c0, load_component_by_id_mem hlc, by rw [h3]; rfl⟩
    · exact Or.inl h3

theorem find_last_sibling_spec (s : Store) : ∀ (fuel start r : Nat),
    find_last_sibling s fuel start = some r →
    r = start ∨ ∃ x X, load_node s x = some X ∧ X.next_node_id = some r := by
  intro fuel
  induction fuel with
  | zero =>
    intro start r h
    cases h
  | succ fuel ih =>
    intro start r h
    unfold find_last_sibling at h
    cases hl : load_node s start with
    | none =>
      simp only [hl] at h
      exact Or.inl (Option.some.inj h).symm
    | some current =>
      simp only [hl] at h
      cases hnx : current.next_node_id with
      | none =>
        simp only [hnx] at h
        exact Or.inl (Option.some.inj h).symm
      | some nid2 =>
        simp only [hnx] at h
        by_cases h0 : nid2 = 0
        · rw [if_pos h0] at h
          exact Or.inl (Option.some.inj h).symm
        · rw [if_neg h0] at h
          rcases ih nid2 r h with rfl | ⟨x, X, hx1, hx2⟩
          · exact Or.inr ⟨start, current, hl, hnx⟩
          · exact Or.inr ⟨x, X, hx1, hx2⟩

/-- The Node record `add_child_to_node` files for the new child. -/
@[reducible] def childRec (sc : Store) (parent_id rid : Nat) (after1 nx : Option Nat) : Node :=
  { node_id := (generate_id sc).1, ref_id := rid, parent_node_id := some parent_id,
    previous_node_id := after1, next_node_id := nx,
    created_at := (generate_id sc).2.clock, updated_at := (generate_id sc).2.clock }

/-- The node-splicing tail of `add_child_to_node` (everything from the
sibling-pointer computation on), starting from the store `sc` that already
holds the new component and reference. -/
def add_splice (sc : Store) (parent_id rid : Nat) (after1 : Option Nat) : Store :=
  let prev_node_id := after1
  let next_node_id : Option Nat := match truthyVal after1 with
    | some a => match load_node sc a with
      | some an => an.next_node_id
      | none => none
    | none => none
  let gn := generate_id sc
  let child : Node :=
    { node_id := gn.1, ref_id := rid, parent_node_id := some parent_id,
      previous_node_id := prev_node_id, next_node_id := next_node_id,
      created_at := gn.2.clock, updated_at := gn.2.clock }
  let se := (save_node gn.2 child).1
  let sf := match truthyVal prev_node_id with
    | some p => match load_node se p with
      | some pn => (save_node se { pn with next_node_id := some gn.1 }).1
      | none => se
    | none => se
  match truthyVal next_node_id with
  | some q => match load_node sf q with
    | some qn => (save_node sf { qn with previous_node_id := some gn.1 }).1
    | none => sf
  | none => sf

/-- The splice tail of `add_child_to_node` preserves symmetry and node-file
well-formedness whenever the drawn child id is fresh and `after1` does not
name it. -/
theorem add_splice_preserves (sc : Store) (parent_id rid : Nat) (after1 : Option Nat)
    (hsym : SymF (load_node sc)) (hwfc : NodesWF sc)
    (hfresh : ∀ x X, load_node sc x = some X → x ≠ sc.idStream sc.idIdx ∧
      X.next_node_id ≠ some (sc.idStream sc.idIdx) ∧
      X.previous_node_id ≠ some (sc.idStream sc.idIdx))
    (hn0 : sc.idStream sc.idIdx ≠ 0)
    (haft : after1 ≠ some (sc.idStream sc.idIdx)) :
    SymF (load_node (add_splice sc parent_id rid after1)) ∧
    NodesWF (add_splice sc parent_id rid after1) := by
  have hni : NoIn (load_node sc) (sc.idStream sc.idIdx) :=
    fun x X hx => ⟨(hfresh x X hx).2.1, (hfresh x X hx).2.2⟩
  have hnz := nz_load sc hwfc
  cases hpv : truthyVal after1 with
  | none =>
    have hstep : add_splice sc parent_id rid after1 =
        (save_node (generate_id sc).2 (childRec sc parent_id rid after1 none)).1 := by
      unfold add_splice
      simp only [hpv]
      rfl
    have hAabs : (truthyVal after1).bind (load_node sc) = none := by
      rw [hpv]
      rfl
    have e1 : load_node (save_node (generate_id sc).2
          (childRec sc parent_id rid after1 none)).1 =
        wr (stampN (childRec sc parent_id rid after1 none) (generate_id sc).2.clock)
          (load_node sc) :=
      funext fun k => load_save_wr (generate_id sc).2 _ k
    rw [← hstep] at e1
    constructor
    · refine symF_congr (fun k => ?_)
        (symF_attach_none (load_node sc)
          (wr (stampN (childRec sc parent_id rid after1 none) (generate_id sc).2.clock)
            (load_node sc))
          (sc.idStream sc.idIdx) after1
          (stampN (childRec sc parent_id rid after1 none) (generate_id sc).2.clock)
          hsym hni hnz haft hAabs rfl rfl rfl rfl)
      exact (congrFun e1 k).symm
    · rw [hstep]
      exact nodesWF_save _ _ hwfc hn0
  | some aa =>
    obtain ⟨ha1, haa0⟩ := truthyVal_eq_some hpv
    have haana : aa ≠ sc.idStream sc.idIdx := fun he => haft (by rw [ha1, he])
    cases hal : load_node sc aa with
    | none =>
      have hsea : load_node (save_node (generate_id sc).2
          (childRec sc parent_id rid after1 none)).1 aa = none := by
        rw [load_save_wr]
        unfold wr
        rw [if_neg (show ¬(aa = (stampN (childRec sc parent_id rid after1 none)
            (generate_id sc).2.clock).node_id) from haana)]
        exact hal
      have hstep : add_splice sc parent_id rid after1 =
          (save_node (generate_id sc).2 (childRec sc parent_id rid after1 none)).1 := by
        unfold add_splice
        simp only [hpv, hal, hsea]
        rfl
      have hAabs : (truthyVal after1).bind (load_node sc) = none := by
        rw [hpv]
        exact hal
      have e1 : load_node (save_node (generate_id sc).2
            (childRec sc parent_id rid after1 none)).1 =
          wr (stampN (childRec sc parent_id rid after1 none) (generate_id sc).2.clock)
            (load_node sc) :=
        funext fun k => load_save_wr (generate_id sc).2 _ k
      rw [← hstep] at e1
      constructor
      · refine symF_congr (fun k => ?_)
          (symF_attach_none (load_node sc)
            (wr (stampN (childRec sc parent_id rid after1 none) (generate_id sc).2.clock)
              (load_node sc))
            (sc.idStream sc.idIdx) after1
            (stampN (childRec sc parent_id rid after1 none) (generate_id sc).2.clock)
            hsym hni hnz haft hAabs rfl rfl rfl rfl)
        exact (congrFun e1 k).symm
      · rw [hstep]
        exact nodesWF_save _ _ hwfc hn0
    | some an =>
      have haid : an.node_id = aa := load_node_id hal
      have hsean : load_node (save_node (generate_id sc).2
          (childRec sc parent_id rid after1 an.next_node_id)).1 aa = some an := by
        rw [load_save_wr]
        unfold wr
        rw [if_neg (show ¬(aa = (stampN (childRec sc parent_id rid after1 an.next_node_id)
            (generate_id sc).2.clock).node_id) from haana)]
        exact hal
      have e1 : load_node (save_node (generate_id sc).2
            (childRec sc parent_id rid after1 an.next_node_id)).1 =
          wr (stampN (childRec sc parent_id rid after1 an.next_node_id)
              (generate_id sc).2.clock)
            (load_node sc) :=
        funext fun k => load_save_wr (generate_id sc).2 _ k
      have e2 : load_node (save_node (save_node (generate_id sc).2
              (childRec sc parent_id rid after1 an.next_node_id)).1
            (withNext an (some (generate_id sc).1))).1 =
          wr (stampN (withNext an (some (generate_id sc).1))
              (save_node (generate_id sc).2
                (childRec sc parent_id rid after1 an.next_node_id)).1.clock)
            (load_node (save_node (generate_id sc).2
              (childRec sc parent_id rid after1 an.next_node_id)).1) :=
        funext fun k => load_save_wr (save_node (generate_id sc).2
          (childRec sc parent_id rid after1 an.next_node_id)).1
          (withNext an (some (generate_id sc).1)) k
      rw [e1] at e2
      cases hnx : truthyVal an.next_node_id with
      | none =>
        have hstep : add_splice sc parent_id rid after1 =
            (save_node (save_node (generate_id sc).2
                (childRec sc parent_id rid after1 an.next_node_id)).1
              (withNext an (some (generate_id sc).1))).1 := by
          unfold add_splice
          simp only [hpv, hal, hsean, hnx]
        have hBnone : ∀ t, truthyVal an.next_node_id = some t →
            load_node sc t = none ∧ t ≠ aa := by
          intro t ht
          rw [hnx] at ht
          exact Option.noConfusion ht
        constructor
        · refine symF_congr (fun k => ?_)
            (symF_insert_pa (load_node sc)
              (wr (stampN (withNext an (some (generate_id sc).1))
                  (save_node (generate_id sc).2
                    (childRec sc parent_id rid after1 an.next_node_id)).1.clock)
                (wr (stampN (childRec sc parent_id rid after1 an.next_node_id)
                    (generate_id sc).2.clock)
                  (load_node sc)))
              (sc.idStream sc.idIdx) aa an
              (stampN (childRec sc parent_id rid after1 an.next_node_id)
                (generate_id sc).2.clock)
              (stampN (withNext an (some (generate_id sc).1))
                (save_node (generate_id sc).2
                  (childRec sc parent_id rid after1 an.next_node_id)).1.clock)
              hsym hnz hfresh hal haa0 haana hBnone rfl ha1 rfl haid rfl rfl rfl)
          rw [hstep]
          exact (congrFun e2 k).symm
        · rw [hstep]
          exact nodesWF_save _ _ (nodesWF_save _ _ hwfc hn0)
            (fun he => haa0 (haid.symm.trans he))
      | some bb =>
        obtain ⟨hanb, hbb0⟩ := truthyVal_eq_some hnx
        have hbna : bb ≠ sc.idStream sc.idIdx :=
          fun he => (hfresh aa an hal).2.1 (by rw [hanb, he])
        by_cases hba : bb = aa
        · have hanb2 : an.next_node_id = some aa := by rw [hanb, hba]
          have hsfbb : load_node (save_node (save_node (generate_id sc).2
                (childRec sc parent_id rid after1 an.next_node_id)).1
              (withNext an (some (generate_id sc).1))).1 bb =
              some (stampN (withNext an (some (generate_id sc).1))
                (save_node (generate_id sc).2
                  (childRec sc parent_id rid after1 an.next_node_id)).1.clock) := by
            rw [congrFun e2 bb]
            unfold wr
            rw [if_pos (show bb = (stampN (withNext an (some (generate_id sc).1))
                (save_node (generate_id sc).2
                  (childRec sc parent_id rid after1 an.next_node_id)).1.clock).node_id
              from hba.trans haid.symm)]
          have hstep : add_splice sc parent_id rid after1 =
              (save_node (save_node (save_node (generate_id sc).2
                  (childRec sc parent_id rid after1 an.next_node_id)).1
                (withNext an (some (generate_id sc).1))).1
                (withPrev (stampN (withNext an (some (generate_id sc).1))
                  (save_node (generate_id sc).2
                    (childRec sc parent_id rid after1 an.next_node_id)).1.clock)
                  (some (generate_id sc).1))).1 := by
            unfold add_splice
            simp only [hpv, hal, hsean, hnx, hsfbb]
          have e3 : load_node (save_node (save_node (save_node (generate_id sc).2
                  (childRec sc parent_id rid after1 an.next_node_id)).1
                (withNext an (some (generate_id sc).1))).1
                (withPrev (stampN (withNext an (some (generate_id sc).1))
                  (save_node (generate_id sc).2
                    (childRec sc parent_id rid after1 an.next_node_id)).1.clock)
                  (some (generate_id sc).1))).1 =
              wr (stampN (withPrev (stampN (withNext an (some (generate_id sc).1))
                  (save_node (generate_id sc).2
                    (childRec sc parent_id rid after1 an.next_node_id)).1.clock)
                  (some (generate_id sc).1))
                (save_node (save_node (generate_id sc).2
                    (childRec sc parent_id rid after1 an.next_node_id)).1
                  (withNext an (some (generate_id sc).1))).1.clock)
              (load_node (save_node (save_node (generate_id sc).2
                  (childRec sc parent_id rid after1 an.next_node_id)).1
                (withNext an (some (generate_id sc).1))).1) :=
            funext fun k => load_save_wr _ _ k
          rw [e2] at e3
          constructor
          · refine symF_congr (fun k => ?_)
              (symF_insert_paa (load_node sc)
                (wr (stampN (withPrev (stampN (withNext an (some (generate_id sc).1))
                      (save_node (generate_id sc).2
                        (childRec sc parent_id rid after1 an.next_node_id)).1.clock)
                    (some (generate_id sc).1))
                    (save_node (save_node (generate_id sc).2
                        (childRec sc parent_id rid after1 an.next_node_id)).1
                      (withNext an (some (generate_id sc).1))).1.clock)
                  (wr (stampN (childRec sc parent_id rid after1 an.next_node_id)
                      (generate_id sc).2.clock)
                    (load_node sc)))
                (sc.idStream sc.idIdx) aa an
                (stampN (childRec sc parent_id rid after1 an.next_node_id)
                  (generate_id sc).2.clock)
                (stampN (withPrev (stampN (withNext an (some (generate_id sc).1))
                    (save_node (generate_id sc).2
                      (childRec sc parent_id rid after1 an.next_node_id)).1.clock)
                  (some (generate_id sc).1))
                  (save_node (save_node (generate_id sc).2
                      (childRec sc parent_id rid after1 an.next_node_id)).1
                    (withNext an (some (generate_id sc).1))).1.clock)
                hsym hfresh hal haana hanb2 rfl ha1 hanb2 haid rfl rfl rfl)
            rw [hstep, congrFun e3 k]
            unfold wr
            by_cases h1 : k = (stampN (withPrev (stampN (withNext an
                (some (generate_id sc).1))
                (save_node (generate_id sc).2
                  (childRec sc parent_id rid after1 an.next_node_id)).1.clock)
                (some (generate_id sc).1))
                (save_node (save_node (generate_id sc).2
                    (childRec sc parent_id rid after1 an.next_node_id)).1
                  (withNext an (some (generate_id sc).1))).1.clock).node_id
            · rw [if_pos h1, if_pos h1]
            · rw [if_neg h1, if_neg h1,
                if_neg (show ¬(k = (stampN (withNext an (some (generate_id sc).1))
                  (save_node (generate_id sc).2
                    (childRec sc parent_id rid after1 an.next_node_id)).1.clock).node_id)
                  from fun he => h1 he)]
          · rw [hstep]
            exact nodesWF_save _ _
              (nodesWF_save _ _ (nodesWF_save _ _ hwfc hn0)
                (fun he => haa0 (haid.symm.trans he)))
              (fun he => haa0 (haid.symm.trans he))
        · cases hbl : load_node sc bb with
          | none =>
            have hsfbbn : load_node (save_node (save_node (generate_id sc).2
                  (childRec sc parent_id rid after1 an.next_node_id)).1
                (withNext an (some (generate_id sc).1))).1 bb = none := by
              rw [congrFun e2 bb]
              unfold wr
              rw [if_neg (show ¬(bb = (stampN (withNext an (some (generate_id sc).1))
                    (save_node (generate_id sc).2
                      (childRec sc parent_id rid after1 an.next_node_id)).1.clock).node_id)
                  from fun he => hba (he.trans haid)),
                if_neg (show ¬(bb = (stampN (childRec sc parent_id rid after1
                    an.next_node_id) (generate_id sc).2.clock).node_id) from hbna)]
              exact hbl
            have hstep : add_splice sc parent_id rid after1 =
                (save_node (save_node (generate_id sc).2
                    (childRec sc parent_id rid after1 an.next_node_id)).1
                  (withNext an (some (generate_id sc).1))).1 := by
              unfold add_splice
              simp only [hpv, hal, hsean, hnx, hsfbbn]
            have hBnone : ∀ t, truthyVal an.next_node_id = some t →
                load_node sc t = none ∧ t ≠ aa := by
              intro t ht
              rw [hnx] at ht
              obtain rfl := Option.some.inj ht
              exact ⟨hbl, hba⟩
            constructor
            · refine symF_congr (fun k => ?_)
                (symF_insert_pa (load_node sc)
                  (wr (stampN (withNext an (some (generate_id sc).1))
                      (save_node (generate_id sc).2
                        (childRec sc parent_id rid after1 an.next_node_id)).1.clock)
                    (wr (stampN (childRec sc parent_id rid after1 an.next_node_id)
                        (generate_id sc).2.clock)
                      (load_node sc)))
                  (sc.idStream sc.idIdx) aa an
                  (stampN (childRec sc parent_id rid after1 an.next_node_id)
                    (generate_id sc).2.clock)
                  (stampN (withNext an (some (generate_id sc).1))
                    (save_node (generate_id sc).2
                      (childRec sc parent_id rid after1 an.next_node_id)).1.clock)
                  hsym hnz hfresh hal haa0 haana hBnone rfl ha1 rfl haid rfl rfl rfl)
              rw [hstep]
              exact (congrFun e2 k).symm
            · rw [hstep]
              exact nodesWF_save _ _ (nodesWF_save _ _ hwfc hn0)
                (fun he => haa0 (haid.symm.trans he))
          | some b =>
            have hbid : b.node_id = bb := load_node_id hbl
            have hsfbb : load_node (save_node (save_node (generate_id sc).2
                  (childRec sc parent_id rid after1 an.next_node_id)).1
                (withNext an (some (generate_id sc).1))).1 bb = some b := by
              rw [congrFun e2 bb]
              unfold wr
              rw [if_neg (show ¬(bb = (stampN (withNext an (some (generate_id sc).1))
                    (save_node (generate_id sc).2
                      (childRec sc parent_id rid after1 an.next_node_id)).1.clock).node_id)
                  from fun he => hba (he.trans haid)),
                if_neg (show ¬(bb = (stampN (childRec sc parent_id rid after1
                    an.next_node_id) (generate_id sc).2.clock).node_id) from hbna)]
              exact hbl
            have hstep : add_splice sc parent_id rid after1 =
                (save_node (save_node (save_node (generate_id sc).2
                    (childRec sc parent_id rid after1 an.next_node_id)).1
                  (withNext an (some (generate_id sc).1))).1
                  (withPrev b (some (generate_id sc).1))).1 := by
              unfold add_splice
              simp only [hpv, hal, hsean, hnx, hsfbb]
            have e3 : load_node (save_node (save_node (save_node (generate_id sc).2
                    (childRec sc parent_id rid after1 an.next_node_id)).1
                  (withNext an (some (generate_id sc).1))).1
                  (withPrev b (some (generate_id sc).1))).1 =
                wr (stampN (withPrev b (some (generate_id sc).1))
                  (save_node (save_node (generate_id sc).2
                      (childRec sc parent_id rid after1 an.next_node_id)).1
                    (withNext an (some (generate_id sc).1))).1.clock)
                (load_node (save_node (save_node (generate_id sc).2
                    (childRec sc parent_id rid after1 an.next_node_id)).1
                  (withNext an (some (generate_id sc).1))).1) :=
              funext fun k => load_save_wr _ _ k
            rw [e2] at e3
            have heq : wr (stampN (withPrev b (some (generate_id sc).1))
                  (save_node (save_node (generate_id sc).2
                      (childRec sc parent_id rid after1 an.next_node_id)).1
                    (withNext an (some (generate_id sc).1))).1.clock)
                (wr (stampN (withNext an (some (generate_id sc).1))
                    (save_node (generate_id sc).2
                      (childRec sc parent_id rid after1 an.next_node_id)).1.clock)
                  (wr (stampN (childRec sc parent_id rid after1 an.next_node_id)
                      (generate_id sc).2.clock)
                    (load_node sc))) =
                wr (stampN (childRec sc parent_id rid after1 an.next_node_id)
                    (generate_id sc).2.clock)
                  (wr (stampN (withPrev b (some (generate_id sc).1))
                      (save_node (save_node (generate_id sc).2
                          (childRec sc parent_id rid after1 an.next_node_id)).1
                        (withNext an (some (generate_id sc).1))).1.clock)
                    (wr (stampN (withNext an (some (generate_id sc).1))
                        (save_node (generate_id sc).2
                          (childRec sc parent_id rid after1 an.next_node_id)).1.clock)
                      (load_node sc))) := by
              rw [wr_comm (stampN (withNext an (some (generate_id sc).1))
                  (save_node (generate_id sc).2
                    (childRec sc parent_id rid after1 an.next_node_id)).1.clock)
                (stampN (childRec sc parent_id rid after1 an.next_node_id)
                  (generate_id sc).2.clock)
                (load_node sc)
                (fun he => haana (haid.symm.trans he))]
              rw [wr_comm (stampN (withPrev b (some (generate_id sc).1))
                  (save_node (save_node (generate_id sc).2
                      (childRec sc parent_id rid after1 an.next_node_id)).1
                    (withNext an (some (generate_id sc).1))).1.clock)
                (stampN (childRec sc parent_id rid after1 an.next_node_id)
                  (generate_id sc).2.clock)
                (wr (stampN (withNext an (some (generate_id sc).1))
                    (save_node (generate_id sc).2
                      (childRec sc parent_id rid after1 an.next_node_id)).1.clock)
                  (load_node sc))
                (fun he => hbna (hbid.symm.trans he))]
            constructor
            · refine symF_congr (fun k => ?_)
                (symF_attach_ab (load_node sc)
                  (wr (stampN (childRec sc parent_id rid after1 an.next_node_id)
                      (generate_id sc).2.clock)
                    (wr (stampN (withPrev b (some (generate_id sc).1))
                        (save_node (save_node (generate_id sc).2
                            (childRec sc parent_id rid after1 an.next_node_id)).1
                          (withNext an (some (generate_id sc).1))).1.clock)
                      (wr (stampN (withNext an (some (generate_id sc).1))
                          (save_node (generate_id sc).2
                            (childRec sc parent_id rid after1 an.next_node_id)).1.clock)
                        (load_node sc))))
                  (sc.idStream sc.idIdx) aa bb after1 an b
                  (stampN (childRec sc parent_id rid after1 an.next_node_id)
                    (generate_id sc).2.clock)
                  (stampN (withNext an (some (generate_id sc).1))
                    (save_node (generate_id sc).2
                      (childRec sc parent_id rid after1 an.next_node_id)).1.clock)
                  (stampN (withPrev b (some (generate_id sc).1))
                    (save_node (save_node (generate_id sc).2
                        (childRec sc parent_id rid after1 an.next_node_id)).1
                      (withNext an (some (generate_id sc).1))).1.clock)
                  hsym hni hnz hpv hal hanb hbb0 hbl haana hbna hba
                  rfl ha1 hanb haid rfl rfl hbid rfl rfl rfl)
              rw [hstep, congrFun e3 k]
              exact (congrFun heq k).symm
            · rw [hstep]
              exact nodesWF_save _ _
                (nodesWF_save _ _ (nodesWF_save _ _ hwfc hn0)
                  (fun he => haa0 (haid.symm.trans he)))
                (fun he => hbb0 (hbid.symm.trans he))

/-- The Component record `add_child_to_node` creates from the request data. -/
@[reducible] def newComp (s : Store) (cdata : CompData) : Component :=
  { comp_id := (generate_id s).1, reference_count := 0,
    created_at := (generate_id s).2.clock, updated_at := (generate_id s).2.clock,
    data := cdata }

/-- The store-and-ref-id pair after `add_child_to_node` has created the
component and attached the reference, before any node is written. -/
@[reducible] def childCR (s : Store) (cdata : CompData) : Store × Nat :=
  create_reference_to_component (save_component (generate_id s).2 (newComp s cdata)).1
    (generate_id s).1 none 0

@[reducible] def childStore (s : Store) (cdata : CompData) : Store :=
  (childCR s cdata).1

@[reducible] def childRefId (s : Store) (cdata : CompData) : Nat :=
  (childCR s cdata).2

/-- The parent's component as `add_child_to_node` resolves it. -/
@[reducible] def childPC (s : Store) (parent : Node) (cdata : CompData) : Option Component :=
  match load_reference (childStore s cdata) parent.ref_id with
  | some pr => load_component_by_id (childStore s cdata) pr.comp_id
  | none => none

/-- The insertion point `add_child_to_node` computes (walk to the last
sibling of the container's first child when no `after` is given). -/
@[reducible] def childAfter (s : Store) (parent : Node) (cdata : CompData)
    (after0 : Option Nat) (walk_fuel : Nat) : Option Nat :=
  match childPC s parent cdata with
  | some pc =>
    if pc.isContainer then
      if !(truthyN after0) && truthyN pc.child_node_id then
        match pc.child_node_id with
        | some ch => find_last_sibling (childStore s cdata) walk_fuel ch
        | none => after0
      else after0
    else after0
  | none => after0

/-- The final `child_node_id` update of `add_child_to_node` (a pure
component write on top of the spliced store). -/
@[reducible] def shWrap (pcOpt : Option Component) (sg : Store) (gid : Nat) : Store :=
  match pcOpt with
  | some pc =>
    if pc.isContainer && !(truthyN pc.child_node_id) then
      (save_component sg (pc.withChild (some gid))).1
    else sg
  | none => sg

theorem shWrap_nodes (pcOpt : Option Component) (sg : Store) (gid : Nat) :
    (shWrap pcOpt sg gid).nodes = sg.nodes := by
  cases pcOpt with
  | none => rfl
  | some pc =>
    show (if pc.isContainer && !(truthyN pc.child_node_id) then
        (save_component sg (pc.withChild (some gid))).1 else sg).nodes = sg.nodes
    split
    · exact save_component_nodes _ _
    · rfl

/-- On a present parent, `add_child_to_node` is the component/reference
creation followed by the node splice and the `child_node_id` wrapper. -/
theorem add_child_sh (s : Store) (parent_id : Nat) (parent : Node) (cdata : CompData)
    (after0 : Option Nat) (walk_fuel : Nat) (hl : load_node s parent_id = some parent) :
    (add_child_to_node s parent_id cdata after0 walk_fuel).1 =
    shWrap (childPC s parent cdata)
      (add_splice (childStore s cdata) parent_id (childRefId s cdata)
        (childAfter s parent cdata after0 walk_fuel))
      (generate_id (childStore s cdata)).1 := by
  unfold add_child_to_node
  rw [hl]
  rfl

theorem childStore_nodes (s : Store) (cdata : CompData) :
    (childStore s cdata).nodes = s.nodes :=
  (create_reference_frame (save_component (generate_id s).2 (newComp s cdata)).1
    (generate_id s).1 none 0).1.trans
    (save_component_nodes (generate_id s).2 (newComp s cdata))

theorem childStore_idIdx (s : Store) (cdata : CompData) :
    (childStore s cdata).idIdx = s.idIdx + 2 :=
  (create_reference_frame (save_component (generate_id s).2 (newComp s cdata)).1
    (generate_id s).1 none 0).2.1

theorem childStore_idStream (s : Store) (cdata : CompData) :
    (childStore s cdata).idStream = s.idStream :=
  (create_reference_frame (save_component (generate_id s).2 (newComp s cdata)).1
    (generate_id s).1 none 0).2.2

/-- `create` (`add_child_to_node`) preserves sibling symmetry and
well-formed node files when the drawn child id passes the freshness
checks of `addChildOk`. -/
theorem add_child_preserves (s : Store) (parent_id : Nat) (cdata : CompData)
    (after0 : Option Nat) (walk_fuel : Nat)
    (hwf : NodesWF s) (hsym : SymF (load_node s))
    (hok : addChildOk s parent_id cdata after0 = true) :
    SymF (load_node (add_child_to_node s parent_id cdata after0 walk_fuel).1) ∧
    NodesWF (add_child_to_node s parent_id cdata after0 walk_fuel).1 := by
  cases hl : load_node s parent_id with
  | none =>
    have hid : (add_child_to_node s parent_id cdata after0 walk_fuel).1 = s := by
      unfold add_child_to_node
      rw [hl]
    rw [hid]
    exact ⟨hsym, hwf⟩
  | some parent =>
    unfold addChildOk at hok
    rw [hl] at hok
    simp only [Bool.and_eq_true] at hok
    obtain ⟨⟨⟨⟨hk1, hk2⟩, hk3⟩, hk4⟩, hk5⟩ := hok
    have hna : (childStore s cdata).idStream (childStore s cdata).idIdx =
        s.idStream (s.idIdx + 2) := by
      rw [childStore_idStream, childStore_idIdx]
    have flink : ∀ k, load_node (childStore s cdata) k = load_node s k :=
      fun k => load_node_congr (childStore_nodes s cdata) k
    have hsym2 : SymF (load_node (childStore s cdata)) :=
      symF_congr (fun k => (flink k).symm) hsym
    have hwf2 : NodesWF (childStore s cdata) :=
      nodesWF_congr (childStore_nodes s cdata) hwf
    have hn0 : (childStore s cdata).idStream (childStore s cdata).idIdx ≠ 0 := by
      rw [hna]
      exact bne_ne hk1
    have hfresh : ∀ x X, load_node (childStore s cdata) x = some X →
        x ≠ (childStore s cdata).idStream (childStore s cdata).idIdx ∧
        X.next_node_id ≠ some ((childStore s cdata).idStream (childStore s cdata).idIdx) ∧
        X.previous_node_id ≠
          some ((childStore s cdata).idStream (childStore s cdata).idIdx) := by
      simp only [hna]
      intro x X hx
      rw [flink x] at hx
      have h3 := List.all_eq_true.mp hk3 X (load_node_mem hx)
      simp only [Bool.and_eq_true] at h3
      refine ⟨?_, bne_ne h3.1.2, bne_ne h3.2⟩
      have hid := load_node_id hx
      rw [← hid]
      exact bne_ne h3.1.1
    have hcd_child : ∀ q : Component, q.data = cdata →
        q.child_node_id ≠ some (s.idStream (s.idIdx + 2)) := by
      intro q hq hcontra
      unfold Component.child_node_id at hcontra
      rw [hq] at hcontra
      cases hcc : cdata.containerChild with
      | none =>
        simp only [hcc] at hcontra
        exact Option.noConfusion hcontra
      | some ch =>
        simp only [hcc] at hcontra hk5
        exact bne_ne hk5 hcontra
    have hcomp_child : ∀ q : Component, q ∈ (childStore s cdata).comps →
        q.child_node_id ≠ some (s.idStream (s.idIdx + 2)) := by
      intro q hq
      rcases create_reference_comps_mem
          (save_component (generate_id s).2 (newComp s cdata)).1
          (generate_id s).1 none 0 hq with hq1 | ⟨c0, hc0, hdata⟩
      · rcases mem_putBy compKey _ q _ hq1 with hq2 | hq2
        · exact hcd_child q (by rw [hq2])
        · exact bne_ne (List.all_eq_true.mp hk4 q hq2)
      · rcases mem_putBy compKey _ c0 _ hc0 with hc2 | hc2
        · exact hcd_child q (by rw [hdata, hc2])
        · have hqc : q.child_node_id = c0.child_node_id := by
            unfold Component.child_node_id
            rw [hdata]
          rw [hqc]
          exact bne_ne (List.all_eq_true.mp hk4 c0 hc2)
    have haft : childAfter s parent cdata after0 walk_fuel ≠
        some ((childStore s cdata).idStream (childStore s cdata).idIdx) := by
      simp only [hna]
      cases hpc : childPC s parent cdata with
      | none =>
        have he : childAfter s parent cdata after0 walk_fuel = after0 := by
          unfold childAfter
          simp only [hpc]
        rw [he]
        exact bne_ne hk2
      | some pc =>
        have hpcm : pc ∈ (childStore s cdata).comps := by
          unfold childPC at hpc
          cases hlr : load_reference (childStore s cdata) parent.ref_id with
          | none =>
            simp only [hlr] at hpc
            exact Option.noConfusion hpc
          | some pr =>
            simp only [hlr] at hpc
            exact load_component_by_id_mem hpc
        have hpcc := hcomp_child pc hpcm
        have he : childAfter s parent cdata after0 walk_fuel = after0 ∨
            ∃ ch, pc.child_node_id = some ch ∧
              childAfter s parent cdata after0 walk_fuel =
                find_last_sibling (childStore s cdata) walk_fuel ch := by
          unfold childAfter
          simp only [hpc]
          split
          · split
            · split
              · rename_i ch hch
                exact Or.inr ⟨ch, hch, rfl⟩
              · exact Or.inl rfl
            · exact Or.inl rfl
          · exact Or.inl rfl
        rcases he with he | ⟨ch, hch, he⟩
        · rw [he]
          exact bne_ne hk2
        · rw [he]
          intro hr
          rcases find_last_sibling_spec (childStore s cdata) walk_fuel ch
              (s.idStream (s.idIdx + 2)) hr with hre | ⟨x, X, hx1, hx2⟩
          · exact hpcc (by rw [hch, hre])
          · have hx3 : load_node s x = some X := (flink x).symm.trans hx1
            have h3 := List.all_eq_true.mp hk3 X (load_node_mem hx3)
            simp only [Bool.and_eq_true] at h3
            exact bne_ne h3.1.2 hx2
    have hmain := add_splice_preserves (childStore s cdata) parent_id
      (childRefId s cdata) (childAfter s parent cdata after0 walk_fuel)
      hsym2 hwf2 hfresh hn0 haft
    have hfn : (add_child_to_node s parent_id cdata after0 walk_fuel).1.nodes =
        (add_splice (childStore s cdata) parent_id (childRefId s cdata)
          (childAfter s parent cdata after0 walk_fuel)).nodes := by
      rw [add_child_sh s parent_id parent cdata after0 walk_fuel hl]
      exact shWrap_nodes _ _ _
    exact ⟨symF_congr (fun k => (load_node_congr hfn k).symm) hmain.1,
      nodesWF_congr hfn hmain.2⟩

/-- Any dynamically valid sequence of tree operations preserves
well-formedness of the node files and sibling-link symmetry. -/
theorem treeOps_preserve (ops : List TreeOp) : ∀ s : Store,
    NodesWF s → SymF (load_node s) → treeOpsOk s ops = true →
    NodesWF (applyTreeOps s ops) ∧ SymF (load_node (applyTreeOps s ops)) := by
  induction ops with
  | nil =>
    intro s hwf hsym _
    exact ⟨hwf, hsym⟩
  | cons op rest ih =>
    intro s hwf hsym hok
    unfold treeOpsOk at hok
    simp only [Bool.and_eq_true] at hok
    obtain ⟨hok1, hok2⟩ := hok
    have hstep : NodesWF (applyTreeOp s op) ∧ SymF (load_node (applyTreeOp s op)) := by
      cases op with
      | addChild parent cdata after0 wfuel =>
        have h := add_child_preserves s parent cdata after0 wfuel hwf hsym hok1
        exact ⟨h.2, h.1⟩
      | move nid np af =>
        have h := move_node_preserves s nid np af hwf hsym hok1
        exact ⟨h.2, h.1⟩
      | deleteSubtree fuel nid =>
        have h := deleteSubtree_preserves fuel s nid hwf hsym
        exact ⟨h.2, h.1⟩
    exact ih (applyTreeOp s op) hstep.1 hstep.2 hok2

/-- C6 counterexample store: a symmetric three-node sibling chain
1 -> 2 -> 3 under parent 10. -/
def c6store : Store :=
  { nodes := [
      { node_id := 1, ref_id := 0, parent_node_id := some 10,
        previous_node_id := none, next_node_id := some 2,
        created_at := 0, updated_at := 0 },
      { node_id := 2, ref_id := 0, parent_node_id := some 10,
        previous_node_id := some 1, next_node_id := some 3,
        created_at := 0, updated_at := 0 },
      { node_id := 3, ref_id := 0, parent_node_id := some 10,
        previous_node_id := some 2, next_node_id := none,
        created_at := 0, updated_at := 0 }],
    refs := [], comps := [], clock := 0,
    idStream := fun _ => 0, idIdx := 0, trace := [] }

/-- A second C6 counterexample store: a symmetric two-node sibling
cycle 1 <-> 2 (each the other's previous and next). -/
def c6store2 : Store :=
  { nodes := [
      { node_id := 1, ref_id := 0, parent_node_id := some 10,
        previous_node_id := some 2, next_node_id := some 2,
        created_at := 0, updated_at := 0 },
      { node_id := 2, ref_id := 0, parent_node_id := some 10,
        previous_node_id := some 1, next_node_id := some 1,
        created_at := 0, updated_at := 0 }],
    refs := [], comps := [], clock := 0,
    idStream := fun _ => 0, idIdx := 0, trace := [] }

/-- C6 (counterexamples to the unconditional claim): the route accepts
moves that break sibling symmetry on stores where it holds.  (i) On the
symmetric chain 1 -> 2 -> 3, the self-after move `move(2, after=2)`
leaves node 1 with `next_node_id = 3` while node 3 keeps
`previous_node_id = 2`.  (ii) Requiring only that `after` differ from
the moved node is still not enough: on the symmetric two-node cycle
1 <-> 2, `move(1, after=2)` (with `after` distinct from the moved node)
leaves node 1 with `next_node_id = 1` but `previous_node_id = 2`. -/
theorem sibling_symmetry_counterexample :
    (SymNodes c6store.nodes ∧ NodesWF c6store ∧
      ¬ SymNodes (applyTreeOps c6store [TreeOp.move 2 (some 10) (some 2)]).nodes) ∧
    (SymNodes c6store2.nodes ∧ NodesWF c6store2 ∧
      ¬ SymNodes (applyTreeOps c6store2 [TreeOp.move 1 (some 10) (some 2)]).nodes) := by
  decide

/-- C6 (corrected): starting from any store with well-formed node files
(distinct, nonzero ids) whose sibling links are symmetric, after any
sequence of create (`add_child_to_node`), move (`move_node`) and
deleteSubtree (`delete_node_tree`) operations each of which passes its
dynamic validity guard (`treeOpsOk`), every Node whose `next_node_id`
names a node B has B's `previous_node_id` equal to its own id, and
symmetrically.  The guard for a move (`moveOk`) demands: `after` is not
the moved node; the moved node's stored sibling pointers do not name the
node itself and, when both are set, are distinct; and the insertion
neighbours read back during the splice do not fold onto the moved node
or coincide with each other.  The guard for a create (`addChildOk`)
demands the drawn node id be nonzero, distinct from the requested
`after`, and unreferenced by any existing node id, sibling pointer, or
container `child_node_id`.  deleteSubtree needs no guard. -/
theorem sibling_symmetry_preserved (s : Store) (ops : List TreeOp)
    (hwf : NodesWF s) (hsym : SymNodes s.nodes)
    (hok : treeOpsOk s ops = true) :
    SymNodes (applyTreeOps s ops).nodes := by
  have h0 := (symNodes_iff_symF hwf.1).mp hsym
  have h := treeOps_preserve ops s hwf h0 hok
  exact (symNodes_iff_symF h.1.1).mpr h.2

/-- C6 witness: the valid move `move(2, new_parent=10, after=3)` on the
three-node chain keeps the sibling links symmetric. -/
theorem sibling_symmetry_preserved_witness :
    NodesWF c6store ∧ SymNodes c6store.nodes ∧
    treeOpsOk c6store [TreeOp.move 2 (some 10) (some 3)] = true ∧
    SymNodes (applyTreeOps c6store [TreeOp.move 2 (some 10) (some 3)]).nodes :=
  ⟨by decide, by decide, by decide,
    sibling_symmetry_preserved c6store [TreeOp.move 2 (some 10) (some 3)]
      (by decide) (by decide) (by decide)⟩


end ContentGraph
